import Mathlib

/-!
XMODEM receive-and-program routine, QSPI benchmark menu, non-secure flash write.

A shallow embedding of `XmodemDownloadAndProgramFlash` (xmodem.c), of the block-size entry of
`ext_display_menu` (menu_ext.c) and of `flash_write_ns` (flash_access_ns.c), and theorems
about them.  The definitions of the three programs come first, the theorems after them.

The routine talks to two collaborators, the transport (`comms_send`, `comms_read`) and the
flash programming service (`tfm_platform_flash_write`).  Both are modelled by a `World` that
holds the results the collaborators are going to give, in order, and the trace of the calls
made so far.  Machine integers are natural numbers with explicit reduction modulo the width
of the C type (`unsigned char`: 256, `unsigned long` / `uint32_t`: 2^32).
-/

namespace Xmodem

set_option maxRecDepth 100000

/-! ## Constants and enumerations of the absent headers -/

/-- Modelled from the spec: the macro `SOH` of xmodem.h (absent), the start-of-data marker,
with the value of the classic XMODEM protocol. -/
def SOH : Nat := 0x01

/-- Modelled from the spec: the macro `EOT` of xmodem.h (absent), the end-of-transfer marker,
with the value of the classic XMODEM protocol. -/
def EOT : Nat := 0x04

/-- Modelled from the spec: the macro `ACK` of xmodem.h (absent), the positive
acknowledgement, with the value of the classic XMODEM protocol. -/
def ACK : Nat := 0x06

/-- Modelled from the spec: the macro `NAK` of xmodem.h (absent), the negative
acknowledgement, with the value of the classic XMODEM protocol. -/
def NAK : Nat := 0x15

/-- Modelled from the spec: the macro `CAN` of xmodem.h (absent), the cancel byte, with the
value of the classic XMODEM protocol. -/
def CAN : Nat := 0x18

/-- Modelled from the spec: the status macros of xmodem.h (absent) that the routine stores in
`xm_ret` (`OK`, `XM_TOUT`, `XM_ERROR`) or returns (`XM_OK`, `XM_ERROR`, `XM_TIMEOUT`,
`XM_PROG_FAIL`), and the address status of its header comment, which it never uses.  The spec
lists them as different outcomes, so they are the members of an enumeration. -/
inductive XmCode where
  | OK
  | XM_TOUT
  | XM_ERROR
  | XM_OK
  | XM_ADDRESS_ERROR
  | XM_TIMEOUT
  | XM_PROG_FAIL
deriving DecidableEq, Repr

/-- Modelled from the spec: the result type of `comms_read` (FSP headers absent).  The routine
tells apart success, timeout, and every other member. -/
inductive fsp_err_t where
  | FSP_SUCCESS
  | FSP_ERR_TIMEOUT
  | FSP_ERR_OTHER (code : Nat)
deriving DecidableEq, Repr

/-- Modelled from the spec: the result type of `tfm_platform_flash_write` (TF-M headers
absent).  The routine tells apart success and every other member. -/
inductive tfm_platform_err_t where
  | TFM_PLATFORM_ERR_SUCCESS
  | TFM_PLATFORM_ERR_OTHER (code : Nat)
deriving DecidableEq, Repr

/-! ## The collaborators -/

/-- What one call of `comms_read` does: the error code it returns and the bytes it has stored
at the start of the receive buffer. -/
structure ReadResult where
  err : fsp_err_t
  data : List Nat
deriving DecidableEq, Repr

/-- One call to a collaborator, with its arguments and its result. -/
inductive Event where
  | comms_send (tx_byte : Nat) (len : Nat)
  | comms_read (rx_len : Nat) (timeout : Nat) (result : ReadResult)
  | tfm_platform_flash_write (src : List Nat) (dst : Nat) (len : Nat)
      (status : tfm_platform_err_t)
deriving DecidableEq, Repr

/-- The environment of the routine: the results of the coming `comms_read` calls, the results
of the coming `tfm_platform_flash_write` calls, and the calls made so far, oldest first. -/
structure World where
  rx : List ReadResult
  flash : List tfm_platform_err_t
  trace : List Event
deriving DecidableEq, Repr

/-- Modelled from the spec: `comms_send` (comms.c absent) sends `len` bytes; the routine only
ever sends the single byte `tx_byte`. -/
def comms_send (tx_byte len : Nat) (w : World) : World :=
  { w with trace := w.trace ++ [Event.comms_send tx_byte len] }

/-- Modelled from the spec: `comms_read` (comms.c absent) waits up to `timeout` ms for up to
`rx_len` bytes.  It gives the next result of the transport; `none` when the transport has no
further result, that is, the call does not come back. -/
def comms_read (rx_len timeout : Nat) (w : World) : Option (ReadResult × World) :=
  match w.rx with
  | [] => none
  | r :: rest =>
    some (r, { w with rx := rest, trace := w.trace ++ [Event.comms_read rx_len timeout r] })

/-- Modelled from the spec: `tfm_platform_flash_write` (TF-M absent) writes `len` bytes `src`
at `dst`.  It gives the next result of the programming service; `none` when there is none.  -/
def tfm_platform_flash_write (src : List Nat) (dst len : Nat) (w : World) :
    Option (tfm_platform_err_t × World) :=
  match w.flash with
  | [] => none
  | st :: rest =>
    some (st, { w with flash := rest,
                       trace := w.trace ++ [Event.tfm_platform_flash_write src dst len st] })

/-! ## The routine -/

/-- `RxByteBuffer[i]`, an `unsigned char`, after `memset(RxByteBuffer, 0, 132)` and a
`comms_read` that stored `data`: the byte stored at `i`, or 0 where nothing was stored. -/
def RxByteBuffer (data : List Nat) (i : Nat) : Nat :=
  data.getD i 0 % 256

/-- The 128 bytes at `&RxByteBuffer[3]`, which is what the routine hands to the flash write. -/
def payload (data : List Nat) : List Nat :=
  (List.range 128).map (fun i => RxByteBuffer data (i + 3))

/-- The local variables that live across iterations of the `while(1)` loop. -/
structure Session where
  ExpectedBlkNum : Nat
  StartCondition : Nat
  Address : Nat
deriving DecidableEq, Repr

/-- Result of the receive loop: it ended with `xm_ret` and the buffer holding `data`, or a
`comms_read` did not come back. -/
inductive Rx where
  | done (xm_ret : XmCode) (data : List Nat) (w : World)
  | blocked (w : World)
deriving DecidableEq, Repr

/-- The inner loop `while ((RetryCounter > 0) && (xm_ret == XM_TOUT))` (lines 67-115); the
first argument after `StartCondition` is `RetryCounter`. -/
def receiveLoop (StartCondition : Nat) : Nat → XmCode → List Nat → World → Rx
  | 0, xm_ret, data, w => Rx.done xm_ret data w
  | RetryCounter + 1, xm_ret, data, w =>
    if xm_ret = XmCode.XM_TOUT then
      if StartCondition = 0 then
        let w1 := comms_send NAK 1 w
        match comms_read 132 10000 w1 with
        | none => Rx.blocked w1
        | some (r, w2) =>
          let xm_ret1 :=
            if r.err = fsp_err_t.FSP_SUCCESS then XmCode.OK
            else if r.err = fsp_err_t.FSP_ERR_TIMEOUT then XmCode.XM_TOUT
            else XmCode.XM_ERROR
          receiveLoop StartCondition RetryCounter xm_ret1 r.data w2
      else
        match comms_read 132 1000 w with
        | none => Rx.blocked w
        | some (r, w2) =>
          let xm_ret1 :=
            if r.err = fsp_err_t.FSP_SUCCESS then XmCode.OK
            else if r.err = fsp_err_t.FSP_ERR_TIMEOUT then XmCode.XM_TOUT
            else XmCode.XM_ERROR
          receiveLoop StartCondition RetryCounter xm_ret1 r.data w2
    else Rx.done xm_ret data w

/-- The loop `for (RxByteBufferIndex=0; RxByteBufferIndex<128; RxByteBufferIndex++)
cs += RxByteBuffer[RxByteBufferIndex + 3];` (lines 144-147), from index `idx` and accumulator
`cs`; the first argument bounds the number of iterations. -/
def checksumLoop (data : List Nat) : Nat → Nat → Int → Int
  | 0, _, cs => cs
  | fuel + 1, idx, cs =>
    if idx < 128 then
      checksumLoop data fuel ((idx + 1) % 256) (cs + (RxByteBuffer data (idx + 3) : Int))
    else cs

/-- The value of `checksum` at line 150: `cs` converted to `unsigned char`. -/
def checksum (data : List Nat) : Nat :=
  (checksumLoop data 256 0 0 % 256).toNat

/-- The condition negated at line 154, with the operands promoted to `int` as in C. -/
abbrev frameAccepted (ExpectedBlkNum : Nat) (data : List Nat) : Prop :=
  RxByteBuffer data 0 = SOH ∧
  ((RxByteBuffer data 1 = ExpectedBlkNum) ∨
    ((RxByteBuffer data 1 : Int) = (ExpectedBlkNum : Int) - 1)) ∧
  RxByteBuffer data 2 + RxByteBuffer data 1 = 255 ∧
  RxByteBuffer data 131 = checksum data

/-- What one iteration of `while(1)` ends in: a `return`, the next iteration, or a
collaborator call that did not come back. -/
inductive Step where
  | ret (status : XmCode) (w : World)
  | next (s : Session) (w : World)
  | blocked (w : World)
deriving DecidableEq, Repr

/-- Lines 119-210: what the routine does once the receive loop has ended with `xm_ret` and
the buffer `data`; `s` already has `StartCondition = 1`. -/
def handleFrame (s : Session) (xm_ret : XmCode) (data : List Nat) (w : World) : Step :=
  if xm_ret = XmCode.XM_ERROR then Step.ret XmCode.XM_ERROR w
  else if xm_ret = XmCode.XM_TOUT then Step.ret XmCode.XM_TIMEOUT w
  else if RxByteBuffer data 0 = EOT then Step.ret XmCode.XM_OK (comms_send ACK 1 w)
  else if ¬ frameAccepted s.ExpectedBlkNum data then Step.next s (comms_send NAK 1 w)
  else if RxByteBuffer data 1 = s.ExpectedBlkNum then
    match tfm_platform_flash_write (payload data) (s.Address % 2 ^ 32) 128 w with
    | none => Step.blocked w
    | some (tfm_err_status, w1) =>
      if tfm_err_status = tfm_platform_err_t.TFM_PLATFORM_ERR_SUCCESS then
        Step.next
          { s with Address := (s.Address + 128) % 2 ^ 32,
                   ExpectedBlkNum := (s.ExpectedBlkNum + 1) % 256 }
          (comms_send ACK 1 w1)
      else
        Step.ret XmCode.XM_PROG_FAIL (comms_send CAN 1 (comms_send NAK 1 w1))
  else Step.next s (comms_send ACK 1 w)

/-- One iteration of the `while(1)` loop (lines 61-210). -/
def loopBody (s : Session) (w : World) : Step :=
  match receiveLoop s.StartCondition 10 XmCode.XM_TOUT [] w with
  | Rx.blocked w1 => Step.blocked w1
  | Rx.done xm_ret data w1 => handleFrame { s with StartCondition := 1 } xm_ret data w1

/-- What a run of the routine gives: the status it returned, or `none` when it did not return
(a collaborator call did not come back, or the iterations allowed were used up), and the
world at that point. -/
structure Outcome where
  status : Option XmCode
  world : World
deriving DecidableEq, Repr

/-- The `while(1)` loop (lines 59-211), cut off after `fuel` iterations. -/
def mainLoop : Nat → Session → World → Outcome
  | 0, _, w => ⟨none, w⟩
  | fuel + 1, s, w =>
    match loopBody s w with
    | Step.ret status w1 => ⟨some status, w1⟩
    | Step.next s1 w1 => mainLoop fuel s1 w1
    | Step.blocked w1 => ⟨none, w1⟩

/-- The local variables at the first iteration (lines 52-57); `FlashAddress` is an
`unsigned long`. -/
def initialSession (FlashAddress : Nat) : Session :=
  { ExpectedBlkNum := 1, StartCondition := 0, Address := FlashAddress % 2 ^ 32 }

/-- The routine `XmodemDownloadAndProgramFlash`.  Every iteration that ends consumes at least
one result of the transport, so one iteration more than there are results is enough never to
be cut off. -/
def XmodemDownloadAndProgramFlash (FlashAddress : Nat) (w : World) : Outcome :=
  mainLoop (w.rx.length + 1) (initialSession FlashAddress) w

/-! ## Vocabulary of the statements -/

/-- The calls made by the attempts of one frame request when the transport answers them with
the results `rs`, in order: with the start condition each attempt sends NAK and then reads
with a 10 000 ms timeout, afterwards each attempt only reads, with a 1 000 ms timeout. -/
def requestEvents (StartCondition : Nat) : List ReadResult → List Event
  | [] => []
  | r :: rs =>
    (if StartCondition = 0 then [Event.comms_send NAK 1, Event.comms_read 132 10000 r]
     else [Event.comms_read 132 1000 r]) ++ requestEvents StartCondition rs

/-- The bytes sent, in order. -/
def sentBytes : List Event → List Nat
  | [] => []
  | Event.comms_send b _ :: es => b :: sentBytes es
  | _ :: es => sentBytes es

/-- The results of the receive attempts, in order. -/
def readResults : List Event → List ReadResult
  | [] => []
  | Event.comms_read _ _ r :: es => r :: readResults es
  | _ :: es => readResults es

/-- The flash writes, in order: data, address, length. -/
def flashWrites : List Event → List (List Nat × Nat × Nat)
  | [] => []
  | Event.tfm_platform_flash_write src dst len _ :: es => (src, dst, len) :: flashWrites es
  | _ :: es => flashWrites es

/-- The number of flash writes that reported success. -/
def committed : List Event → Nat
  | [] => 0
  | Event.tfm_platform_flash_write _ _ _ tfm_platform_err_t.TFM_PLATFORM_ERR_SUCCESS :: es =>
    committed es + 1
  | _ :: es => committed es

/-- The courses one iteration of the `while(1)` loop can take from the session `s` in the
world `w`, each with what it requires of the results the collaborators are going to give and
with the step it ends in.  In every course `ts` are the results of the attempts that timed
out before the frame request ended. -/
inductive Iteration (s : Session) (w : World) : Step → Prop where
  | blockedRead (ts : List ReadResult) :
      (∀ t ∈ ts, t.err = fsp_err_t.FSP_ERR_TIMEOUT) → ts.length ≤ 9 → w.rx = ts →
      Iteration s w (Step.blocked
        ⟨[], w.flash, w.trace ++ requestEvents s.StartCondition ts ++
          (if s.StartCondition = 0 then [Event.comms_send NAK 1] else [])⟩)
  | exhausted (ts rest : List ReadResult) :
      (∀ t ∈ ts, t.err = fsp_err_t.FSP_ERR_TIMEOUT) → ts.length = 10 → w.rx = ts ++ rest →
      Iteration s w (Step.ret XmCode.XM_TIMEOUT
        ⟨rest, w.flash, w.trace ++ requestEvents s.StartCondition ts⟩)
  | commsError (ts : List ReadResult) (r : ReadResult) (rest : List ReadResult) :
      (∀ t ∈ ts, t.err = fsp_err_t.FSP_ERR_TIMEOUT) → ts.length ≤ 9 → w.rx = ts ++ r :: rest →
      r.err ≠ fsp_err_t.FSP_SUCCESS → r.err ≠ fsp_err_t.FSP_ERR_TIMEOUT →
      Iteration s w (Step.ret XmCode.XM_ERROR
        ⟨rest, w.flash, w.trace ++ requestEvents s.StartCondition (ts ++ [r])⟩)
  | endOfTransfer (ts : List ReadResult) (data : List Nat) (rest : List ReadResult) :
      (∀ t ∈ ts, t.err = fsp_err_t.FSP_ERR_TIMEOUT) → ts.length ≤ 9 →
      w.rx = ts ++ ⟨fsp_err_t.FSP_SUCCESS, data⟩ :: rest →
      RxByteBuffer data 0 = EOT →
      Iteration s w (Step.ret XmCode.XM_OK
        ⟨rest, w.flash, w.trace ++
          requestEvents s.StartCondition (ts ++ [⟨fsp_err_t.FSP_SUCCESS, data⟩]) ++
          [Event.comms_send ACK 1]⟩)
  | rejected (ts : List ReadResult) (data : List Nat) (rest : List ReadResult) :
      (∀ t ∈ ts, t.err = fsp_err_t.FSP_ERR_TIMEOUT) → ts.length ≤ 9 →
      w.rx = ts ++ ⟨fsp_err_t.FSP_SUCCESS, data⟩ :: rest →
      RxByteBuffer data 0 ≠ EOT → ¬ frameAccepted s.ExpectedBlkNum data →
      Iteration s w (Step.next
        { ExpectedBlkNum := s.ExpectedBlkNum, StartCondition := 1, Address := s.Address }
        ⟨rest, w.flash, w.trace ++
          requestEvents s.StartCondition (ts ++ [⟨fsp_err_t.FSP_SUCCESS, data⟩]) ++
          [Event.comms_send NAK 1]⟩)
  | duplicate (ts : List ReadResult) (data : List Nat) (rest : List ReadResult) :
      (∀ t ∈ ts, t.err = fsp_err_t.FSP_ERR_TIMEOUT) → ts.length ≤ 9 →
      w.rx = ts ++ ⟨fsp_err_t.FSP_SUCCESS, data⟩ :: rest →
      RxByteBuffer data 0 ≠ EOT → frameAccepted s.ExpectedBlkNum data →
      RxByteBuffer data 1 ≠ s.ExpectedBlkNum →
      Iteration s w (Step.next
        { ExpectedBlkNum := s.ExpectedBlkNum, StartCondition := 1, Address := s.Address }
        ⟨rest, w.flash, w.trace ++
          requestEvents s.StartCondition (ts ++ [⟨fsp_err_t.FSP_SUCCESS, data⟩]) ++
          [Event.comms_send ACK 1]⟩)
  | blockedWrite (ts : List ReadResult) (data : List Nat) (rest : List ReadResult) :
      (∀ t ∈ ts, t.err = fsp_err_t.FSP_ERR_TIMEOUT) → ts.length ≤ 9 →
      w.rx = ts ++ ⟨fsp_err_t.FSP_SUCCESS, data⟩ :: rest →
      RxByteBuffer data 0 ≠ EOT → frameAccepted s.ExpectedBlkNum data →
      RxByteBuffer data 1 = s.ExpectedBlkNum → w.flash = [] →
      Iteration s w (Step.blocked
        ⟨rest, [], w.trace ++
          requestEvents s.StartCondition (ts ++ [⟨fsp_err_t.FSP_SUCCESS, data⟩])⟩)
  | committed (ts : List ReadResult) (data : List Nat) (rest : List ReadResult)
      (frest : List tfm_platform_err_t) :
      (∀ t ∈ ts, t.err = fsp_err_t.FSP_ERR_TIMEOUT) → ts.length ≤ 9 →
      w.rx = ts ++ ⟨fsp_err_t.FSP_SUCCESS, data⟩ :: rest →
      RxByteBuffer data 0 ≠ EOT → frameAccepted s.ExpectedBlkNum data →
      RxByteBuffer data 1 = s.ExpectedBlkNum →
      w.flash = tfm_platform_err_t.TFM_PLATFORM_ERR_SUCCESS :: frest →
      Iteration s w (Step.next
        { ExpectedBlkNum := (s.ExpectedBlkNum + 1) % 256, StartCondition := 1,
          Address := (s.Address + 128) % 2 ^ 32 }
        ⟨rest, frest, w.trace ++
          requestEvents s.StartCondition (ts ++ [⟨fsp_err_t.FSP_SUCCESS, data⟩]) ++
          [Event.tfm_platform_flash_write (payload data) (s.Address % 2 ^ 32) 128
             tfm_platform_err_t.TFM_PLATFORM_ERR_SUCCESS,
           Event.comms_send ACK 1]⟩)
  | progFail (ts : List ReadResult) (data : List Nat) (rest : List ReadResult)
      (st : tfm_platform_err_t) (frest : List tfm_platform_err_t) :
      (∀ t ∈ ts, t.err = fsp_err_t.FSP_ERR_TIMEOUT) → ts.length ≤ 9 →
      w.rx = ts ++ ⟨fsp_err_t.FSP_SUCCESS, data⟩ :: rest →
      RxByteBuffer data 0 ≠ EOT → frameAccepted s.ExpectedBlkNum data →
      RxByteBuffer data 1 = s.ExpectedBlkNum →
      w.flash = st :: frest → st ≠ tfm_platform_err_t.TFM_PLATFORM_ERR_SUCCESS →
      Iteration s w (Step.ret XmCode.XM_PROG_FAIL
        ⟨rest, frest, w.trace ++
          requestEvents s.StartCondition (ts ++ [⟨fsp_err_t.FSP_SUCCESS, data⟩]) ++
          [Event.tfm_platform_flash_write (payload data) (s.Address % 2 ^ 32) 128 st,
           Event.comms_send NAK 1, Event.comms_send CAN 1]⟩)

/-- The world a step leaves. -/
def Step.world : Step → World
  | Step.ret _ w => w
  | Step.next _ w => w
  | Step.blocked w => w

/-- What holds of a flash write `e` made when the calls `pre` had been made: the call just
before it is a successful receive of a buffer that starts with SOH, carries the block number
expected at that moment (1 plus the number of flash writes that had succeeded, as an
`unsigned char`), has a complementary byte 2 and the right checksum, and the write is of its
bytes 3..130. -/
def writeJustified (pre : List Event) (src : List Nat) : Prop :=
  ∃ pre1 timeout data,
    pre = pre1 ++ [Event.comms_read 132 timeout ⟨fsp_err_t.FSP_SUCCESS, data⟩] ∧
    src = payload data ∧
    RxByteBuffer data 0 = SOH ∧
    RxByteBuffer data 1 = (1 + committed pre) % 256 ∧
    RxByteBuffer data 1 + RxByteBuffer data 2 = 255 ∧
    RxByteBuffer data 131 = (payload data).sum % 256

/-- Every flash write of the trace is justified. -/
def writesJustified (tr : List Event) : Prop :=
  ∀ pre post src dst len st,
    tr = pre ++ Event.tfm_platform_flash_write src dst len st :: post → writeJustified pre src

/-- The session and the world at the start of each iteration of a run, in order. -/
def loopHeads : Nat → Session → World → List (Session × World)
  | 0, _, _ => []
  | fuel + 1, s, w =>
    (s, w) ::
      match loopBody s w with
      | Step.next s1 w1 => loopHeads fuel s1 w1
      | _ => []

/-- The checksum in the spec's words: an 8-bit wraparound sum, the bytes added one at a time
in arithmetic modulo 256, with no carry beyond 8 bits. -/
def wraparoundSum8 (bytes : List Nat) : Nat :=
  bytes.foldl (fun acc b => (acc + b) % 256) 0

/-- A buffer fails the validation of a data frame when the expected block number is
`ExpectedBlkNum`: byte 0 is not SOH, or byte 1 is neither the expected block number nor (in
`int` arithmetic) the expected block number minus one, or byte 1 + byte 2 is not 255, or byte
131 is not the sum of bytes 3..130 modulo 256. -/
abbrev failsValidation (ExpectedBlkNum : Nat) (data : List Nat) : Prop :=
  RxByteBuffer data 0 ≠ SOH ∨
  (RxByteBuffer data 1 ≠ ExpectedBlkNum ∧
    (RxByteBuffer data 1 : Int) ≠ (ExpectedBlkNum : Int) - 1) ∨
  RxByteBuffer data 1 + RxByteBuffer data 2 ≠ 255 ∨
  RxByteBuffer data 131 ≠ (payload data).sum % 256

/-- The flash writes of the trace go to `FlashAddress`, `FlashAddress + 128`, ... in this
order (as `uint32_t`), each with length 128. -/
def writesInSequence (FlashAddress : Nat) (tr : List Event) : Prop :=
  (flashWrites tr).map (fun x => x.2)
    = (List.range (flashWrites tr).length).map
        (fun i => ((FlashAddress + 128 * i) % 2 ^ 32, 128))

/-- The addresses of the flash writes, in order. -/
def writeAddresses (tr : List Event) : List Nat :=
  (flashWrites tr).map (fun x => x.2.1)

/-- The lengths of the flash writes, in order. -/
def writeLengths (tr : List Event) : List Nat :=
  (flashWrites tr).map (fun x => x.2.2)

/-- The loop of lines 144-147 once more, now listing for each iteration the buffer index it
reads and the value of `cs` after it. -/
def checksumSteps (data : List Nat) : Nat → Nat → Int → List (Nat × Int)
  | 0, _, _ => []
  | fuel + 1, idx, cs =>
    if idx < 128 then
      (idx + 3, cs + (RxByteBuffer data (idx + 3) : Int)) ::
        checksumSteps data fuel ((idx + 1) % 256) (cs + (RxByteBuffer data (idx + 3) : Int))
    else []

/-- Where a run stands in its exchange with the sender, as far as the calls made so far
tell. -/
inductive Phase where
  /-- First frame request: the next call is the NAK of an attempt. -/
  | kickoff
  /-- First frame request: the NAK of an attempt is sent, the next call is its receive. -/
  | kicked
  /-- Steady state: the next call is a receive. -/
  | steady
  /-- A receive has succeeded and is not answered yet. -/
  | received
  /-- The flash write for the received frame has succeeded, the answer is not sent yet. -/
  | written
  /-- The flash write for the received frame has failed. -/
  | failed
  /-- The NAK that follows a failed flash write is sent. -/
  | failedNak
  /-- No call may follow. -/
  | closed
deriving DecidableEq, Repr

/-- The calls the lockstep discipline allows in a phase, and the phase each leads to: a
successful receive is answered by one ACK or NAK, possibly after a successful flash write,
and then the next call is a receive; a failed flash write is followed by NAK, CAN and nothing
more; in steady state a receive that times out is followed by the next receive and a receive
that fails by nothing. -/
def lockstepStep : Phase → Event → Option Phase
  | Phase.kickoff, Event.comms_send b len =>
    if b = NAK ∧ len = 1 then some Phase.kicked else none
  | Phase.kicked, Event.comms_read len t r =>
    if len = 132 ∧ t = 10000 then
      if r.err = fsp_err_t.FSP_SUCCESS then some Phase.received
      else if r.err = fsp_err_t.FSP_ERR_TIMEOUT then some Phase.kickoff
      else some Phase.closed
    else none
  | Phase.steady, Event.comms_read len t r =>
    if len = 132 ∧ t = 1000 then
      if r.err = fsp_err_t.FSP_SUCCESS then some Phase.received
      else if r.err = fsp_err_t.FSP_ERR_TIMEOUT then some Phase.steady
      else some Phase.closed
    else none
  | Phase.received, Event.comms_send b len =>
    if (b = ACK ∨ b = NAK) ∧ len = 1 then some Phase.steady else none
  | Phase.received, Event.tfm_platform_flash_write _ _ len st =>
    if len = 128 then
      if st = tfm_platform_err_t.TFM_PLATFORM_ERR_SUCCESS then some Phase.written
      else some Phase.failed
    else none
  | Phase.written, Event.comms_send b len =>
    if b = ACK ∧ len = 1 then some Phase.steady else none
  | Phase.failed, Event.comms_send b len =>
    if b = NAK ∧ len = 1 then some Phase.failedNak else none
  | Phase.failedNak, Event.comms_send b len =>
    if b = CAN ∧ len = 1 then some Phase.closed else none
  | _, _ => none

/-- The phase reached from `p` by the calls of a trace, when every call is allowed where it
stands. -/
def lockstepRun : Phase → List Event → Option Phase
  | p, [] => some p
  | p, e :: es =>
    match lockstepStep p e with
    | none => none
    | some q => lockstepRun q es

/-- The phase at the start of an iteration. -/
def phaseOf (StartCondition : Nat) : Phase :=
  if StartCondition = 0 then Phase.kickoff else Phase.steady

/-! ## Sample data -/

/-- A transport result that delivers `data` successfully. -/
def rxOk (data : List Nat) : ReadResult := ⟨fsp_err_t.FSP_SUCCESS, data⟩

/-- A transport result that is a timeout. -/
def rxTimeout : ReadResult := ⟨fsp_err_t.FSP_ERR_TIMEOUT, []⟩

/-- The frame a sender builds for block `i` with payload `p`. -/
def frame (i : Nat) (p : List Nat) : List Nat :=
  [SOH, i % 256, 255 - i % 256] ++ p ++ [p.sum % 256]

/-- The world of a clean transfer: the transport delivers the frames of the blocks 1, 2, ...
with the payloads `ps`, then the buffer `eot`, then `rest`; the programming service reports
success once per payload, then `frest`; no call has been made yet. -/
def cleanTransfer (ps : List (List Nat)) (eot : List Nat) (rest : List ReadResult)
    (frest : List tfm_platform_err_t) : World :=
  ⟨(ps.enumFrom 1).map (fun ip => rxOk (frame ip.1 ip.2)) ++ rxOk eot :: rest,
   List.replicate ps.length tfm_platform_err_t.TFM_PLATFORM_ERR_SUCCESS ++ frest, []⟩

/-- A payload of 128 bytes, all equal to `b`. -/
def fill (b : Nat) : List Nat := List.replicate 128 b

/-- A transport result that is a transport error. -/
def rxError : ReadResult := ⟨fsp_err_t.FSP_ERR_OTHER 1, []⟩

/-- A session at the first frame request, with base address 0x1000. -/
def firstSession : Session := ⟨1, 0, 0x1000⟩

/-- A session in steady state that expects block 3 at address 0x1100. -/
def thirdSession : Session := ⟨3, 1, 0x1100⟩

/-- A world in which the transport delivers the frames of the blocks 1 to 255, each with the
payload `fill 7`, then the frame of block 255 once more, then EOT, and in which 255 flash
writes succeed. -/
def wrapResend : World :=
  ⟨((List.replicate 255 (fill 7)).enumFrom 1).map (fun ip => rxOk (frame ip.1 ip.2)) ++
     [rxOk (frame 255 (fill 7)), rxOk [EOT]],
   List.replicate 255 tfm_platform_err_t.TFM_PLATFORM_ERR_SUCCESS, []⟩

/-- A world in which nine receive attempts time out before each of the frames of the blocks
1 and 2, which are followed by EOT, and in which two flash writes succeed. -/
def nineBeforeEach : World :=
  ⟨List.replicate 9 rxTimeout ++ rxOk (frame 1 (fill 7)) ::
     (List.replicate 9 rxTimeout ++ [rxOk (frame 2 (fill 9)), rxOk [EOT]]),
   [tfm_platform_err_t.TFM_PLATFORM_ERR_SUCCESS, tfm_platform_err_t.TFM_PLATFORM_ERR_SUCCESS],
   []⟩

/-- A world in which the transport delivers the frames of the blocks 1 and 2 and then EOT,
and in which two flash writes succeed. -/
def twoBlocks : World :=
  ⟨[rxOk (frame 1 (fill 7)), rxOk (frame 2 (fill 9)), rxOk [EOT]],
   [tfm_platform_err_t.TFM_PLATFORM_ERR_SUCCESS, tfm_platform_err_t.TFM_PLATFORM_ERR_SUCCESS],
   []⟩

/-- The world at the start of the second iteration of the run in `twoBlocks`. -/
def twoBlocksSecond : World :=
  ⟨[rxOk (frame 2 (fill 9)), rxOk [EOT]], [tfm_platform_err_t.TFM_PLATFORM_ERR_SUCCESS],
   [Event.comms_send NAK 1, Event.comms_read 132 10000 (rxOk (frame 1 (fill 7))),
    Event.tfm_platform_flash_write (fill 7) 0x1000 128
      tfm_platform_err_t.TFM_PLATFORM_ERR_SUCCESS,
    Event.comms_send ACK 1]⟩

/-- The world of a transfer whose second flash write fails: the transport delivers the blocks
1 and 2 and EOT, the flash accepts the first write, refuses the second and would accept a
third. -/
def secondWriteFails : World :=
  ⟨[rxOk (frame 1 (fill 7)), rxOk (frame 2 (fill 9)), rxOk [EOT]],
   [tfm_platform_err_t.TFM_PLATFORM_ERR_SUCCESS, tfm_platform_err_t.TFM_PLATFORM_ERR_OTHER 1,
    tfm_platform_err_t.TFM_PLATFORM_ERR_SUCCESS],
   []⟩

end Xmodem

namespace MenuExt

/-! ## The block-size entry of the QSPI benchmark menu (menu_ext.c) -/

/-- The value of the cast `(int32_t) n` of an unsigned constant. -/
def toInt32 (n : Nat) : Int :=
  if n % 2 ^ 32 < 2 ^ 31 then ((n % 2 ^ 32 : Nat) : Int) else ((n % 2 ^ 32 : Nat) : Int) - 2 ^ 32

/-- The value of the cast `(uint32_t) v` of an `int32_t`. -/
def toUInt32 (v : Int) : Nat := (v % 2 ^ 32).toNat

/-- Line 44. -/
def CONNECTION_ABORT_CRTL : Int := 0x00

/-- Line 45: the space bar. -/
def MENU_EXIT_CRTL : Int := 0x20

/-- Line 46: the TAB key. -/
def MENU_ENTER_RESPONSE_CRTL : Int := 0x09

/-- Line 47. -/
def INPUT_BUFFER : Nat := 0x05

/-- Line 48. -/
def CARRAGE_RETURN : Int := 0x0D

/-- Line 50. -/
def BLOCK_LIMIT : Int := 0x40

/-- Line 53. -/
def INVALID_CHARACTER : Int := toInt32 0xFFFFFFFF

/-- Line 56. -/
def INVALID_BLOCK_SIZE : Int := toInt32 0xFFFFFFFE

/-- Line 59. -/
def INVALID_BLOCK_BOUNDARY : Int := toInt32 0xFFFFFFFD

/-- The value of the call `atoi (&c)` of line 396, which is made only when `c` is a digit:
the library function is handed the address of the single character `c`, and the byte that
follows `c` in memory is taken not to be a digit, so that the result is the digit itself. -/
def atoi (c : Int) : Int := c - 0x30

/-- The loop of `validate_user_input` (lines 386-413) from the characters that `p_input`
points at, with the local `value`. A character is the integer value of the C character. Past
the end of the list the loop reads a NUL, which is what the buffer of five bytes holds behind
the at most four bytes that `ext_display_menu` stores. The sum is not reduced: with at most
four digits it stays below 10000. -/
def validateLoop : Int → List Int → Int
  | _, [] => INVALID_CHARACTER
  | value, c :: p_input =>
    if 0x30 ≤ c ∧ c ≤ 0x39 then
      validateLoop (value * 10 + atoi c) p_input
    else
      let result := INVALID_CHARACTER
      let result := if MENU_ENTER_RESPONSE_CRTL = c then value else result
      let result := if MENU_EXIT_CRTL = c then 0 else result
      result

/-- Lines 377-415. -/
def validate_user_input (p_input : List Int) : Int := validateLoop 0 p_input

/-- The state in which the inner loop of `ext_display_menu` (lines 459-493) is left: the last
character read, the buffer `s_block_sz_str`, whether the space bar has set `valid_block_size`,
and the console input not read yet. -/
structure Entry where
  c : Int
  s_block_sz_str : List Int
  valid_block_size : Bool
  rest : List Int
deriving DecidableEq, Repr

/-- The inner loop of `ext_display_menu` (lines 459-493), from the console input still to
come, `block_sz_ndx` and the buffer; `none` when the input ends before the loop is left. The
echo of the characters to the console is not modelled. -/
def readEntry : List Int → Nat → List Int → Option Entry
  | [], _, _ => none
  | c :: rest, block_sz_ndx, s_block_sz_str =>
    if block_sz_ndx < INPUT_BUFFER - 2 then
      let str1 := s_block_sz_str.set block_sz_ndx c
      if MENU_EXIT_CRTL = c then some ⟨c, str1, true, rest⟩
      else if MENU_ENTER_RESPONSE_CRTL = c then some ⟨c, str1, false, rest⟩
      else if CONNECTION_ABORT_CRTL ≠ c then readEntry rest (block_sz_ndx + 1) str1
      else some ⟨c, str1, false, rest⟩
    else
      some ⟨c, s_block_sz_str.set block_sz_ndx MENU_ENTER_RESPONSE_CRTL, false, rest⟩

/-- The state in which the block-size loop of `ext_display_menu` (lines 452-546) is left. -/
structure LoopExit where
  c : Int
  value : Int
  rest : List Int
deriving DecidableEq, Repr

/-- The checks of lines 503-516 on `value`. -/
def checkValue (value : Int) : Int :=
  let value := if value > 0 ∧ value < 2 then INVALID_BLOCK_SIZE else value
  let value := if value > BLOCK_LIMIT then INVALID_BLOCK_SIZE else value
  let value := if value > 0 ∧ value % 2 ≠ 0 then INVALID_BLOCK_BOUNDARY else value
  value

/-- The block-size loop of `ext_display_menu` (lines 452-546), from the local `value` and the
console input still to come; `fuel` bounds the number of iterations, and the result is `none`
when the fuel or the input ends before the loop is left. The local `value` is not reset at the
start of an iteration. The messages printed to the console are not modelled. -/
def blockSizeLoop : Nat → Int → List Int → Option LoopExit
  | 0, _, _ => none
  | fuel + 1, value, inputs =>
    match readEntry inputs 0 (List.replicate INPUT_BUFFER 0) with
    | none => none
    | some e =>
      let value := if MENU_ENTER_RESPONSE_CRTL = e.c then validate_user_input e.s_block_sz_str
                   else value
      let value := checkValue value
      let valid_block_size :=
        if value = INVALID_CHARACTER ∨ value = INVALID_BLOCK_SIZE ∨
            value = INVALID_BLOCK_BOUNDARY then e.valid_block_size
        else true
      if valid_block_size then some ⟨e.c, value, e.rest⟩
      else blockSizeLoop fuel value e.rest

/-- The wait for the space bar that ends `ext_display_menu` (lines 608-615), from the last
character read and the console input still to come: whether the loop is left before the input
ends. -/
def waitForExit : Int → List Int → Bool
  | c, [] => decide (CONNECTION_ABORT_CRTL = c ∨ MENU_EXIT_CRTL = c)
  | c, d :: rest =>
    if CONNECTION_ABORT_CRTL = c ∨ MENU_EXIT_CRTL = c then true else waitForExit d rest

/-- What a run of `ext_display_menu` does, as far as the console input given to it goes. -/
structure MenuRun where
  /-- The block size that the block-size loop leaves in `block_size_actual`, when the loop is
  left. -/
  block_size_actual : Option Int
  /-- The argument with which `qspi_write_test` and `qspi_read_test` are called (lines 577 and
  583), when the guard of line 550 lets the run reach the calls. -/
  tests : Option Nat
  /-- Whether the function returns before the console input ends. -/
  returned : Bool
deriving DecidableEq, Repr

/-- Lines 425-618, on the characters that `input_from_console` is going to deliver, in order.
Every iteration of the block-size loop reads at least one character, so the fuel
`inputs.length + 1` never runs out before the input does. -/
def ext_display_menu (inputs : List Int) : MenuRun :=
  match blockSizeLoop (inputs.length + 1) 0 inputs with
  | none => ⟨none, none, false⟩
  | some x =>
    let block_size_actual := x.value
    ⟨some block_size_actual,
     if MENU_ENTER_RESPONSE_CRTL = x.c ∧ 0 ≠ block_size_actual then
       some (toUInt32 block_size_actual)
     else none,
     waitForExit x.c x.rest⟩

end MenuExt

namespace FlashAccess

/-! ## The non-secure flash write (flash_access_ns.c) -/

/-- The error codes of the absent FSP headers that `flash_write_ns` tells apart; every other
code is an `FSP_ERR_OTHER`. `FSP_SUCCESS` is the code 0 that line 46 gives `err` at first. -/
inductive fsp_err_t where
  | FSP_SUCCESS
  | FSP_ERR_ASSERTION
  | FSP_ERR_ERASE_FAILED
  | FSP_ERR_OTHER (code : Nat)
deriving DecidableEq, Repr

/-- The results of a blank check, of the absent flash driver header. -/
inductive flash_result_t where
  | FLASH_RESULT_BLANK
  | FLASH_RESULT_NOT_BLANK
  | FLASH_RESULT_BGO_ACTIVE
deriving DecidableEq, Repr

/-- The constants of the absent header `app_definitions.h`. -/
structure AppDefinitions where
  FLASH_WRITE_LENGTH : Nat
  NUM_OF_FLASH_SECTOR : Nat
  FLASH_SECTOR_SIZE_256_BYTES : Nat
deriving DecidableEq, Repr

/-- The messages `flash_write_ns` prints. -/
inductive Message where
  | FLASH_ERASE_FAILED
  | FLASH_WRITE_SOURCE_ADDR_CHECK_FAILED
deriving DecidableEq, Repr

/-- What the secure side and the flash are going to answer to the calls of one run of
`flash_write_ns`: the results of the four guard functions, the result of the blank check, and
the bytes that the flash holds at `Flash_address` when line 79 reads them back. -/
structure Guards where
  open_guard : fsp_err_t
  erase_guard : fsp_err_t
  blank_check_guard : fsp_err_t
  blank_check_result : flash_result_t
  write_guard : fsp_err_t
  flash : List Nat
deriving DecidableEq, Repr

/-- The calls `flash_write_ns` makes, with their arguments. The write guard is handed the
address of `writeBuffer`: the call records the bytes that stand there. -/
inductive Call where
  | g_flash0_open_guard
  | disable_fault_irq
  | g_flash0_erase_guard (address num_blocks : Nat)
  | g_flash0_blank_check_guard (address num_bytes : Nat)
  | g_flash0_write_guard (src : List Nat) (flash_address num_bytes : Nat)
  | memcpy (address num_bytes : Nat)
  | memcmp (num_bytes : Nat)
  | APP_PRINT (msg : Message)
  | g_flash0_close_guard
  | enable_fault_irq
deriving DecidableEq, Repr

/-- The first `n` bytes of the memory that the list `xs` stands for. -/
def bytes (n : Nat) (xs : List Nat) : List Nat :=
  (List.range n).map (fun i => xs.getD i 0 % 256)

/-- What a run of `flash_write_ns` gives: the value returned and the calls made, in order. -/
structure Run where
  status : Bool
  calls : List Call
deriving DecidableEq, Repr

/-- The calls of `flash_operation_cleanup` (lines 29-34). -/
def flash_operation_cleanup : List Call :=
  [Call.g_flash0_close_guard, Call.enable_fault_irq]

/-- Lines 50-94 of `flash_write_ns`: the value of `err` at line 96 and the calls made up to
there. -/
def guardedWrite (d : AppDefinitions) (g : Guards) (Flash_address : Nat)
    (writeBuffer : List Nat) : fsp_err_t × List Call :=
  let err := g.open_guard
  let calls := [Call.g_flash0_open_guard]
  if fsp_err_t.FSP_SUCCESS = err then
    let err := g.erase_guard
    let calls := calls ++ [Call.disable_fault_irq,
      Call.g_flash0_erase_guard Flash_address d.NUM_OF_FLASH_SECTOR]
    if fsp_err_t.FSP_SUCCESS = err then
      let err := g.blank_check_guard
      let calls := calls ++
        [Call.g_flash0_blank_check_guard Flash_address d.FLASH_SECTOR_SIZE_256_BYTES]
      if fsp_err_t.FSP_SUCCESS = err then
        if flash_result_t.FLASH_RESULT_BLANK = g.blank_check_result then
          let err := g.write_guard
          let calls := calls ++ [Call.g_flash0_write_guard
            (bytes d.FLASH_WRITE_LENGTH writeBuffer) Flash_address d.FLASH_WRITE_LENGTH]
          if fsp_err_t.FSP_SUCCESS = err then
            let readBuffer := bytes d.FLASH_WRITE_LENGTH g.flash
            let calls := calls ++ [Call.memcpy Flash_address d.FLASH_WRITE_LENGTH,
              Call.memcmp d.FLASH_WRITE_LENGTH]
            if bytes d.FLASH_WRITE_LENGTH writeBuffer = readBuffer then
              (fsp_err_t.FSP_SUCCESS, calls)
            else (err, calls)
          else (err, calls)
        else (err, calls)
      else (err, calls)
    else (err, calls)
  else (err, calls)

/-- Lines 43-115. -/
def flash_write_ns (d : AppDefinitions) (g : Guards) (Flash_address : Nat)
    (writeBuffer : List Nat) : Run :=
  let (err, calls) := guardedWrite d g Flash_address writeBuffer
  if fsp_err_t.FSP_SUCCESS ≠ err then
    let calls :=
      if fsp_err_t.FSP_ERR_ERASE_FAILED = err then
        calls ++ [Call.APP_PRINT Message.FLASH_ERASE_FAILED]
      else if fsp_err_t.FSP_ERR_ASSERTION = err then
        calls ++ [Call.APP_PRINT Message.FLASH_WRITE_SOURCE_ADDR_CHECK_FAILED]
      else calls
    ⟨false, calls ++ flash_operation_cleanup⟩
  else
    ⟨true, calls ++ flash_operation_cleanup⟩

/-- The write guard calls among the calls of a run. -/
def writeCalls : List Call → List Call
  | [] => []
  | Call.g_flash0_write_guard src a n :: cs => Call.g_flash0_write_guard src a n :: writeCalls cs
  | _ :: cs => writeCalls cs

/-- Sample constants: 16 bytes are written, one sector is erased, 256 bytes are checked. -/
def sampleDefinitions : AppDefinitions := ⟨16, 1, 256⟩

end FlashAccess

namespace Xmodem

set_option maxRecDepth 100000

/-! ## The checksum and the receive loop -/

theorem checksumLoop_eq (data : List Nat) :
    ∀ (n fuel idx : Nat) (cs : Int), idx + n = 128 → n ≤ fuel →
      checksumLoop data fuel idx cs
        = cs + (((List.range' idx n).map (fun j => RxByteBuffer data (j + 3))).sum : Nat) := by
  intro n
  induction n with
  | zero =>
    intro fuel idx cs h _
    have hidx : ¬ idx < 128 := by omega
    cases fuel <;> simp [checksumLoop, hidx]
  | succ n ih =>
    intro fuel idx cs h hf
    obtain ⟨f, rfl⟩ : ∃ f, fuel = f + 1 := ⟨fuel - 1, by omega⟩
    have hidx : idx < 128 := by omega
    have hmod : (idx + 1) % 256 = idx + 1 := by omega
    rw [checksumLoop, if_pos hidx, hmod, ih f (idx + 1) _ (by omega) (by omega)]
    simp [List.range', add_assoc]

theorem checksum_eq (data : List Nat) : checksum data = (payload data).sum % 256 := by
  unfold checksum payload
  rw [checksumLoop_eq data 128 256 0 0 (by norm_num) (by norm_num), List.range_eq_range']
  omega

theorem receiveLoop_settled (sc n : Nat) (x : XmCode) (d : List Nat) (w : World)
    (hx : x ≠ XmCode.XM_TOUT) : receiveLoop sc n x d w = Rx.done x d w := by
  cases n <;> simp [receiveLoop, hx]

theorem requestEvents_append (sc : Nat) (as bs : List ReadResult) :
    requestEvents sc (as ++ bs) = requestEvents sc as ++ requestEvents sc bs := by
  induction as with
  | nil => rfl
  | cons a as ih => simp [requestEvents, ih]

/-- One attempt of the receive loop that the transport answers with `r`. -/
theorem receiveLoop_attempt (sc n : Nat) (d : List Nat) (w : World) (r : ReadResult)
    (rest : List ReadResult) (hw : w.rx = r :: rest) :
    receiveLoop sc (n + 1) XmCode.XM_TOUT d w
      = receiveLoop sc n
          (if r.err = fsp_err_t.FSP_SUCCESS then XmCode.OK
           else if r.err = fsp_err_t.FSP_ERR_TIMEOUT then XmCode.XM_TOUT
           else XmCode.XM_ERROR)
          r.data ⟨rest, w.flash, w.trace ++ requestEvents sc [r]⟩ := by
  obtain ⟨rx, fl, tr⟩ := w
  simp only at hw
  subst hw
  by_cases hsc : sc = 0 <;>
    simp [receiveLoop, comms_read, comms_send, requestEvents, hsc]

/-- Attempts that time out leave the receive loop running with fewer attempts left. -/
theorem receiveLoop_timeouts (sc : Nat) :
    ∀ (ts : List ReadResult) (n : Nat) (d : List Nat) (w : World) (rest : List ReadResult),
      (∀ r ∈ ts, r.err = fsp_err_t.FSP_ERR_TIMEOUT) → w.rx = ts ++ rest →
      ∃ d1, receiveLoop sc (ts.length + n) XmCode.XM_TOUT d w
        = receiveLoop sc n XmCode.XM_TOUT d1
            ⟨rest, w.flash, w.trace ++ requestEvents sc ts⟩ := by
  intro ts
  induction ts with
  | nil =>
    intro n d w rest _ hw
    refine ⟨d, ?_⟩
    obtain ⟨rx, fl, tr⟩ := w
    simp only [List.nil_append] at hw
    subst hw
    simp [requestEvents]
  | cons t ts ih =>
    intro n d w rest hts hw
    have ht : t.err = fsp_err_t.FSP_ERR_TIMEOUT := hts t (List.mem_cons_self _ _)
    have hts1 : ∀ r ∈ ts, r.err = fsp_err_t.FSP_ERR_TIMEOUT :=
      fun r hr => hts r (List.mem_cons_of_mem _ hr)
    obtain ⟨d1, h1⟩ := ih n t.data ⟨ts ++ rest, w.flash, w.trace ++ requestEvents sc [t]⟩
      rest hts1 rfl
    refine ⟨d1, ?_⟩
    have hlen : (t :: ts).length + n = (ts.length + n) + 1 := by simp; omega
    rw [hlen, receiveLoop_attempt sc _ d w t (ts ++ rest) (by simpa using hw), ht]
    simp only [reduceCtorEq, if_false, if_true] at h1 ⊢
    rw [h1]
    simp [requestEvents, List.append_assoc]

/-- A frame request in which up to nine attempts time out and the next one is answered with
`r`, which is not a timeout: the receive loop ends with the status of `r` and its data. -/
theorem receiveLoop_answer (sc : Nat) (ts : List ReadResult) (r : ReadResult)
    (rest : List ReadResult) (w : World)
    (hts : ∀ t ∈ ts, t.err = fsp_err_t.FSP_ERR_TIMEOUT) (hlen : ts.length ≤ 9)
    (hr : r.err ≠ fsp_err_t.FSP_ERR_TIMEOUT) (hw : w.rx = ts ++ r :: rest) :
    receiveLoop sc 10 XmCode.XM_TOUT [] w
      = Rx.done (if r.err = fsp_err_t.FSP_SUCCESS then XmCode.OK else XmCode.XM_ERROR) r.data
          ⟨rest, w.flash, w.trace ++ requestEvents sc (ts ++ [r])⟩ := by
  obtain ⟨d1, h1⟩ := receiveLoop_timeouts sc ts (10 - ts.length) [] w (r :: rest) hts hw
  have h10 : ts.length + (10 - ts.length) = 10 := by omega
  rw [h10] at h1
  obtain ⟨m, hm⟩ : ∃ m, 10 - ts.length = m + 1 := ⟨9 - ts.length, by omega⟩
  rw [h1, hm, receiveLoop_attempt sc m d1 _ r rest rfl, receiveLoop_settled]
  · simp [hr, requestEvents_append, List.append_assoc]
  · by_cases hs : r.err = fsp_err_t.FSP_SUCCESS <;> simp [hs, hr]

/-- A frame request in which all ten attempts time out. -/
theorem receiveLoop_exhausted (sc : Nat) (ts : List ReadResult) (rest : List ReadResult)
    (w : World) (hts : ∀ t ∈ ts, t.err = fsp_err_t.FSP_ERR_TIMEOUT) (hlen : ts.length = 10)
    (hw : w.rx = ts ++ rest) :
    ∃ d1, receiveLoop sc 10 XmCode.XM_TOUT [] w
      = Rx.done XmCode.XM_TOUT d1 ⟨rest, w.flash, w.trace ++ requestEvents sc ts⟩ := by
  obtain ⟨d1, h1⟩ := receiveLoop_timeouts sc ts 0 [] w rest hts hw
  refine ⟨d1, ?_⟩
  rw [hlen] at h1
  rw [h1]
  rfl


theorem mainLoop_next (fuel : Nat) (s s1 : Session) (w w1 : World)
    (h : loopBody s w = Step.next s1 w1) : mainLoop (fuel + 1) s w = mainLoop fuel s1 w1 := by
  simp [mainLoop, h]

theorem mainLoop_ret (fuel : Nat) (s : Session) (c : XmCode) (w w1 : World)
    (h : loopBody s w = Step.ret c w1) : mainLoop (fuel + 1) s w = ⟨some c, w1⟩ := by
  simp [mainLoop, h]

/-- The iteration of a frame request that ends with a successful receive of `data`. -/
theorem loopBody_received (s : Session) (w : World) (ts : List ReadResult) (data : List Nat)
    (rest : List ReadResult)
    (hts : ∀ t ∈ ts, t.err = fsp_err_t.FSP_ERR_TIMEOUT) (hlen : ts.length ≤ 9)
    (hw : w.rx = ts ++ ⟨fsp_err_t.FSP_SUCCESS, data⟩ :: rest) :
    loopBody s w = handleFrame { s with StartCondition := 1 } XmCode.OK data
      ⟨rest, w.flash, w.trace ++
        requestEvents s.StartCondition (ts ++ [⟨fsp_err_t.FSP_SUCCESS, data⟩])⟩ := by
  unfold loopBody
  rw [receiveLoop_answer s.StartCondition ts _ rest w hts hlen (by simp) hw]
  simp

theorem flashWrites_requestEvents (sc : Nat) (rs : List ReadResult) :
    flashWrites (requestEvents sc rs) = [] := by
  induction rs with
  | nil => rfl
  | cons r rs ih =>
    by_cases hsc : sc = 0
    · simp only [requestEvents, if_pos hsc, List.cons_append, List.nil_append, flashWrites, ih]
    · simp only [requestEvents, if_neg hsc, List.cons_append, List.nil_append, flashWrites, ih]

theorem readResults_requestEvents (sc : Nat) (rs : List ReadResult) :
    readResults (requestEvents sc rs) = rs := by
  induction rs with
  | nil => rfl
  | cons r rs ih =>
    by_cases hsc : sc = 0
    · simp only [requestEvents, if_pos hsc, List.cons_append, List.nil_append, readResults, ih]
    · simp only [requestEvents, if_neg hsc, List.cons_append, List.nil_append, readResults, ih]

theorem SOH_ne_EOT : SOH ≠ EOT := by decide


/-- How the results the transport is going to give begin, seen by a receive loop with `n`
attempts: `n` timeouts; fewer timeouts and then another result; or fewer timeouts and
nothing more. -/
theorem rx_split (n : Nat) : ∀ (l : List ReadResult),
    ∃ ts, (∀ t ∈ ts, t.err = fsp_err_t.FSP_ERR_TIMEOUT) ∧
      ((ts.length = n ∧ ∃ rest, l = ts ++ rest) ∨
       (ts.length < n ∧ ∃ r rest, l = ts ++ r :: rest ∧ r.err ≠ fsp_err_t.FSP_ERR_TIMEOUT) ∨
       (ts.length < n ∧ l = ts)) := by
  induction n with
  | zero => intro l; exact ⟨[], by simp, Or.inl ⟨rfl, l, rfl⟩⟩
  | succ n ih =>
    intro l
    cases l with
    | nil => exact ⟨[], by simp, Or.inr (Or.inr ⟨by simp, rfl⟩)⟩
    | cons a l =>
      by_cases ha : a.err = fsp_err_t.FSP_ERR_TIMEOUT
      · obtain ⟨ts, hts, h⟩ := ih l
        refine ⟨a :: ts, ?_, ?_⟩
        · intro t ht
          rcases List.mem_cons.mp ht with rfl | ht
          · exact ha
          · exact hts t ht
        · rcases h with ⟨h1, rest, h2⟩ | ⟨h1, r, rest, h2, h3⟩ | ⟨h1, h2⟩
          · exact Or.inl ⟨by simp [h1], rest, by simp [h2]⟩
          · exact Or.inr (Or.inl ⟨by simp [h1], r, rest, by simp [h2], h3⟩)
          · exact Or.inr (Or.inr ⟨by simp [h1], by simp [h2]⟩)
      · exact ⟨[], by simp, Or.inr (Or.inl ⟨by simp, a, l, rfl, ha⟩)⟩

/-- A frame request in which the transport stops answering after fewer than ten timeouts. -/
theorem receiveLoop_blocked (sc : Nat) (ts : List ReadResult) (w : World)
    (hts : ∀ t ∈ ts, t.err = fsp_err_t.FSP_ERR_TIMEOUT) (hlen : ts.length ≤ 9)
    (hw : w.rx = ts) :
    receiveLoop sc 10 XmCode.XM_TOUT [] w
      = Rx.blocked ⟨[], w.flash, w.trace ++ requestEvents sc ts ++
          (if sc = 0 then [Event.comms_send NAK 1] else [])⟩ := by
  obtain ⟨d1, h1⟩ := receiveLoop_timeouts sc ts (10 - ts.length) [] w [] hts (by simp [hw])
  have h10 : ts.length + (10 - ts.length) = 10 := by omega
  rw [h10] at h1
  obtain ⟨m, hm⟩ : ∃ m, 10 - ts.length = m + 1 := ⟨9 - ts.length, by omega⟩
  rw [h1, hm]
  by_cases hsc : sc = 0 <;> simp [receiveLoop, comms_read, comms_send, hsc]

/-- Every iteration takes one of the courses of `Iteration`. -/
theorem loopBody_iteration (s : Session) (w : World) : Iteration s w (loopBody s w) := by
  obtain ⟨ts, hts, h⟩ := rx_split 10 w.rx
  rcases h with ⟨hlen, rest, hw⟩ | ⟨hlen, r, rest, hw, hr⟩ | ⟨hlen, hw⟩
  · obtain ⟨d1, h1⟩ := receiveLoop_exhausted s.StartCondition ts rest w hts hlen hw
    have : loopBody s w = Step.ret XmCode.XM_TIMEOUT
        ⟨rest, w.flash, w.trace ++ requestEvents s.StartCondition ts⟩ := by
      unfold loopBody
      rw [h1]
      simp [handleFrame]
    rw [this]
    exact Iteration.exhausted ts rest hts hlen hw
  · have hlen9 : ts.length ≤ 9 := by omega
    by_cases hs : r.err = fsp_err_t.FSP_SUCCESS
    · obtain ⟨e, data⟩ := r
      simp only at hs
      subst hs
      rw [loopBody_received s w ts data rest hts hlen9 hw]
      unfold handleFrame
      dsimp only
      rw [if_neg (by decide), if_neg (by decide)]
      by_cases h0 : RxByteBuffer data 0 = EOT
      · rw [if_pos h0]
        exact Iteration.endOfTransfer ts data rest hts hlen9 hw h0
      · rw [if_neg h0]
        by_cases hacc : frameAccepted s.ExpectedBlkNum data
        · rw [if_neg (not_not.mpr hacc)]
          by_cases h1 : RxByteBuffer data 1 = s.ExpectedBlkNum
          · rw [if_pos h1]
            cases hfl : w.flash with
            | nil =>
              simp only [tfm_platform_flash_write, hfl]
              have := Iteration.blockedWrite (s := s) ts data rest hts hlen9 hw h0 hacc h1 hfl
              simpa [hfl] using this
            | cons st frest =>
              simp only [tfm_platform_flash_write, hfl]
              by_cases hst : st = tfm_platform_err_t.TFM_PLATFORM_ERR_SUCCESS
              · subst hst
                have := Iteration.committed (s := s) ts data rest frest hts hlen9 hw h0 hacc h1
                  hfl
                simpa [comms_send, hfl] using this
              · have := Iteration.progFail (s := s) ts data rest st frest hts hlen9 hw h0 hacc
                  h1 hfl hst
                simpa [comms_send, hfl, hst] using this
          · rw [if_neg h1]
            have := Iteration.duplicate (s := s) ts data rest hts hlen9 hw h0 hacc h1
            simpa [comms_send] using this
        · rw [if_pos hacc]
          have := Iteration.rejected (s := s) ts data rest hts hlen9 hw h0 hacc
          simpa [comms_send] using this
    · have : loopBody s w = Step.ret XmCode.XM_ERROR
          ⟨rest, w.flash, w.trace ++ requestEvents s.StartCondition (ts ++ [r])⟩ := by
        unfold loopBody
        rw [receiveLoop_answer s.StartCondition ts r rest w hts hlen9 hr hw]
        simp [handleFrame, hs]
      rw [this]
      exact Iteration.commsError ts r rest hts hlen9 hw hs hr
  · have hlen9 : ts.length ≤ 9 := by omega
    have : loopBody s w = Step.blocked ⟨[], w.flash, w.trace ++
        requestEvents s.StartCondition ts ++
          (if s.StartCondition = 0 then [Event.comms_send NAK 1] else [])⟩ := by
      unfold loopBody
      rw [receiveLoop_blocked s.StartCondition ts w hts hlen9 hw]
    rw [this]
    exact Iteration.blockedRead ts hts hlen9 hw

/-- An iteration that goes on to the next one has consumed at least one result of the
transport. -/
theorem loopBody_next_consumes (s s1 : Session) (w w1 : World)
    (h : loopBody s w = Step.next s1 w1) : w1.rx.length < w.rx.length := by
  have hit := loopBody_iteration s w
  rw [h] at hit
  cases hit with
  | rejected ts data rest hts hlen hw h0 hacc => simp [hw]; omega
  | duplicate ts data rest hts hlen hw h0 hacc h1 => simp [hw]; omega
  | committed ts data rest frest hts hlen hw h0 hacc h1 hfl => simp [hw]; omega

/-- With more iterations allowed than the transport has results to give, the number of
iterations allowed does not matter: a run is never cut off. -/
theorem mainLoop_enough_fuel : ∀ (fuel1 fuel2 : Nat) (s : Session) (w : World),
    w.rx.length < fuel1 → w.rx.length < fuel2 → mainLoop fuel1 s w = mainLoop fuel2 s w := by
  intro fuel1
  induction fuel1 with
  | zero => intro fuel2 s w h1; omega
  | succ f1 ih =>
    intro fuel2 s w h1 h2
    obtain ⟨f2, rfl⟩ : ∃ f2, fuel2 = f2 + 1 := ⟨fuel2 - 1, by omega⟩
    unfold mainLoop
    cases hb : loopBody s w with
    | ret c w1 => rfl
    | next s1 w1 =>
      have := loopBody_next_consumes s s1 w w1 hb
      exact ih f2 s1 w1 (by omega) (by omega)
    | blocked w1 => rfl

/-! ## Frames built by a sender, and runs without a fault -/

theorem sentBytes_append (as bs : List Event) :
    sentBytes (as ++ bs) = sentBytes as ++ sentBytes bs := by
  induction as with
  | nil => rfl
  | cons a as ih => cases a <;> simp [sentBytes, ih]

theorem flashWrites_append (as bs : List Event) :
    flashWrites (as ++ bs) = flashWrites as ++ flashWrites bs := by
  induction as with
  | nil => rfl
  | cons a as ih => cases a <;> simp [flashWrites, ih]

theorem RxByteBuffer_frame_payload (k i : Nat) (p : List Nat) (hlen : p.length = 128)
    (hp : ∀ b ∈ p, b < 256) (hi : i < 128) :
    RxByteBuffer (frame k p) (i + 3) = p.getD i 0 := by
  have hi2 : i < p.length := by omega
  have hb : p[i] < 256 := hp _ (List.getElem_mem _)
  simp [RxByteBuffer, frame, List.getD_eq_getElem?_getD, List.getElem?_append_left, hi2,
    Nat.mod_eq_of_lt hb]

theorem payload_frame (k : Nat) (p : List Nat) (hlen : p.length = 128)
    (hp : ∀ b ∈ p, b < 256) : payload (frame k p) = p := by
  apply List.ext_getElem
  · simp [payload, hlen]
  · intro i h1 h2
    have hi : i < 128 := by simpa [payload] using h1
    simp [payload, RxByteBuffer_frame_payload k i p hlen hp hi, List.getD_eq_getElem?_getD, h2]

theorem frame_accepted (k : Nat) (p : List Nat) (hlen : p.length = 128)
    (hp : ∀ b ∈ p, b < 256) :
    RxByteBuffer (frame k p) 0 = SOH ∧ RxByteBuffer (frame k p) 1 = k % 256 ∧
    RxByteBuffer (frame k p) 1 + RxByteBuffer (frame k p) 2 = 255 ∧
    RxByteBuffer (frame k p) 131 = (payload (frame k p)).sum % 256 := by
  rw [payload_frame k p hlen hp]
  have hk : k % 256 < 256 := Nat.mod_lt _ (by norm_num)
  have h2 : (255 - k % 256) % 256 = 255 - k % 256 := by omega
  refine ⟨by simp [RxByteBuffer, frame, SOH], by simp [RxByteBuffer, frame], ?_, ?_⟩
  · simp only [RxByteBuffer, frame, List.cons_append, List.getD_cons_zero, List.getD_cons_succ,
      Nat.mod_mod, h2]
    omega
  · have : (frame k p).getD 131 0 = p.sum % 256 := by
      simp [frame, List.getD_eq_getElem?_getD, List.getElem?_append_right, hlen]
    unfold RxByteBuffer
    rw [this, Nat.mod_mod]

theorem sentBytes_requestEvents_one (sc : Nat) (r : ReadResult) :
    sentBytes (requestEvents sc [r]) = if sc = 0 then [NAK] else [] := by
  by_cases hsc : sc = 0 <;> simp [requestEvents, sentBytes, hsc]

theorem handleFrame_commit (s : Session) (data : List Nat) (rx : List ReadResult)
    (fl : List tfm_platform_err_t) (tr : List Event) (frest : List tfm_platform_err_t)
    (h0 : RxByteBuffer data 0 = SOH)
    (h1 : RxByteBuffer data 1 = s.ExpectedBlkNum)
    (h2 : RxByteBuffer data 1 + RxByteBuffer data 2 = 255)
    (h3 : RxByteBuffer data 131 = (payload data).sum % 256)
    (hfl : fl = tfm_platform_err_t.TFM_PLATFORM_ERR_SUCCESS :: frest) :
    handleFrame s XmCode.OK data ⟨rx, fl, tr⟩ = Step.next
      { ExpectedBlkNum := (s.ExpectedBlkNum + 1) % 256, StartCondition := s.StartCondition,
        Address := (s.Address + 128) % 2 ^ 32 }
      { rx := rx, flash := frest,
        trace := tr ++
          [Event.tfm_platform_flash_write (payload data) (s.Address % 2 ^ 32) 128
             tfm_platform_err_t.TFM_PLATFORM_ERR_SUCCESS,
           Event.comms_send ACK 1] } := by
  have hne : RxByteBuffer data 0 ≠ EOT := by rw [h0]; exact SOH_ne_EOT
  have hacc : frameAccepted s.ExpectedBlkNum data :=
    ⟨h0, Or.inl h1, by omega, by rw [checksum_eq]; exact h3⟩
  unfold handleFrame
  rw [if_neg (by decide), if_neg (by decide), if_neg hne, if_neg (not_not.mpr hacc), if_pos h1]
  simp [tfm_platform_flash_write, hfl, comms_send]

theorem handleFrame_eot (s : Session) (data : List Nat) (w : World)
    (h0 : RxByteBuffer data 0 = EOT) :
    handleFrame s XmCode.OK data w = Step.ret XmCode.XM_OK
      { rx := w.rx, flash := w.flash, trace := w.trace ++ [Event.comms_send ACK 1] } := by
  unfold handleFrame
  rw [if_neg (by decide), if_neg (by decide), if_pos h0]
  rfl

/-- A run that receives the frames of the blocks `k`, `k + 1`, ... with the payloads `ps` and
then a buffer that starts with EOT, all flash writes succeeding. -/
theorem clean_run (eot : List Nat) (rest : List ReadResult) (frest : List tfm_platform_err_t)
    (heot : RxByteBuffer eot 0 = EOT) (a : Nat) :
    ∀ (ps : List (List Nat)) (k : Nat) (s : Session) (w : World) (fuel : Nat),
      (∀ p ∈ ps, p.length = 128 ∧ ∀ b ∈ p, b < 256) → 1 ≤ k →
      s.ExpectedBlkNum = k % 256 →
      s.Address % 2 ^ 32 = (a + 128 * (k - 1)) % 2 ^ 32 →
      w.rx = (ps.enumFrom k).map (fun ip => rxOk (frame ip.1 ip.2)) ++ rxOk eot :: rest →
      w.flash = List.replicate ps.length tfm_platform_err_t.TFM_PLATFORM_ERR_SUCCESS ++ frest →
      ps.length < fuel →
      (mainLoop fuel s w).status = some XmCode.XM_OK ∧
      (mainLoop fuel s w).world.rx = rest ∧
      (mainLoop fuel s w).world.flash = frest ∧
      flashWrites (mainLoop fuel s w).world.trace = flashWrites w.trace ++
        (ps.enumFrom k).map (fun ip => (ip.2, (a + 128 * (ip.1 - 1)) % 2 ^ 32, 128)) ∧
      sentBytes (mainLoop fuel s w).world.trace = sentBytes w.trace ++
        (if s.StartCondition = 0 then [NAK] else []) ++ List.replicate (ps.length + 1) ACK := by
  intro ps
  induction ps with
  | nil =>
    intro k s w fuel _ _ _ _ hrx hfl hfuel
    obtain ⟨f, rfl⟩ : ∃ f, fuel = f + 1 := ⟨fuel - 1, by simp at hfuel; omega⟩
    have hrx1 : w.rx = [] ++ ⟨fsp_err_t.FSP_SUCCESS, eot⟩ :: rest := by simpa [rxOk] using hrx
    have hb : loopBody s w = Step.ret XmCode.XM_OK
        ⟨rest, w.flash, w.trace ++
          requestEvents s.StartCondition ([] ++ [⟨fsp_err_t.FSP_SUCCESS, eot⟩]) ++
          [Event.comms_send ACK 1]⟩ := by
      rw [loopBody_received s w [] eot rest (by simp) (by simp) hrx1, handleFrame_eot _ _ _ heot]
    rw [mainLoop_ret f s _ w _ hb]
    refine ⟨rfl, rfl, by simpa using hfl, ?_, ?_⟩
    · simp [flashWrites_append, flashWrites_requestEvents, flashWrites]
    · simp [sentBytes_append, sentBytes_requestEvents_one, sentBytes]
  | cons p ps ih =>
    intro k s w fuel hps hk hE hA hrx hfl hfuel
    obtain ⟨f, rfl⟩ : ∃ f, fuel = f + 1 := ⟨fuel - 1, by simp at hfuel; omega⟩
    obtain ⟨hplen, hpb⟩ := hps p (List.mem_cons_self _ _)
    obtain ⟨f0, f1, f2, f3⟩ := frame_accepted k p hplen hpb
    have hrx1 : w.rx = [] ++ ⟨fsp_err_t.FSP_SUCCESS, frame k p⟩ ::
        ((ps.enumFrom (k + 1)).map (fun ip => rxOk (frame ip.1 ip.2)) ++ rxOk eot :: rest) := by
      simpa [rxOk, List.enumFrom] using hrx
    have hfl1 : w.flash = tfm_platform_err_t.TFM_PLATFORM_ERR_SUCCESS ::
        (List.replicate ps.length tfm_platform_err_t.TFM_PLATFORM_ERR_SUCCESS ++ frest) := by
      simpa [List.replicate_succ] using hfl
    have hb := loopBody_received s w [] (frame k p) _ (by simp) (by simp) hrx1
    rw [handleFrame_commit _ _ _ _ _ _ f0 (by rw [f1]; exact hE.symm) f2 f3 hfl1] at hb
    obtain ⟨s1, w1, hb1, e1, e2, e3, e4, e5, e6⟩ : ∃ s1 w1, loopBody s w = Step.next s1 w1 ∧
        s1.ExpectedBlkNum = (s.ExpectedBlkNum + 1) % 256 ∧ s1.StartCondition = 1 ∧
        s1.Address = (s.Address + 128) % 2 ^ 32 ∧
        w1.rx = (ps.enumFrom (k + 1)).map (fun ip => rxOk (frame ip.1 ip.2)) ++
          rxOk eot :: rest ∧
        w1.flash = List.replicate ps.length tfm_platform_err_t.TFM_PLATFORM_ERR_SUCCESS ++
          frest ∧
        w1.trace = w.trace ++
          requestEvents s.StartCondition ([] ++ [⟨fsp_err_t.FSP_SUCCESS, frame k p⟩]) ++
          [Event.tfm_platform_flash_write (payload (frame k p)) (s.Address % 2 ^ 32) 128
             tfm_platform_err_t.TFM_PLATFORM_ERR_SUCCESS,
           Event.comms_send ACK 1] :=
      ⟨_, _, hb, rfl, rfl, rfl, rfl, rfl, rfl⟩
    rw [mainLoop_next f s s1 w w1 hb1]
    have hA1 : s1.Address % 2 ^ 32 = (a + 128 * (k + 1 - 1)) % 2 ^ 32 := by
      rw [e3]
      norm_num at hA ⊢
      omega
    obtain ⟨r1, r2, r3, r4, r5⟩ := ih (k + 1) s1 w1 f
      (fun q hq => hps q (List.mem_cons_of_mem _ hq)) (by omega)
      (by rw [e1]; omega) hA1 e4 e5 (by simp at hfuel ⊢; omega)
    refine ⟨r1, r2, r3, ?_, ?_⟩
    · have hA2 : s.Address % 4294967296 = (a + 128 * (k - 1)) % 4294967296 := by
        norm_num at hA
        exact hA
      rw [r4, e6]
      simp [flashWrites_append, flashWrites_requestEvents, flashWrites, List.enumFrom,
        payload_frame k p hplen hpb, hA2]
    · rw [r5, e6, e2]
      simp [sentBytes_append, sentBytes_requestEvents_one, sentBytes, List.replicate_succ]

/-! ## What every run keeps -/

theorem committed_append (as bs : List Event) :
    committed (as ++ bs) = committed as + committed bs := by
  induction as with
  | nil => simp [committed]
  | cons a as ih =>
    cases a with
    | comms_send b l => simp [committed, ih]
    | comms_read l t r => simp [committed, ih]
    | tfm_platform_flash_write src dst len st =>
      cases st with
      | TFM_PLATFORM_ERR_SUCCESS =>
        show committed (as ++ bs) + 1 = committed as + 1 + committed bs
        omega
      | TFM_PLATFORM_ERR_OTHER code => exact ih

theorem committed_of_no_write (evs : List Event) (h : flashWrites evs = []) :
    committed evs = 0 := by
  induction evs with
  | nil => rfl
  | cons a as ih =>
    cases a with
    | comms_send b l => simpa [committed] using ih (by simpa [flashWrites] using h)
    | comms_read l t r => simpa [committed] using ih (by simpa [flashWrites] using h)
    | tfm_platform_flash_write src dst len st => simp [flashWrites] at h

theorem no_write_split (evs a b : List Event) (src : List Nat) (dst len : Nat)
    (st : tfm_platform_err_t) (h : flashWrites evs = [])
    (he : evs = a ++ Event.tfm_platform_flash_write src dst len st :: b) : False := by
  rw [he, flashWrites_append] at h
  simp [flashWrites] at h

theorem writesJustified_nil : writesJustified [] := by
  intro pre post src dst len st h
  simp at h

theorem writesJustified_append (tr evs : List Event) (h : writesJustified tr)
    (hevs : flashWrites evs = []) : writesJustified (tr ++ evs) := by
  intro pre post src dst len st he
  rcases List.append_eq_append_iff.mp he with ⟨a, _, h2⟩ | ⟨c, h1, h2⟩
  · exact (no_write_split evs a post src dst len st hevs h2).elim
  · cases c with
    | nil => exact (no_write_split evs [] post src dst len st hevs (by simpa using h2.symm)).elim
    | cons x c =>
      simp only [List.cons_append, List.cons.injEq] at h2
      obtain ⟨rfl, _⟩ := h2
      exact h pre c src dst len st h1

theorem writesJustified_write (tr : List Event) (src : List Nat) (dst len : Nat)
    (st : tfm_platform_err_t) (h : writesJustified tr) (hq : writeJustified tr src) :
    writesJustified (tr ++ [Event.tfm_platform_flash_write src dst len st]) := by
  intro pre post src1 dst1 len1 st1 he
  rcases List.append_eq_append_iff.mp he with ⟨a, h1, h2⟩ | ⟨c, h1, h2⟩
  · cases a with
    | nil =>
      simp only [List.nil_append, List.cons.injEq, Event.tfm_platform_flash_write.injEq] at h2
      obtain ⟨⟨rfl, _, _, _⟩, _⟩ := h2
      simpa [h1] using hq
    | cons x a =>
      simp only [List.cons_append, List.cons.injEq] at h2
      have := h2.2
      simp at this
  · cases c with
    | nil =>
      simp only [List.nil_append, List.cons.injEq, Event.tfm_platform_flash_write.injEq] at h2
      obtain ⟨⟨rfl, _, _, _⟩, _⟩ := h2
      simpa [h1] using hq
    | cons x c =>
      simp only [List.cons_append, List.cons.injEq] at h2
      obtain ⟨rfl, _⟩ := h2
      exact h pre c src1 dst1 len1 st1 h1

theorem requestEvents_snoc (sc : Nat) (ts : List ReadResult) (r : ReadResult) :
    ∃ evs timeout, requestEvents sc (ts ++ [r]) = evs ++ [Event.comms_read 132 timeout r] ∧
      flashWrites evs = [] := by
  rw [requestEvents_append]
  by_cases hsc : sc = 0
  · refine ⟨requestEvents sc ts ++ [Event.comms_send NAK 1], 10000, by
      simp [requestEvents, hsc], ?_⟩
    simp [flashWrites_append, flashWrites_requestEvents, flashWrites]
  · exact ⟨requestEvents sc ts, 1000, by simp [requestEvents, hsc],
      flashWrites_requestEvents _ _⟩

/-- The flash write of an iteration that received an accepted frame with the expected block
number is justified. -/
theorem writeJustified_iteration (s : Session) (w : World) (ts : List ReadResult)
    (data : List Nat) (hE : s.ExpectedBlkNum = (1 + committed w.trace) % 256)
    (hacc : frameAccepted s.ExpectedBlkNum data)
    (h1 : RxByteBuffer data 1 = s.ExpectedBlkNum) :
    writeJustified
      (w.trace ++ requestEvents s.StartCondition (ts ++ [⟨fsp_err_t.FSP_SUCCESS, data⟩]))
      (payload data) := by
  obtain ⟨evs, timeout, he, hnw⟩ :=
    requestEvents_snoc s.StartCondition ts ⟨fsp_err_t.FSP_SUCCESS, data⟩
  obtain ⟨a0, _, a2, a3⟩ := hacc
  refine ⟨w.trace ++ evs, timeout, data, by rw [he, List.append_assoc], rfl, a0, ?_, by omega,
    by rw [← checksum_eq]; exact a3⟩
  rw [h1, hE, committed_append, committed_of_no_write _ (flashWrites_requestEvents _ _)]
  rfl

/-- One iteration keeps every flash write justified, and keeps the expected block number
equal to 1 plus the number of successful flash writes, as an `unsigned char`. -/
theorem iteration_justified (s : Session) (w : World) (step : Step)
    (hE : s.ExpectedBlkNum = (1 + committed w.trace) % 256) (hJ : writesJustified w.trace)
    (hit : Iteration s w step) :
    writesJustified step.world.trace ∧
    ∀ s1 w1, step = Step.next s1 w1 →
      s1.ExpectedBlkNum = (1 + committed w1.trace) % 256 := by
  cases hit with
  | blockedRead ts hts hlen hw =>
    refine ⟨?_, by intro s1 w1 h; cases h⟩
    simp only [Step.world, List.append_assoc]
    apply writesJustified_append _ _ hJ
    by_cases hsc : s.StartCondition = 0 <;>
      simp [flashWrites_append, flashWrites_requestEvents, flashWrites, hsc]
  | exhausted ts rest hts hlen hw =>
    refine ⟨?_, by intro s1 w1 h; cases h⟩
    exact writesJustified_append _ _ hJ (flashWrites_requestEvents _ _)
  | commsError ts r rest hts hlen hw hr1 hr2 =>
    refine ⟨?_, by intro s1 w1 h; cases h⟩
    exact writesJustified_append _ _ hJ (flashWrites_requestEvents _ _)
  | endOfTransfer ts data rest hts hlen hw h0 =>
    refine ⟨?_, by intro s1 w1 h; cases h⟩
    simp only [Step.world, List.append_assoc]
    apply writesJustified_append _ _ hJ
    simp [flashWrites_append, flashWrites_requestEvents, flashWrites]
  | rejected ts data rest hts hlen hw h0 hacc =>
    have hnw : flashWrites (requestEvents s.StartCondition
        (ts ++ [⟨fsp_err_t.FSP_SUCCESS, data⟩]) ++ [Event.comms_send NAK 1]) = [] := by
      simp [flashWrites_append, flashWrites_requestEvents, flashWrites]
    refine ⟨?_, ?_⟩
    · simp only [Step.world, List.append_assoc]
      exact writesJustified_append _ _ hJ hnw
    · intro s1 w1 h
      cases h
      simp only [List.append_assoc]
      rw [committed_append, committed_of_no_write _ hnw]
      exact hE
  | duplicate ts data rest hts hlen hw h0 hacc h1 =>
    have hnw : flashWrites (requestEvents s.StartCondition
        (ts ++ [⟨fsp_err_t.FSP_SUCCESS, data⟩]) ++ [Event.comms_send ACK 1]) = [] := by
      simp [flashWrites_append, flashWrites_requestEvents, flashWrites]
    refine ⟨?_, ?_⟩
    · simp only [Step.world, List.append_assoc]
      exact writesJustified_append _ _ hJ hnw
    · intro s1 w1 h
      cases h
      simp only [List.append_assoc]
      rw [committed_append, committed_of_no_write _ hnw]
      exact hE
  | blockedWrite ts data rest hts hlen hw h0 hacc h1 hfl =>
    refine ⟨?_, by intro s1 w1 h; cases h⟩
    exact writesJustified_append _ _ hJ (flashWrites_requestEvents _ _)
  | committed ts data rest frest hts hlen hw h0 hacc h1 hfl =>
    have hq := writeJustified_iteration s w ts data hE hacc h1
    have hJ1 := writesJustified_append _ _ hJ
      (flashWrites_requestEvents s.StartCondition (ts ++ [⟨fsp_err_t.FSP_SUCCESS, data⟩]))
    have hJ2 := writesJustified_write _ _ (s.Address % 2 ^ 32) 128
      tfm_platform_err_t.TFM_PLATFORM_ERR_SUCCESS hJ1 hq
    have hJ3 := writesJustified_append _ [Event.comms_send ACK 1] hJ2 (by simp [flashWrites])
    refine ⟨by simpa [Step.world] using hJ3, ?_⟩
    intro s1 w1 h
    cases h
    simp only [committed_append,
      committed_of_no_write _ (flashWrites_requestEvents s.StartCondition _), committed]
    omega
  | progFail ts data rest st frest hts hlen hw h0 hacc h1 hfl hst =>
    have hq := writeJustified_iteration s w ts data hE hacc h1
    have hJ1 := writesJustified_append _ _ hJ
      (flashWrites_requestEvents s.StartCondition (ts ++ [⟨fsp_err_t.FSP_SUCCESS, data⟩]))
    have hJ2 := writesJustified_write _ _ (s.Address % 2 ^ 32) 128 st hJ1 hq
    have hJ3 := writesJustified_append _ [Event.comms_send NAK 1, Event.comms_send CAN 1] hJ2
      (by simp [flashWrites])
    exact ⟨by simpa [Step.world] using hJ3, by intro s1 w1 h; cases h⟩

/-- Every run keeps every flash write justified. -/
theorem mainLoop_justified : ∀ (fuel : Nat) (s : Session) (w : World),
    s.ExpectedBlkNum = (1 + committed w.trace) % 256 → writesJustified w.trace →
    writesJustified (mainLoop fuel s w).world.trace := by
  intro fuel
  induction fuel with
  | zero => intro s w _ hJ; exact hJ
  | succ f ih =>
    intro s w hE hJ
    obtain ⟨h1, h2⟩ := iteration_justified s w (loopBody s w) hE hJ (loopBody_iteration s w)
    unfold mainLoop
    cases hb : loopBody s w with
    | ret c w1 => rw [hb] at h1; exact h1
    | next s1 w1 =>
      rw [hb] at h1
      exact ih s1 w1 (h2 s1 w1 hb) h1
    | blocked w1 => rw [hb] at h1; exact h1

/-- The last iteration of a run that returns. -/
theorem mainLoop_last : ∀ (fuel : Nat) (s : Session) (w : World) (c : XmCode),
    (mainLoop fuel s w).status = some c →
    ∃ s1 w1, loopBody s1 w1 = Step.ret c (mainLoop fuel s w).world := by
  intro fuel
  induction fuel with
  | zero => intro s w c h; simp [mainLoop] at h
  | succ f ih =>
    intro s w c h
    unfold mainLoop at h ⊢
    cases hb : loopBody s w with
    | ret c1 w1 =>
      rw [hb] at h
      simp only [Option.some.injEq] at h
      exact ⟨s, w, by rw [hb, h]⟩
    | next s1 w1 =>
      rw [hb] at h
      exact ih s1 w1 c h
    | blocked w1 => rw [hb] at h; simp at h

theorem sentBytes_requestEvents (sc : Nat) (rs : List ReadResult) :
    sentBytes (requestEvents sc rs) = if sc = 0 then List.replicate rs.length NAK else [] := by
  induction rs with
  | nil => simp [requestEvents, sentBytes]
  | cons r rs ih =>
    by_cases hsc : sc = 0
    · simp only [requestEvents, if_pos hsc, List.cons_append, List.nil_append, sentBytes,
        List.length_cons, List.replicate_succ] at ih ⊢
      rw [ih]
    · simp only [requestEvents, if_neg hsc, List.cons_append, List.nil_append, sentBytes]
        at ih ⊢
      exact ih

/-- The calls of one iteration: those of the attempts of its frame request, answered with
`rs`, then calls among which there is no receive. -/
theorem loopBody_trace (s : Session) (w : World) :
    ∃ rs resp, (loopBody s w).world.trace
        = w.trace ++ requestEvents s.StartCondition rs ++ resp ∧
      rs.length ≤ 10 ∧ readResults resp = [] := by
  have hit := loopBody_iteration s w
  generalize loopBody s w = step at hit
  cases hit with
  | blockedRead ts hts hlen hw =>
    refine ⟨ts, if s.StartCondition = 0 then [Event.comms_send NAK 1] else [], rfl, by omega,
      ?_⟩
    by_cases hsc : s.StartCondition = 0 <;> simp [hsc, readResults]
  | exhausted ts rest hts hlen hw => exact ⟨ts, [], by simp [Step.world], by omega, rfl⟩
  | commsError ts r rest hts hlen hw hr1 hr2 =>
    exact ⟨ts ++ [r], [], by simp [Step.world], by simp; omega, rfl⟩
  | endOfTransfer ts data rest hts hlen hw h0 =>
    exact ⟨ts ++ [ReadResult.mk fsp_err_t.FSP_SUCCESS data], [Event.comms_send ACK 1], rfl,
      by simp; omega, by simp [readResults]⟩
  | rejected ts data rest hts hlen hw h0 hacc =>
    exact ⟨ts ++ [ReadResult.mk fsp_err_t.FSP_SUCCESS data], [Event.comms_send NAK 1], rfl,
      by simp; omega, by simp [readResults]⟩
  | duplicate ts data rest hts hlen hw h0 hacc h1 =>
    exact ⟨ts ++ [ReadResult.mk fsp_err_t.FSP_SUCCESS data], [Event.comms_send ACK 1], rfl,
      by simp; omega, by simp [readResults]⟩
  | blockedWrite ts data rest hts hlen hw h0 hacc h1 hfl =>
    exact ⟨ts ++ [ReadResult.mk fsp_err_t.FSP_SUCCESS data], [], by simp [Step.world], by simp; omega, rfl⟩
  | committed ts data rest frest hts hlen hw h0 hacc h1 hfl =>
    exact ⟨ts ++ [ReadResult.mk fsp_err_t.FSP_SUCCESS data],
      [Event.tfm_platform_flash_write (payload data) (s.Address % 2 ^ 32) 128
         tfm_platform_err_t.TFM_PLATFORM_ERR_SUCCESS, Event.comms_send ACK 1], rfl,
      by simp; omega, by simp [readResults]⟩
  | progFail ts data rest st frest hts hlen hw h0 hacc h1 hfl hst =>
    exact ⟨ts ++ [ReadResult.mk fsp_err_t.FSP_SUCCESS data],
      [Event.tfm_platform_flash_write (payload data) (s.Address % 2 ^ 32) 128 st,
       Event.comms_send NAK 1, Event.comms_send CAN 1], rfl,
      by simp; omega, by simp [readResults]⟩

/-- What the calls of the attempts of a frame request are. -/
theorem mem_requestEvents (sc : Nat) (rs : List ReadResult) (e : Event)
    (he : e ∈ requestEvents sc rs) :
    (sc = 0 ∧ (e = Event.comms_send NAK 1 ∨ ∃ r, e = Event.comms_read 132 10000 r)) ∨
    (sc ≠ 0 ∧ ∃ r, e = Event.comms_read 132 1000 r) := by
  induction rs with
  | nil => simp [requestEvents] at he
  | cons r rs ih =>
    by_cases hsc : sc = 0
    · simp only [requestEvents, if_pos hsc, List.cons_append, List.nil_append, List.mem_cons]
        at he
      rcases he with rfl | rfl | he
      · exact Or.inl ⟨hsc, Or.inl rfl⟩
      · exact Or.inl ⟨hsc, Or.inr ⟨r, rfl⟩⟩
      · exact ih he
    · simp only [requestEvents, if_neg hsc, List.cons_append, List.nil_append, List.mem_cons]
        at he
      rcases he with rfl | he
      · exact Or.inr ⟨hsc, r, rfl⟩
      · exact ih he

/-- An iteration that goes on leaves the start condition cleared. -/
theorem loopBody_next_startCondition (s s1 : Session) (w w1 : World)
    (h : loopBody s w = Step.next s1 w1) : s1.StartCondition = 1 := by
  have hit := loopBody_iteration s w
  rw [h] at hit
  cases hit <;> rfl

theorem loopHeads_startCondition : ∀ (fuel : Nat) (s : Session) (w : World),
    s.StartCondition = 1 → ∀ sw ∈ loopHeads fuel s w, sw.1.StartCondition = 1 := by
  intro fuel
  induction fuel with
  | zero => intro s w _ sw h; simp [loopHeads] at h
  | succ f ih =>
    intro s w hs sw h
    simp only [loopHeads, List.mem_cons] at h
    rcases h with rfl | h
    · exact hs
    · cases hb : loopBody s w with
      | ret c w1 => rw [hb] at h; simp at h
      | next s1 w1 =>
        rw [hb] at h
        exact ih s1 w1 (loopBody_next_startCondition s s1 w w1 hb) sw h
      | blocked w1 => rw [hb] at h; simp at h

theorem loopHeads_tail_startCondition (fuel : Nat) (s : Session) (w : World) :
    ∀ sw ∈ (loopHeads fuel s w).tail, sw.1.StartCondition = 1 := by
  intro sw h
  cases fuel with
  | zero => simp [loopHeads] at h
  | succ f =>
    simp only [loopHeads, List.tail_cons] at h
    cases hb : loopBody s w with
    | ret c w1 => rw [hb] at h; simp at h
    | next s1 w1 =>
      rw [hb] at h
      exact loopHeads_startCondition f s1 w1 (loopBody_next_startCondition s s1 w w1 hb) sw h
    | blocked w1 => rw [hb] at h; simp at h

/-- The iteration of a frame request that ends with a buffer that is neither an end of
transfer nor an accepted frame. -/
theorem loopBody_rejected (s : Session) (w : World) (ts : List ReadResult) (data : List Nat)
    (rest : List ReadResult)
    (hts : ∀ t ∈ ts, t.err = fsp_err_t.FSP_ERR_TIMEOUT) (hlen : ts.length ≤ 9)
    (hw : w.rx = ts ++ ⟨fsp_err_t.FSP_SUCCESS, data⟩ :: rest)
    (hne : RxByteBuffer data 0 ≠ EOT) (hacc : ¬ frameAccepted s.ExpectedBlkNum data) :
    loopBody s w = Step.next
      { ExpectedBlkNum := s.ExpectedBlkNum, StartCondition := 1, Address := s.Address }
      { rx := rest, flash := w.flash,
        trace := w.trace ++
          requestEvents s.StartCondition (ts ++ [⟨fsp_err_t.FSP_SUCCESS, data⟩]) ++
          [Event.comms_send NAK 1] } := by
  rw [loopBody_received s w ts data rest hts hlen hw]
  unfold handleFrame
  dsimp only
  rw [if_neg (by decide), if_neg (by decide), if_neg hne, if_pos hacc]
  simp [comms_send]

/-- A run that begins with the frames of the blocks `k`, `k + 1`, ... with the payloads `ps`,
all flash writes succeeding: after as many iterations as there are payloads the loop is at
the next block. -/
theorem clean_prefix (rest : List ReadResult) (frest : List tfm_platform_err_t) (a : Nat) :
    ∀ (ps : List (List Nat)) (k : Nat) (s : Session) (w : World) (fuel : Nat),
      (∀ p ∈ ps, p.length = 128 ∧ ∀ b ∈ p, b < 256) → 1 ≤ k →
      s.ExpectedBlkNum = k % 256 →
      s.Address % 2 ^ 32 = (a + 128 * (k - 1)) % 2 ^ 32 →
      w.rx = (ps.enumFrom k).map (fun ip => rxOk (frame ip.1 ip.2)) ++ rest →
      w.flash = List.replicate ps.length tfm_platform_err_t.TFM_PLATFORM_ERR_SUCCESS ++ frest →
      ∃ s1 w1, mainLoop (fuel + ps.length) s w = mainLoop fuel s1 w1 ∧
        s1.ExpectedBlkNum = (k + ps.length) % 256 ∧
        s1.Address % 2 ^ 32 = (a + 128 * (k + ps.length - 1)) % 2 ^ 32 ∧
        s1.StartCondition = (if ps = [] then s.StartCondition else 1) ∧
        w1.rx = rest ∧ w1.flash = frest ∧
        flashWrites w1.trace = flashWrites w.trace ++
          (ps.enumFrom k).map (fun ip => (ip.2, (a + 128 * (ip.1 - 1)) % 2 ^ 32, 128)) ∧
        sentBytes w1.trace = sentBytes w.trace ++
          (if s.StartCondition = 0 ∧ ps ≠ [] then [NAK] else []) ++
          List.replicate ps.length ACK := by
  intro ps
  induction ps with
  | nil =>
    intro k s w fuel _ _ hE hA hrx hfl
    exact ⟨s, w, rfl, by simpa using hE, by simpa using hA, by simp, by simpa using hrx,
      by simpa using hfl, by simp, by simp⟩
  | cons p ps ih =>
    intro k s w fuel hps hk hE hA hrx hfl
    obtain ⟨hplen, hpb⟩ := hps p (List.mem_cons_self _ _)
    obtain ⟨f0, f1, f2, f3⟩ := frame_accepted k p hplen hpb
    have hrx1 : w.rx = [] ++ ⟨fsp_err_t.FSP_SUCCESS, frame k p⟩ ::
        ((ps.enumFrom (k + 1)).map (fun ip => rxOk (frame ip.1 ip.2)) ++ rest) := by
      simpa [rxOk, List.enumFrom] using hrx
    have hfl1 : w.flash = tfm_platform_err_t.TFM_PLATFORM_ERR_SUCCESS ::
        (List.replicate ps.length tfm_platform_err_t.TFM_PLATFORM_ERR_SUCCESS ++ frest) := by
      simpa [List.replicate_succ] using hfl
    have hb := loopBody_received s w [] (frame k p) _ (by simp) (by simp) hrx1
    rw [handleFrame_commit _ _ _ _ _ _ f0 (by rw [f1]; exact hE.symm) f2 f3 hfl1] at hb
    obtain ⟨s0, w0, hb1, e1, e2, e3, e4, e5, e6⟩ : ∃ s0 w0, loopBody s w = Step.next s0 w0 ∧
        s0.ExpectedBlkNum = (s.ExpectedBlkNum + 1) % 256 ∧ s0.StartCondition = 1 ∧
        s0.Address = (s.Address + 128) % 2 ^ 32 ∧
        w0.rx = (ps.enumFrom (k + 1)).map (fun ip => rxOk (frame ip.1 ip.2)) ++ rest ∧
        w0.flash = List.replicate ps.length tfm_platform_err_t.TFM_PLATFORM_ERR_SUCCESS ++
          frest ∧
        w0.trace = w.trace ++
          requestEvents s.StartCondition ([] ++ [⟨fsp_err_t.FSP_SUCCESS, frame k p⟩]) ++
          [Event.tfm_platform_flash_write (payload (frame k p)) (s.Address % 2 ^ 32) 128
             tfm_platform_err_t.TFM_PLATFORM_ERR_SUCCESS,
           Event.comms_send ACK 1] :=
      ⟨_, _, hb, rfl, rfl, rfl, rfl, rfl, rfl⟩
    have hA1 : s0.Address % 2 ^ 32 = (a + 128 * (k + 1 - 1)) % 2 ^ 32 := by
      rw [e3]
      norm_num at hA ⊢
      omega
    obtain ⟨s1, w1, r0, r1, r2, r3, r4, r5, r6, r7⟩ := ih (k + 1) s0 w0 fuel
      (fun q hq => hps q (List.mem_cons_of_mem _ hq)) (by omega)
      (by rw [e1]; omega) hA1 e4 e5
    refine ⟨s1, w1, ?_, ?_, ?_, ?_, r4, r5, ?_, ?_⟩
    · rw [show fuel + (p :: ps).length = (fuel + ps.length) + 1 by simp; omega,
        mainLoop_next _ s s0 w w0 hb1, r0]
    · rw [r1, List.length_cons, show k + 1 + ps.length = k + (ps.length + 1) by omega]
    · rw [r2, List.length_cons,
        show k + 1 + ps.length - 1 = k + (ps.length + 1) - 1 by omega]
    · rw [r3, e2]; simp
    · have hA2 : s.Address % 4294967296 = (a + 128 * (k - 1)) % 4294967296 := by
        norm_num at hA
        exact hA
      rw [r6, e6]
      simp [flashWrites_append, flashWrites_requestEvents, flashWrites, List.enumFrom,
        payload_frame k p hplen hpb, hA2]
    · rw [r7, e6, e2]
      by_cases hsc : s.StartCondition = 0 <;>
        simp [sentBytes_append, sentBytes_requestEvents_one, sentBytes, List.replicate_succ, hsc]

theorem foldl_add_mod (bytes : List Nat) :
    ∀ acc : Nat, bytes.foldl (fun acc b => (acc + b) % 256) (acc % 256)
      = (acc + bytes.sum) % 256 := by
  induction bytes with
  | nil => intro acc; simp
  | cons b bs ih =>
    intro acc
    simp only [List.foldl_cons, List.sum_cons]
    rw [ih (acc % 256 + b)]
    omega

theorem wraparoundSum8_eq (bytes : List Nat) : wraparoundSum8 bytes = bytes.sum % 256 := by
  have h := foldl_add_mod bytes 0
  simpa [wraparoundSum8] using h

theorem not_frameAccepted_of_failsValidation (E : Nat) (data : List Nat)
    (h : failsValidation E data) : ¬ frameAccepted E data := by
  rintro ⟨a, b, c, d⟩
  rw [checksum_eq] at d
  rcases h with h | ⟨h, h4⟩ | h | h
  · exact h a
  · rcases b with b | b
    · exact h b
    · exact h4 b
  · omega
  · exact h d

/-- A run that receives the buffers `bads`, none an end of transfer and none an accepted
frame, and then a buffer that starts with EOT. -/
theorem invalid_run (eot : List Nat) (rest : List ReadResult)
    (heot : RxByteBuffer eot 0 = EOT) :
    ∀ (bads : List (List Nat)) (s : Session) (w : World) (fuel : Nat),
      (∀ d ∈ bads, RxByteBuffer d 0 ≠ EOT ∧ failsValidation s.ExpectedBlkNum d) →
      w.rx = bads.map rxOk ++ rxOk eot :: rest →
      bads.length < fuel →
      (mainLoop fuel s w).status = some XmCode.XM_OK ∧
      (mainLoop fuel s w).world.rx = rest ∧
      (mainLoop fuel s w).world.flash = w.flash ∧
      flashWrites (mainLoop fuel s w).world.trace = flashWrites w.trace ∧
      sentBytes (mainLoop fuel s w).world.trace = sentBytes w.trace ++
        (if s.StartCondition = 0 then [NAK] else []) ++
        List.replicate bads.length NAK ++ [ACK] := by
  intro bads
  induction bads with
  | nil =>
    intro s w fuel _ hrx hfuel
    obtain ⟨f, rfl⟩ : ∃ f, fuel = f + 1 := ⟨fuel - 1, by simp at hfuel; omega⟩
    have hrx1 : w.rx = [] ++ ⟨fsp_err_t.FSP_SUCCESS, eot⟩ :: rest := by simpa [rxOk] using hrx
    have hb : loopBody s w = Step.ret XmCode.XM_OK
        ⟨rest, w.flash, w.trace ++
          requestEvents s.StartCondition ([] ++ [⟨fsp_err_t.FSP_SUCCESS, eot⟩]) ++
          [Event.comms_send ACK 1]⟩ := by
      rw [loopBody_received s w [] eot rest (by simp) (by simp) hrx1, handleFrame_eot _ _ _ heot]
    rw [mainLoop_ret f s _ w _ hb]
    refine ⟨rfl, rfl, rfl, ?_, ?_⟩
    · simp [flashWrites_append, flashWrites_requestEvents, flashWrites]
    · simp [sentBytes_append, sentBytes_requestEvents_one, sentBytes]
  | cons d bads ih =>
    intro s w fuel hbad hrx hfuel
    obtain ⟨f, rfl⟩ : ∃ f, fuel = f + 1 := ⟨fuel - 1, by simp at hfuel; omega⟩
    obtain ⟨hne, hfv⟩ := hbad d (List.mem_cons_self _ _)
    have hrx1 : w.rx = [] ++ ⟨fsp_err_t.FSP_SUCCESS, d⟩ ::
        (bads.map rxOk ++ rxOk eot :: rest) := by
      simpa [rxOk] using hrx
    have hb := loopBody_rejected s w [] d _ (by simp) (by simp) hrx1 hne
      (not_frameAccepted_of_failsValidation _ _ hfv)
    rw [mainLoop_next f s _ w _ hb]
    obtain ⟨r1, r2, r3, r4, r5⟩ := ih
      { ExpectedBlkNum := s.ExpectedBlkNum, StartCondition := 1, Address := s.Address }
      { rx := bads.map rxOk ++ rxOk eot :: rest, flash := w.flash,
        trace := w.trace ++
          requestEvents s.StartCondition ([] ++ [⟨fsp_err_t.FSP_SUCCESS, d⟩]) ++
          [Event.comms_send NAK 1] } f
      (fun q hq => hbad q (List.mem_cons_of_mem _ hq)) rfl (by simp at hfuel ⊢; omega)
    refine ⟨r1, r2, r3, ?_, ?_⟩
    · rw [r4]
      simp [flashWrites_append, flashWrites_requestEvents, flashWrites]
    · rw [r5]
      simp [sentBytes_append, sentBytes_requestEvents_one, sentBytes, List.replicate_succ]

theorem writesInSequence_append (FA : Nat) (tr evs : List Event)
    (h : writesInSequence FA tr) (hevs : flashWrites evs = []) :
    writesInSequence FA (tr ++ evs) := by
  unfold writesInSequence at h ⊢
  rw [flashWrites_append, hevs, List.append_nil]
  exact h

theorem writesInSequence_write (FA : Nat) (tr : List Event) (src : List Nat) (dst : Nat)
    (st : tfm_platform_err_t) (h : writesInSequence FA tr)
    (hdst : dst = (FA + 128 * (flashWrites tr).length) % 2 ^ 32) :
    writesInSequence FA (tr ++ [Event.tfm_platform_flash_write src dst 128 st]) := by
  unfold writesInSequence at h ⊢
  rw [flashWrites_append]
  simp only [flashWrites, List.map_append, List.length_append, List.length_cons,
    List.length_nil, List.range_succ, List.map_cons, List.map_nil, Nat.zero_add]
  rw [h, hdst]

/-- One iteration keeps the session in step with the flash writes made so far: the expected
block number is 1 plus their number (as an `unsigned char`), the address is the base plus 128
times their number (as an `unsigned long`), all of them succeeded, and they went to the base,
the base + 128, ... in this order. -/
theorem iteration_session (FA : Nat) (s : Session) (w : World) (step : Step)
    (hE : s.ExpectedBlkNum = (1 + committed w.trace) % 256)
    (hA : s.Address = (FA + 128 * committed w.trace) % 2 ^ 32)
    (hL : (flashWrites w.trace).length = committed w.trace)
    (hT : writesInSequence FA w.trace)
    (hit : Iteration s w step) :
    writesInSequence FA step.world.trace ∧
    ∀ s1 w1, step = Step.next s1 w1 →
      s1.ExpectedBlkNum = (1 + committed w1.trace) % 256 ∧
      s1.Address = (FA + 128 * committed w1.trace) % 2 ^ 32 ∧
      (flashWrites w1.trace).length = committed w1.trace ∧
      writesInSequence FA w1.trace := by
  have hreq : ∀ rs, flashWrites (w.trace ++ requestEvents s.StartCondition rs)
      = flashWrites w.trace := by
    intro rs
    rw [flashWrites_append, flashWrites_requestEvents, List.append_nil]
  have hreqc : ∀ rs, committed (w.trace ++ requestEvents s.StartCondition rs)
      = committed w.trace := by
    intro rs
    rw [committed_append, committed_of_no_write _ (flashWrites_requestEvents _ _)]
    rfl
  have hdst : s.Address % 2 ^ 32 = (FA + 128 * (flashWrites w.trace).length) % 2 ^ 32 := by
    rw [hL, hA]
    exact Nat.mod_mod _ _
  cases hit with
  | blockedRead ts hts hlen hw =>
    refine ⟨?_, by intro s1 w1 h; cases h⟩
    simp only [Step.world, List.append_assoc]
    apply writesInSequence_append _ _ _ hT
    by_cases hsc : s.StartCondition = 0 <;>
      simp [flashWrites_append, flashWrites_requestEvents, flashWrites, hsc]
  | exhausted ts rest hts hlen hw =>
    exact ⟨writesInSequence_append _ _ _ hT (flashWrites_requestEvents _ _),
      by intro s1 w1 h; cases h⟩
  | commsError ts r rest hts hlen hw hr1 hr2 =>
    exact ⟨writesInSequence_append _ _ _ hT (flashWrites_requestEvents _ _),
      by intro s1 w1 h; cases h⟩
  | endOfTransfer ts data rest hts hlen hw h0 =>
    refine ⟨?_, by intro s1 w1 h; cases h⟩
    simp only [Step.world, List.append_assoc]
    apply writesInSequence_append _ _ _ hT
    simp [flashWrites_append, flashWrites_requestEvents, flashWrites]
  | rejected ts data rest hts hlen hw h0 hacc =>
    have hnw : flashWrites (requestEvents s.StartCondition
        (ts ++ [⟨fsp_err_t.FSP_SUCCESS, data⟩]) ++ [Event.comms_send NAK 1]) = [] := by
      simp [flashWrites_append, flashWrites_requestEvents, flashWrites]
    have hT1 := writesInSequence_append _ _ _ hT hnw
    refine ⟨by simpa [Step.world, List.append_assoc] using hT1, ?_⟩
    intro s1 w1 h
    cases h
    simp only [List.append_assoc]
    rw [committed_append, committed_of_no_write _ hnw, flashWrites_append, hnw]
    exact ⟨hE, hA, by simpa using hL, hT1⟩
  | duplicate ts data rest hts hlen hw h0 hacc h1 =>
    have hnw : flashWrites (requestEvents s.StartCondition
        (ts ++ [⟨fsp_err_t.FSP_SUCCESS, data⟩]) ++ [Event.comms_send ACK 1]) = [] := by
      simp [flashWrites_append, flashWrites_requestEvents, flashWrites]
    have hT1 := writesInSequence_append _ _ _ hT hnw
    refine ⟨by simpa [Step.world, List.append_assoc] using hT1, ?_⟩
    intro s1 w1 h
    cases h
    simp only [List.append_assoc]
    rw [committed_append, committed_of_no_write _ hnw, flashWrites_append, hnw]
    exact ⟨hE, hA, by simpa using hL, hT1⟩
  | blockedWrite ts data rest hts hlen hw h0 hacc h1 hfl =>
    exact ⟨writesInSequence_append _ _ _ hT (flashWrites_requestEvents _ _),
      by intro s1 w1 h; cases h⟩
  | committed ts data rest frest hts hlen hw h0 hacc h1 hfl =>
    have hT1 := writesInSequence_append _ _ _ hT
      (flashWrites_requestEvents s.StartCondition (ts ++ [⟨fsp_err_t.FSP_SUCCESS, data⟩]))
    have hT2 := writesInSequence_write FA _ (payload data) (s.Address % 2 ^ 32)
      tfm_platform_err_t.TFM_PLATFORM_ERR_SUCCESS hT1 (by rw [hreq]; exact hdst)
    have hT3 := writesInSequence_append _ _ [Event.comms_send ACK 1] hT2 (by simp [flashWrites])
    have hT4 : writesInSequence FA (w.trace ++
        requestEvents s.StartCondition (ts ++ [⟨fsp_err_t.FSP_SUCCESS, data⟩]) ++
        [Event.tfm_platform_flash_write (payload data) (s.Address % 2 ^ 32) 128
           tfm_platform_err_t.TFM_PLATFORM_ERR_SUCCESS, Event.comms_send ACK 1]) := by
      simpa using hT3
    refine ⟨hT4, ?_⟩
    intro s1 w1 h
    cases h
    refine ⟨?_, ?_, ?_, hT4⟩
    · simp only [committed_append, hreqc, committed]
      omega
    · simp only [committed_append, hreqc, committed]
      norm_num at hA ⊢
      omega
    · simp only [flashWrites_append, hreq, committed_append, hreqc, committed, flashWrites,
        List.length_append, List.length_cons, List.length_nil]
      omega
  | progFail ts data rest st frest hts hlen hw h0 hacc h1 hfl hst =>
    have hT1 := writesInSequence_append _ _ _ hT
      (flashWrites_requestEvents s.StartCondition (ts ++ [⟨fsp_err_t.FSP_SUCCESS, data⟩]))
    have hT2 := writesInSequence_write FA _ (payload data) (s.Address % 2 ^ 32) st hT1
      (by rw [hreq]; exact hdst)
    have hT3 := writesInSequence_append _ _
      [Event.comms_send NAK 1, Event.comms_send CAN 1] hT2 (by simp [flashWrites])
    exact ⟨by simpa [Step.world] using hT3, by intro s1 w1 h; cases h⟩

/-- Every iteration of a run starts with the session in step with the flash writes made. -/
theorem loopHeads_session (FA : Nat) : ∀ (fuel : Nat) (s : Session) (w : World),
    s.ExpectedBlkNum = (1 + committed w.trace) % 256 →
    s.Address = (FA + 128 * committed w.trace) % 2 ^ 32 →
    (flashWrites w.trace).length = committed w.trace →
    writesInSequence FA w.trace →
    ∀ sw ∈ loopHeads fuel s w,
      sw.1.ExpectedBlkNum = (1 + committed sw.2.trace) % 256 ∧
      sw.1.Address = (FA + 128 * committed sw.2.trace) % 2 ^ 32 := by
  intro fuel
  induction fuel with
  | zero => intro s w _ _ _ _ sw h; simp [loopHeads] at h
  | succ f ih =>
    intro s w hE hA hL hT sw h
    simp only [loopHeads, List.mem_cons] at h
    rcases h with rfl | h
    · exact ⟨hE, hA⟩
    · obtain ⟨_, h2⟩ := iteration_session FA s w (loopBody s w) hE hA hL hT
        (loopBody_iteration s w)
      cases hb : loopBody s w with
      | ret c w1 => rw [hb] at h; simp at h
      | next s1 w1 =>
        rw [hb] at h
        obtain ⟨e1, e2, e3, e4⟩ := h2 s1 w1 hb
        exact ih s1 w1 e1 e2 e3 e4 sw h
      | blocked w1 => rw [hb] at h; simp at h

/-- Every run makes its flash writes in sequence from the base address. -/
theorem mainLoop_sequence (FA : Nat) : ∀ (fuel : Nat) (s : Session) (w : World),
    s.ExpectedBlkNum = (1 + committed w.trace) % 256 →
    s.Address = (FA + 128 * committed w.trace) % 2 ^ 32 →
    (flashWrites w.trace).length = committed w.trace →
    writesInSequence FA w.trace →
    writesInSequence FA (mainLoop fuel s w).world.trace := by
  intro fuel
  induction fuel with
  | zero => intro s w _ _ _ hT; exact hT
  | succ f ih =>
    intro s w hE hA hL hT
    obtain ⟨h1, h2⟩ := iteration_session FA s w (loopBody s w) hE hA hL hT
      (loopBody_iteration s w)
    unfold mainLoop
    cases hb : loopBody s w with
    | ret c w1 => rw [hb] at h1; exact h1
    | next s1 w1 =>
      obtain ⟨e1, e2, e3, e4⟩ := h2 s1 w1 hb
      exact ih s1 w1 e1 e2 e3 e4
    | blocked w1 => rw [hb] at h1; exact h1

theorem writeAddresses_of_sequence (FA : Nat) (tr : List Event) (h : writesInSequence FA tr) :
    writeAddresses tr
      = (List.range (flashWrites tr).length).map (fun i => (FA + 128 * i) % 2 ^ 32) := by
  have h1 := congrArg (List.map Prod.fst) h
  simpa [writeAddresses, List.map_map, Function.comp_def] using h1

theorem writeLengths_of_sequence (FA : Nat) (tr : List Event) (h : writesInSequence FA tr) :
    writeLengths tr = List.replicate (flashWrites tr).length 128 := by
  have h1 := congrArg (List.map Prod.snd) h
  simp only [List.map_map, Function.comp_def] at h1
  rw [writeLengths, h1]
  apply List.ext_getElem
  · simp
  · intro i h2 h3
    simp

/-- The flash write number `i` (from 0) of a clean transfer. -/
theorem clean_transfer_write_at (FlashAddress : Nat) (ps : List (List Nat)) (eot : List Nat)
    (rest : List ReadResult) (frest : List tfm_platform_err_t)
    (hps : ∀ p ∈ ps, p.length = 128 ∧ ∀ b ∈ p, b < 256)
    (heot : RxByteBuffer eot 0 = EOT) (i : Nat) (p : List Nat) (hi : ps[i]? = some p) :
    (flashWrites
      (XmodemDownloadAndProgramFlash FlashAddress (cleanTransfer ps eot rest frest)).world.trace)[i]?
      = some (p, (FlashAddress + 128 * i) % 2 ^ 32, 128) := by
  obtain ⟨_, _, _, r4, _⟩ := clean_run eot rest frest heot FlashAddress ps 1
    (initialSession FlashAddress) (cleanTransfer ps eot rest frest)
    ((cleanTransfer ps eot rest frest).rx.length + 1) hps (le_refl 1) rfl
    (by simp [initialSession]) rfl rfl (by simp [cleanTransfer]; omega)
  rw [XmodemDownloadAndProgramFlash, r4]
  simp only [cleanTransfer, flashWrites, List.nil_append, List.getElem?_map,
    List.getElem?_enumFrom, hi, Option.map_some']
  simp

theorem RxByteBuffer_set (data : List Nat) (k b j : Nat) (hk : k < data.length) :
    RxByteBuffer (data.set k b) j = if j = k then b % 256 else RxByteBuffer data j := by
  unfold RxByteBuffer
  by_cases hj : j = k
  · subst hj
    simp [List.getD_eq_getElem?_getD, List.getElem?_set_self, hk]
  · rw [if_neg hj]
    simp [List.getD_eq_getElem?_getD, List.getElem?_set_ne (Ne.symm hj)]

/-- Two sums over the same indices whose terms agree except at `i`. -/
theorem sum_range_one_changed (f g : Nat → Nat) (i : Nat) (h : ∀ j, j ≠ i → g j = f j) :
    ∀ n, ((List.range n).map g).sum + (if i < n then f i else 0)
      = ((List.range n).map f).sum + (if i < n then g i else 0) := by
  intro n
  induction n with
  | zero => simp
  | succ n ih =>
    simp only [List.range_succ, List.map_append, List.sum_append, List.map_cons, List.map_nil,
      List.sum_cons, List.sum_nil, Nat.add_zero]
    by_cases h1 : i < n
    · have h2 : i < n + 1 := by omega
      have h3 : g n = f n := h n (by omega)
      rw [if_pos h1] at ih
      rw [if_pos h1] at ih
      rw [if_pos h2, if_pos h2, h3]
      omega
    · rw [if_neg h1] at ih
      rw [if_neg h1] at ih
      by_cases h2 : i = n
      · subst h2
        rw [if_pos (by omega), if_pos (by omega)]
        omega
      · have h3 : g n = f n := h n (by omega)
        rw [if_neg (by omega), if_neg (by omega), h3]
        omega

/-- The sum of the differences is the difference of the sums. -/
theorem sum_range_differences (f g : Nat → Nat) : ∀ n,
    ((List.range n).map (fun j => (g j : Int) - (f j : Int))).sum
      = (((List.range n).map g).sum : Int) - (((List.range n).map f).sum : Int) := by
  intro n
  induction n with
  | zero => simp
  | succ n ih =>
    simp only [List.range_succ, List.map_append, List.sum_append, List.map_cons, List.map_nil,
      List.sum_cons, List.sum_nil, ih]
    push_cast
    ring

theorem RxByteBuffer_lt (data : List Nat) (j : Nat) : RxByteBuffer data j < 256 :=
  Nat.mod_lt _ (by norm_num)

theorem byte_complement : ∀ b : Fin 256, 255 - b.val = b.val ^^^ 255 := by decide

/-- The buffer indices read by the checksum loop, from index `idx` on. -/
theorem checksumSteps_indices (data : List Nat) :
    ∀ (n fuel idx : Nat) (cs : Int), idx + n = 128 → n ≤ fuel →
      (checksumSteps data fuel idx cs).map Prod.fst = (List.range' idx n).map (fun i => i + 3) := by
  intro n
  induction n with
  | zero =>
    intro fuel idx cs h _
    have hidx : ¬ idx < 128 := by omega
    cases fuel <;> simp [checksumSteps, hidx]
  | succ n ih =>
    intro fuel idx cs h hf
    obtain ⟨f, rfl⟩ : ∃ f, fuel = f + 1 := ⟨fuel - 1, by omega⟩
    have hidx : idx < 128 := by omega
    have hmod : (idx + 1) % 256 = idx + 1 := by omega
    rw [checksumSteps, if_pos hidx, hmod]
    simp only [List.map_cons, List.range'_succ]
    rw [ih f (idx + 1) _ (by omega) (by omega)]

/-- The values of the accumulator stay between 0 and 255 times the number of bytes added. -/
theorem checksumSteps_bound (data : List Nat) :
    ∀ (fuel idx : Nat) (cs : Int), idx ≤ 128 → 0 ≤ cs → cs ≤ 255 * (idx : Int) →
      ∀ p ∈ checksumSteps data fuel idx cs, 0 ≤ p.2 ∧ p.2 ≤ 32640 := by
  intro fuel
  induction fuel with
  | zero => intro idx cs _ _ _ p hp; simp [checksumSteps] at hp
  | succ f ih =>
    intro idx cs hidx h0 h1 p hp
    rw [checksumSteps] at hp
    by_cases hlt : idx < 128
    · rw [if_pos hlt] at hp
      have hmod : (idx + 1) % 256 = idx + 1 := by omega
      have hb := RxByteBuffer_lt data (idx + 3)
      rcases List.mem_cons.mp hp with rfl | hp
      · constructor
        · show 0 ≤ cs + (RxByteBuffer data (idx + 3) : Int)
          omega
        · show cs + (RxByteBuffer data (idx + 3) : Int) ≤ 32640
          omega
      · rw [hmod] at hp
        exact ih (idx + 1) _ (by omega) (by omega) (by push_cast; omega) p hp
    · rw [if_neg hlt] at hp
      simp at hp

/-- The result of the checksum loop is the last value of the accumulator. -/
theorem checksumLoop_last (data : List Nat) :
    ∀ (fuel idx : Nat) (cs : Int),
      checksumLoop data fuel idx cs
        = ((checksumSteps data fuel idx cs).getLast?.map Prod.snd).getD cs := by
  intro fuel
  induction fuel with
  | zero => intro idx cs; rfl
  | succ f ih =>
    intro idx cs
    rw [checksumLoop, checksumSteps]
    by_cases hlt : idx < 128
    · rw [if_pos hlt, if_pos hlt, ih]
      cases hs : checksumSteps data f ((idx + 1) % 256)
          (cs + (RxByteBuffer data (idx + 3) : Int)) with
      | nil => simp
      | cons a l =>
        rw [List.getLast?_cons_cons]
        cases hl : (a :: l).getLast? with
        | none => simp at hl
        | some x => simp
    · rw [if_neg hlt, if_neg hlt]
      rfl

/-- The iteration of a frame request that ends with an accepted frame whose block number is
not the expected one. -/
theorem loopBody_duplicate (s : Session) (w : World) (ts : List ReadResult) (data : List Nat)
    (rest : List ReadResult)
    (hts : ∀ t ∈ ts, t.err = fsp_err_t.FSP_ERR_TIMEOUT) (hlen : ts.length ≤ 9)
    (hw : w.rx = ts ++ ⟨fsp_err_t.FSP_SUCCESS, data⟩ :: rest)
    (hne : RxByteBuffer data 0 ≠ EOT) (hacc : frameAccepted s.ExpectedBlkNum data)
    (hE : RxByteBuffer data 1 ≠ s.ExpectedBlkNum) :
    loopBody s w = Step.next
      { ExpectedBlkNum := s.ExpectedBlkNum, StartCondition := 1, Address := s.Address }
      { rx := rest, flash := w.flash,
        trace := w.trace ++
          requestEvents s.StartCondition (ts ++ [⟨fsp_err_t.FSP_SUCCESS, data⟩]) ++
          [Event.comms_send ACK 1] } := by
  rw [loopBody_received s w ts data rest hts hlen hw]
  unfold handleFrame
  dsimp only
  rw [if_neg (by decide), if_neg (by decide), if_neg hne, if_neg (not_not.mpr hacc), if_neg hE]
  simp [comms_send]

theorem lockstepRun_append (a b : List Event) : ∀ (p q : Phase),
    lockstepRun p a = some q → lockstepRun p (a ++ b) = lockstepRun q b := by
  induction a with
  | nil => intro p q h; simp [lockstepRun] at h; subst h; rfl
  | cons e a ih =>
    intro p q h
    simp only [List.cons_append, lockstepRun] at h ⊢
    cases hs : lockstepStep p e with
    | none => rw [hs] at h; simp at h
    | some x =>
      rw [hs] at h
      exact ih x q h

theorem lockstepRun_attempt (sc : Nat) (r : ReadResult) :
    lockstepRun (phaseOf sc) (requestEvents sc [r])
      = some (if r.err = fsp_err_t.FSP_SUCCESS then Phase.received
              else if r.err = fsp_err_t.FSP_ERR_TIMEOUT then phaseOf sc
              else Phase.closed) := by
  by_cases hsc : sc = 0
  · by_cases h1 : r.err = fsp_err_t.FSP_SUCCESS
    · simp [phaseOf, requestEvents, hsc, lockstepRun, lockstepStep, h1]
    · by_cases h2 : r.err = fsp_err_t.FSP_ERR_TIMEOUT <;>
        simp [phaseOf, requestEvents, hsc, lockstepRun, lockstepStep, h1, h2]
  · by_cases h1 : r.err = fsp_err_t.FSP_SUCCESS
    · simp [phaseOf, requestEvents, hsc, lockstepRun, lockstepStep, h1]
    · by_cases h2 : r.err = fsp_err_t.FSP_ERR_TIMEOUT <;>
        simp [phaseOf, requestEvents, hsc, lockstepRun, lockstepStep, h1, h2]

theorem lockstepRun_timeouts (sc : Nat) (ts : List ReadResult)
    (hts : ∀ t ∈ ts, t.err = fsp_err_t.FSP_ERR_TIMEOUT) :
    lockstepRun (phaseOf sc) (requestEvents sc ts) = some (phaseOf sc) := by
  induction ts with
  | nil => rfl
  | cons t ts ih =>
    have ht : t.err = fsp_err_t.FSP_ERR_TIMEOUT := hts t (List.mem_cons_self _ _)
    have h1 := lockstepRun_attempt sc t
    rw [ht] at h1
    simp only [reduceCtorEq, if_false, if_true] at h1
    have h2 : requestEvents sc (t :: ts) = requestEvents sc [t] ++ requestEvents sc ts := by
      simp [requestEvents]
    rw [h2, lockstepRun_append _ _ _ _ h1]
    exact ih (fun r hr => hts r (List.mem_cons_of_mem _ hr))

/-- The phase after the calls of a frame request that ends with the result `r`, which is not
a timeout. -/
theorem lockstepRun_request (sc : Nat) (ts : List ReadResult) (r : ReadResult)
    (tr : List Event) (hts : ∀ t ∈ ts, t.err = fsp_err_t.FSP_ERR_TIMEOUT)
    (hr : r.err ≠ fsp_err_t.FSP_ERR_TIMEOUT)
    (h : lockstepRun Phase.kickoff tr = some (phaseOf sc)) :
    lockstepRun Phase.kickoff (tr ++ requestEvents sc (ts ++ [r]))
      = some (if r.err = fsp_err_t.FSP_SUCCESS then Phase.received else Phase.closed) := by
  rw [lockstepRun_append _ _ _ _ h, requestEvents_append,
    lockstepRun_append _ _ _ _ (lockstepRun_timeouts sc ts hts), lockstepRun_attempt]
  simp [hr]

theorem readResults_append (as bs : List Event) :
    readResults (as ++ bs) = readResults as ++ readResults bs := by
  induction as with
  | nil => rfl
  | cons a as ih => cases a <;> simp [readResults, ih]

/-- One iteration from the start of a frame request: its calls keep the lockstep, every result
it takes from the transport or the flash service is the result of a call of its trace, and it
stops without a `return` only before a receive when the transport has nothing more to give,
or after the receive of a valid new block when the flash service has nothing more to give. -/
theorem iteration_progress (s : Session) (w : World) (step : Step)
    (hP : lockstepRun Phase.kickoff w.trace = some (phaseOf s.StartCondition))
    (hE : s.ExpectedBlkNum = (1 + committed w.trace) % 256)
    (hR : (flashWrites w.trace).length ≤ (readResults w.trace).length)
    (hit : Iteration s w step) :
    ∃ p, lockstepRun Phase.kickoff step.world.trace = some p ∧
      readResults step.world.trace ++ step.world.rx = readResults w.trace ++ w.rx ∧
      (flashWrites step.world.trace).length + step.world.flash.length
        = (flashWrites w.trace).length + w.flash.length ∧
      (∀ s1 w1, step = Step.next s1 w1 → p = phaseOf s1.StartCondition ∧
        (flashWrites w1.trace).length ≤ (readResults w1.trace).length) ∧
      (∀ c w1, step = Step.ret c w1 →
        p = Phase.kickoff ∨ p = Phase.steady ∨ p = Phase.closed) ∧
      (∀ w1, step = Step.blocked w1 →
        (w1.rx = [] ∧ (p = Phase.kicked ∨ p = Phase.steady)) ∨
        (w1.flash = [] ∧ p = Phase.received ∧ (∃ src, writeJustified w1.trace src) ∧
          (flashWrites w1.trace).length < (readResults w1.trace).length)) := by
  have hok : ∀ (ts : List ReadResult) (data : List Nat),
      (∀ t ∈ ts, t.err = fsp_err_t.FSP_ERR_TIMEOUT) →
      lockstepRun Phase.kickoff (w.trace ++
        requestEvents s.StartCondition (ts ++ [ReadResult.mk fsp_err_t.FSP_SUCCESS data]))
        = some Phase.received := by
    intro ts data hts
    rw [lockstepRun_request s.StartCondition ts _ w.trace hts (by simp) hP]
    simp
  cases hit with
  | blockedRead ts hts hlen hw =>
    have h1 : lockstepRun Phase.kickoff (w.trace ++ requestEvents s.StartCondition ts)
        = some (phaseOf s.StartCondition) := by
      rw [lockstepRun_append _ _ _ _ hP]
      exact lockstepRun_timeouts _ ts hts
    by_cases hsc : s.StartCondition = 0
    · refine ⟨Phase.kicked, ?_, ?_, ?_, (by intro s1 w1 h; cases h),
        (by intro c w1 h; cases h), ?_⟩
      · simp only [Step.world, if_pos hsc]
        rw [lockstepRun_append _ _ _ _ h1]
        simp [phaseOf, hsc, lockstepRun, lockstepStep]
      · simp [Step.world, readResults_append, readResults_requestEvents, readResults, hw, hsc]
      · simp [Step.world, flashWrites_append, flashWrites_requestEvents, flashWrites, hsc]
      · intro w1 h1
        cases h1
        exact Or.inl ⟨rfl, Or.inl rfl⟩
    · refine ⟨Phase.steady, ?_, ?_, ?_, (by intro s1 w1 h; cases h),
        (by intro c w1 h; cases h), ?_⟩
      · simp only [Step.world, if_neg hsc, List.append_nil]
        rw [h1]
        simp [phaseOf, hsc]
      · simp [Step.world, readResults_append, readResults_requestEvents, readResults, hw, hsc]
      · simp [Step.world, flashWrites_append, flashWrites_requestEvents, flashWrites, hsc]
      · intro w1 h1
        cases h1
        exact Or.inl ⟨rfl, Or.inr rfl⟩
  | exhausted ts rest hts hlen hw =>
    refine ⟨phaseOf s.StartCondition, ?_, ?_, ?_, (by intro s1 w1 h; cases h), ?_,
      (by intro w1 h; cases h)⟩
    · simp only [Step.world]
      rw [lockstepRun_append _ _ _ _ hP]
      exact lockstepRun_timeouts _ ts hts
    · simp [Step.world, readResults_append, readResults_requestEvents, readResults, hw]
    · simp [Step.world, flashWrites_append, flashWrites_requestEvents, flashWrites]
    · intro c w1 _
      by_cases hsc : s.StartCondition = 0 <;> simp [phaseOf, hsc]
  | commsError ts r rest hts hlen hw hr1 hr2 =>
    refine ⟨Phase.closed, ?_, ?_, ?_, (by intro s1 w1 h; cases h), (by intro c w1 _; simp),
      (by intro w1 h; cases h)⟩
    · simp only [Step.world]
      rw [lockstepRun_request s.StartCondition ts r w.trace hts hr2 hP]
      simp [hr1]
    · simp [Step.world, readResults_append, readResults_requestEvents, readResults, hw]
    · simp [Step.world, flashWrites_append, flashWrites_requestEvents, flashWrites]
  | endOfTransfer ts data rest hts hlen hw h0 =>
    refine ⟨Phase.steady, ?_, ?_, ?_, (by intro s1 w1 h; cases h), (by intro c w1 _; simp),
      (by intro w1 h; cases h)⟩
    · simp only [Step.world]
      rw [lockstepRun_append _ _ _ _ (hok ts data hts)]
      simp [lockstepRun, lockstepStep]
    · simp [Step.world, readResults_append, readResults_requestEvents, readResults, hw]
    · simp [Step.world, flashWrites_append, flashWrites_requestEvents, flashWrites]
  | rejected ts data rest hts hlen hw h0 hna =>
    refine ⟨Phase.steady, ?_, ?_, ?_, ?_, (by intro c w1 h; cases h),
      (by intro w1 h; cases h)⟩
    · simp only [Step.world]
      rw [lockstepRun_append _ _ _ _ (hok ts data hts)]
      simp [lockstepRun, lockstepStep]
    · simp [Step.world, readResults_append, readResults_requestEvents, readResults, hw]
    · simp [Step.world, flashWrites_append, flashWrites_requestEvents, flashWrites]
    · intro s1 w1 h1
      cases h1
      refine ⟨by simp [phaseOf], ?_⟩
      simp [readResults_append, readResults_requestEvents, readResults, flashWrites_append,
        flashWrites_requestEvents, flashWrites]
      omega
  | duplicate ts data rest hts hlen hw h0 ha h1 =>
    refine ⟨Phase.steady, ?_, ?_, ?_, ?_, (by intro c w1 h; cases h),
      (by intro w1 h; cases h)⟩
    · simp only [Step.world]
      rw [lockstepRun_append _ _ _ _ (hok ts data hts)]
      simp [lockstepRun, lockstepStep]
    · simp [Step.world, readResults_append, readResults_requestEvents, readResults, hw]
    · simp [Step.world, flashWrites_append, flashWrites_requestEvents, flashWrites]
    · intro s1 w1 h1
      cases h1
      refine ⟨by simp [phaseOf], ?_⟩
      simp [readResults_append, readResults_requestEvents, readResults, flashWrites_append,
        flashWrites_requestEvents, flashWrites]
      omega
  | blockedWrite ts data rest hts hlen hw h0 ha h1 hf =>
    refine ⟨Phase.received, hok ts data hts, ?_, ?_, (by intro s1 w1 h; cases h),
      (by intro c w1 h; cases h), ?_⟩
    · simp [Step.world, readResults_append, readResults_requestEvents, readResults, hw]
    · simp [Step.world, flashWrites_append, flashWrites_requestEvents, flashWrites, hf]
    · intro w1 h2
      cases h2
      refine Or.inr ⟨rfl, rfl, ⟨payload data, writeJustified_iteration s w ts data hE ha h1⟩, ?_⟩
      simp [readResults_append, readResults_requestEvents, readResults, flashWrites_append,
        flashWrites_requestEvents, flashWrites]
      omega
  | committed ts data rest frest hts hlen hw h0 ha h1 hf =>
    refine ⟨Phase.steady, ?_, ?_, ?_, ?_, (by intro c w1 h; cases h),
      (by intro w1 h; cases h)⟩
    · simp only [Step.world]
      rw [lockstepRun_append _ _ _ _ (hok ts data hts)]
      simp [lockstepRun, lockstepStep]
    · simp [Step.world, readResults_append, readResults_requestEvents, readResults, hw]
    · simp [Step.world, flashWrites_append, flashWrites_requestEvents, flashWrites, hf]
      omega
    · intro s1 w1 h1
      cases h1
      refine ⟨by simp [phaseOf], ?_⟩
      simp [readResults_append, readResults_requestEvents, readResults, flashWrites_append,
        flashWrites_requestEvents, flashWrites]
      omega
  | progFail ts data rest st frest hts hlen hw h0 ha h1 hf hst =>
    refine ⟨Phase.closed, ?_, ?_, ?_, (by intro s1 w1 h; cases h), (by intro c w1 _; simp),
      (by intro w1 h; cases h)⟩
    · simp only [Step.world]
      rw [lockstepRun_append _ _ _ _ (hok ts data hts)]
      simp [lockstepRun, lockstepStep, hst]
    · simp [Step.world, readResults_append, readResults_requestEvents, readResults, hw]
    · simp [Step.world, flashWrites_append, flashWrites_requestEvents, flashWrites, hf]
      omega

/-- Every run from the start of a frame request, with more iterations allowed than the
transport has results to give: the calls keep the lockstep, and the run stops without a
`return` only before a receive when the transport has nothing more to give, or after the
receive of a valid new block when the flash service has nothing more to give. -/
theorem mainLoop_progress : ∀ (fuel : Nat) (s : Session) (w : World),
    w.rx.length < fuel →
    lockstepRun Phase.kickoff w.trace = some (phaseOf s.StartCondition) →
    s.ExpectedBlkNum = (1 + committed w.trace) % 256 → writesJustified w.trace →
    (flashWrites w.trace).length ≤ (readResults w.trace).length →
    ∃ p, lockstepRun Phase.kickoff (mainLoop fuel s w).world.trace = some p ∧
      readResults (mainLoop fuel s w).world.trace ++ (mainLoop fuel s w).world.rx
        = readResults w.trace ++ w.rx ∧
      (flashWrites (mainLoop fuel s w).world.trace).length
          + (mainLoop fuel s w).world.flash.length
        = (flashWrites w.trace).length + w.flash.length ∧
      ((mainLoop fuel s w).status ≠ none →
        p = Phase.kickoff ∨ p = Phase.steady ∨ p = Phase.closed) ∧
      ((mainLoop fuel s w).status = none →
        ((mainLoop fuel s w).world.rx = [] ∧ (p = Phase.kicked ∨ p = Phase.steady)) ∨
        ((mainLoop fuel s w).world.flash = [] ∧ p = Phase.received ∧
          (∃ src, writeJustified (mainLoop fuel s w).world.trace src) ∧
          (flashWrites (mainLoop fuel s w).world.trace).length
            < (readResults (mainLoop fuel s w).world.trace).length)) := by
  intro fuel
  induction fuel with
  | zero => intro s w h; omega
  | succ f ih =>
    intro s w hfuel hP hE hJ hR
    obtain ⟨p, h1, h2, h3, h4, h5, h6⟩ :=
      iteration_progress s w (loopBody s w) hP hE hR (loopBody_iteration s w)
    obtain ⟨j1, j2⟩ := iteration_justified s w (loopBody s w) hE hJ (loopBody_iteration s w)
    unfold mainLoop
    cases hb : loopBody s w with
    | ret c w1 =>
      rw [hb] at h1 h2 h3 h5
      exact ⟨p, h1, h2, h3, fun _ => h5 c w1 rfl, by intro h; simp at h⟩
    | next s1 w1 =>
      rw [hb] at h1 h2 h3 h4 j1 j2
      obtain ⟨e1, e2⟩ := h4 s1 w1 rfl
      subst e1
      have hlt := loopBody_next_consumes s s1 w w1 hb
      obtain ⟨q, i1, i2, i3, i4, i5⟩ := ih s1 w1 (by omega) h1 (j2 s1 w1 rfl) j1 e2
      refine ⟨q, i1, ?_, ?_, i4, i5⟩
      · rw [i2]; exact h2
      · rw [i3]; exact h3
    | blocked w1 =>
      rw [hb] at h1 h2 h3 h6
      exact ⟨p, h1, h2, h3, by intro h; simp at h, fun _ => h6 w1 rfl⟩

/-- A second answer to one received frame is out of lockstep. -/
theorem lockstepRun_second_answer :
    lockstepRun Phase.kickoff
      [Event.comms_send NAK 1, Event.comms_read 132 10000 (rxOk (frame 1 (fill 0))),
       Event.comms_send NAK 1, Event.comms_send NAK 1] = none := by
  decide

/-- A control byte after a timeout in steady state is out of lockstep. -/
theorem lockstepRun_answer_after_timeout :
    lockstepRun Phase.steady
      [Event.comms_read 132 1000 rxTimeout, Event.comms_send NAK 1] = none := by
  decide

/-- A receive after a failed flash write is out of lockstep. -/
theorem lockstepRun_receive_after_failed_write :
    lockstepRun Phase.received
      [Event.tfm_platform_flash_write (fill 0) 0 128 (tfm_platform_err_t.TFM_PLATFORM_ERR_OTHER 1),
       Event.comms_send NAK 1, Event.comms_send CAN 1,
       Event.comms_read 132 1000 rxTimeout] = none := by
  decide

/-! ## One frame request: the claims C1 to C6 -/

/-- C1 (new block commit): in any session state, when a frame request ends with the
successful receive of a buffer `data` (after at most nine attempts that timed out) whose byte
0 is SOH, byte 1 is the expected block number, byte 1 + byte 2 = 255 and byte 131 is the sum
of bytes 3..130 modulo 256, and the flash write reports success, then the iteration makes,
after the calls of the request, exactly one flash write, of the bytes 3..130 with length 128
at the current address (converted to `uint32_t`, as in the call), then sends one ACK, and goes
to the next iteration with the address advanced by 128 (as an `unsigned long`) and the
expected block number incremented (as an `unsigned char`). -/
theorem new_block_commit (s : Session) (w : World) (ts : List ReadResult) (data : List Nat)
    (rest : List ReadResult) (frest : List tfm_platform_err_t)
    (hts : ∀ t ∈ ts, t.err = fsp_err_t.FSP_ERR_TIMEOUT) (hlen : ts.length ≤ 9)
    (hw : w.rx = ts ++ ⟨fsp_err_t.FSP_SUCCESS, data⟩ :: rest)
    (h0 : RxByteBuffer data 0 = SOH)
    (h1 : RxByteBuffer data 1 = s.ExpectedBlkNum)
    (h2 : RxByteBuffer data 1 + RxByteBuffer data 2 = 255)
    (h3 : RxByteBuffer data 131 = (payload data).sum % 256)
    (hfl : w.flash = tfm_platform_err_t.TFM_PLATFORM_ERR_SUCCESS :: frest) :
    loopBody s w = Step.next
      { ExpectedBlkNum := (s.ExpectedBlkNum + 1) % 256, StartCondition := 1,
        Address := (s.Address + 128) % 2 ^ 32 }
      { rx := rest, flash := frest,
        trace := w.trace ++
          requestEvents s.StartCondition (ts ++ [⟨fsp_err_t.FSP_SUCCESS, data⟩]) ++
          [Event.tfm_platform_flash_write (payload data) (s.Address % 2 ^ 32) 128
             tfm_platform_err_t.TFM_PLATFORM_ERR_SUCCESS,
           Event.comms_send ACK 1] } := by
  rw [loopBody_received s w ts data rest hts hlen hw]
  have hne : RxByteBuffer data 0 ≠ EOT := by rw [h0]; exact SOH_ne_EOT
  have hacc : frameAccepted s.ExpectedBlkNum data :=
    ⟨h0, Or.inl h1, by omega, by rw [checksum_eq]; exact h3⟩
  unfold handleFrame
  dsimp only
  rw [if_neg (by decide), if_neg (by decide), if_neg hne, if_neg (not_not.mpr hacc), if_pos h1]
  simp [tfm_platform_flash_write, hfl, comms_send]

/-- Witness of C1: block 1 arrives at the second attempt of the first frame request. -/
theorem new_block_commit_witness :
    loopBody firstSession ⟨[rxTimeout, rxOk (frame 1 (fill 7))],
        [tfm_platform_err_t.TFM_PLATFORM_ERR_SUCCESS], []⟩
      = Step.next ⟨2, 1, 0x1080⟩
          ⟨[], [],
           [Event.comms_send NAK 1, Event.comms_read 132 10000 rxTimeout,
            Event.comms_send NAK 1, Event.comms_read 132 10000 (rxOk (frame 1 (fill 7))),
            Event.tfm_platform_flash_write (fill 7) 0x1000 128
              tfm_platform_err_t.TFM_PLATFORM_ERR_SUCCESS,
            Event.comms_send ACK 1]⟩ :=
  new_block_commit firstSession _ [rxTimeout] (frame 1 (fill 7)) [] []
    (by decide) (by decide) rfl (by decide) (by decide) (by decide) (by decide) rfl

/-- C2 (validation failure): in any session state, when a frame request ends with the
successful receive of a buffer whose byte 0 is not EOT and that fails one of the four checks
(byte 0 is not SOH; byte 1 is neither the expected block number nor, in `int` arithmetic, the
expected block number minus one; byte 1 + byte 2 is not 255; byte 131 is not the sum of bytes
3..130 modulo 256), then the iteration sends, after the calls of the request, exactly one
NAK, makes no flash write, and goes to the next iteration with the same expected block number
and the same address. -/
theorem validation_failure (s : Session) (w : World) (ts : List ReadResult) (data : List Nat)
    (rest : List ReadResult)
    (hts : ∀ t ∈ ts, t.err = fsp_err_t.FSP_ERR_TIMEOUT) (hlen : ts.length ≤ 9)
    (hw : w.rx = ts ++ ⟨fsp_err_t.FSP_SUCCESS, data⟩ :: rest)
    (hne : RxByteBuffer data 0 ≠ EOT)
    (hbad : RxByteBuffer data 0 ≠ SOH ∨
      (RxByteBuffer data 1 ≠ s.ExpectedBlkNum ∧
        (RxByteBuffer data 1 : Int) ≠ (s.ExpectedBlkNum : Int) - 1) ∨
      RxByteBuffer data 1 + RxByteBuffer data 2 ≠ 255 ∨
      RxByteBuffer data 131 ≠ (payload data).sum % 256) :
    loopBody s w = Step.next
      { ExpectedBlkNum := s.ExpectedBlkNum, StartCondition := 1, Address := s.Address }
      { rx := rest, flash := w.flash,
        trace := w.trace ++
          requestEvents s.StartCondition (ts ++ [⟨fsp_err_t.FSP_SUCCESS, data⟩]) ++
          [Event.comms_send NAK 1] } := by
  rw [loopBody_received s w ts data rest hts hlen hw]
  have hacc : ¬ frameAccepted s.ExpectedBlkNum data := by
    rintro ⟨a, b, c, d⟩
    rw [checksum_eq] at d
    rcases hbad with h | ⟨h, h4⟩ | h | h
    · exact h a
    · rcases b with b | b
      · exact h b
      · exact h4 b
    · omega
    · exact h d
  unfold handleFrame
  dsimp only
  rw [if_neg (by decide), if_neg (by decide), if_neg hne, if_pos hacc]
  simp [comms_send]

/-- Witness of C2: block 4 with correct complement and checksum while block 3 is expected. -/
theorem validation_failure_witness :
    loopBody thirdSession ⟨[rxOk (frame 4 (fill 7))],
        [tfm_platform_err_t.TFM_PLATFORM_ERR_SUCCESS], []⟩
      = Step.next thirdSession
          ⟨[], [tfm_platform_err_t.TFM_PLATFORM_ERR_SUCCESS],
           [Event.comms_read 132 1000 (rxOk (frame 4 (fill 7))), Event.comms_send NAK 1]⟩ :=
  validation_failure thirdSession _ [] (frame 4 (fill 7)) [] (by decide) (by decide) rfl
    (by decide) (by decide)

/-- The duplicate block while the expected block number E is not 0: in any session state,
when a frame request ends with the successful receive of a buffer with byte 0 = SOH, byte 1 =
E - 1 (in `int` arithmetic, as the routine computes it, so that E is at least 1), byte 1 +
byte 2 = 255 and byte 131 the sum of bytes 3..130 modulo 256, then the iteration sends, after
the calls of the request, exactly one ACK, makes no flash write, and goes to the next
iteration with the same expected block number and the same address. -/
theorem duplicate_block (s : Session) (w : World) (ts : List ReadResult) (data : List Nat)
    (rest : List ReadResult)
    (hts : ∀ t ∈ ts, t.err = fsp_err_t.FSP_ERR_TIMEOUT) (hlen : ts.length ≤ 9)
    (hw : w.rx = ts ++ ⟨fsp_err_t.FSP_SUCCESS, data⟩ :: rest)
    (h0 : RxByteBuffer data 0 = SOH)
    (h1 : (RxByteBuffer data 1 : Int) = (s.ExpectedBlkNum : Int) - 1)
    (h2 : RxByteBuffer data 1 + RxByteBuffer data 2 = 255)
    (h3 : RxByteBuffer data 131 = (payload data).sum % 256) :
    loopBody s w = Step.next
      { ExpectedBlkNum := s.ExpectedBlkNum, StartCondition := 1, Address := s.Address }
      { rx := rest, flash := w.flash,
        trace := w.trace ++
          requestEvents s.StartCondition (ts ++ [⟨fsp_err_t.FSP_SUCCESS, data⟩]) ++
          [Event.comms_send ACK 1] } := by
  rw [loopBody_received s w ts data rest hts hlen hw]
  have hne : RxByteBuffer data 0 ≠ EOT := by rw [h0]; exact SOH_ne_EOT
  have hacc : frameAccepted s.ExpectedBlkNum data :=
    ⟨h0, Or.inr h1, by omega, by rw [checksum_eq]; exact h3⟩
  have hE : RxByteBuffer data 1 ≠ s.ExpectedBlkNum := by omega
  unfold handleFrame
  dsimp only
  rw [if_neg (by decide), if_neg (by decide), if_neg hne, if_neg (not_not.mpr hacc), if_neg hE]
  simp [comms_send]

/-- Example of a duplicate block: block 2 is sent again after blocks 1 and 2 were
committed. -/
theorem duplicate_block_witness :
    loopBody thirdSession ⟨[rxOk (frame 2 (fill 7))],
        [tfm_platform_err_t.TFM_PLATFORM_ERR_SUCCESS], []⟩
      = Step.next thirdSession
          ⟨[], [tfm_platform_err_t.TFM_PLATFORM_ERR_SUCCESS],
           [Event.comms_read 132 1000 (rxOk (frame 2 (fill 7))), Event.comms_send ACK 1]⟩ :=
  duplicate_block thirdSession _ [] (frame 2 (fill 7)) [] (by decide) (by decide) rfl
    (by decide) (by decide) (by decide) (by decide)

/-- C3, defect shown on the code (duplicate block at the wrap of the block counter): in a
session state with the expected block number 0, which a session is in after 255 blocks are
committed, the successfully received frame of block 255 has byte 0 = SOH, byte 1 = 255, the
block number before 0 in the 8-bit count, the complementary byte 2 and the right checksum, and
the iteration answers it with NAK, not ACK: the test of line 154 compares 255 with 0 - 1 in
`int`. No flash write is made and the session is unchanged. This holds in the first frame
request and in steady state, at any address and whatever the collaborators hold and the calls
made before are. -/
theorem duplicate_at_wrap_rejected (StartCondition Address : Nat) (rest : List ReadResult)
    (flash : List tfm_platform_err_t) (trace : List Event) :
    RxByteBuffer (frame 255 (fill 7)) 0 = SOH ∧
    RxByteBuffer (frame 255 (fill 7)) 1 = 255 ∧
    (RxByteBuffer (frame 255 (fill 7)) 1 + 1) % 256 = 0 ∧
    RxByteBuffer (frame 255 (fill 7)) 1 + RxByteBuffer (frame 255 (fill 7)) 2 = 255 ∧
    RxByteBuffer (frame 255 (fill 7)) 131 = (payload (frame 255 (fill 7))).sum % 256 ∧
    loopBody ⟨0, StartCondition, Address⟩ ⟨rxOk (frame 255 (fill 7)) :: rest, flash, trace⟩
      = Step.next ⟨0, 1, Address⟩
          ⟨rest, flash, trace ++ requestEvents StartCondition [rxOk (frame 255 (fill 7))] ++
            [Event.comms_send NAK 1]⟩ := by
  obtain ⟨f0, f1, f2, f3⟩ := frame_accepted 255 (fill 7) (by decide) (by decide)
  have f1b : RxByteBuffer (frame 255 (fill 7)) 1 = 255 := f1
  have hne : RxByteBuffer (frame 255 (fill 7)) 0 ≠ EOT := by rw [f0]; exact SOH_ne_EOT
  have hacc : ¬ frameAccepted (Session.mk 0 StartCondition Address).ExpectedBlkNum
      (frame 255 (fill 7)) := by
    rintro ⟨_, hb | hb, _, _⟩
    · rw [f1b] at hb
      exact absurd (show (255 : Nat) = 0 from hb) (by decide)
    · rw [f1b] at hb
      exact absurd (show ((255 : Nat) : Int) = ((0 : Nat) : Int) - 1 from hb) (by decide)
  refine ⟨f0, f1b, by rw [f1b], f2, f3, ?_⟩
  exact loopBody_rejected (Session.mk 0 StartCondition Address)
    (World.mk (rxOk (frame 255 (fill 7)) :: rest) flash trace) [] (frame 255 (fill 7)) rest
    (by intro t ht; cases ht) (by decide) rfl hne hacc

/-- C4 (end-of-transfer priority): in any session state, when a frame request ends with the
successful receive of a buffer whose byte 0 is EOT, whatever its other bytes are, the
iteration sends, after the calls of the request, exactly one ACK, makes no flash write, and
the routine returns `XM_OK`. -/
theorem end_of_transfer_priority (s : Session) (w : World) (ts : List ReadResult)
    (data : List Nat) (rest : List ReadResult)
    (hts : ∀ t ∈ ts, t.err = fsp_err_t.FSP_ERR_TIMEOUT) (hlen : ts.length ≤ 9)
    (hw : w.rx = ts ++ ⟨fsp_err_t.FSP_SUCCESS, data⟩ :: rest)
    (h0 : RxByteBuffer data 0 = EOT) :
    loopBody s w = Step.ret XmCode.XM_OK
      { rx := rest, flash := w.flash,
        trace := w.trace ++
          requestEvents s.StartCondition (ts ++ [⟨fsp_err_t.FSP_SUCCESS, data⟩]) ++
          [Event.comms_send ACK 1] } ∧
    ∀ fuel, mainLoop (fuel + 1) s w = ⟨some XmCode.XM_OK,
      { rx := rest, flash := w.flash,
        trace := w.trace ++
          requestEvents s.StartCondition (ts ++ [⟨fsp_err_t.FSP_SUCCESS, data⟩]) ++
          [Event.comms_send ACK 1] }⟩ := by
  have h : loopBody s w = Step.ret XmCode.XM_OK
      { rx := rest, flash := w.flash,
        trace := w.trace ++
          requestEvents s.StartCondition (ts ++ [⟨fsp_err_t.FSP_SUCCESS, data⟩]) ++
          [Event.comms_send ACK 1] } := by
    rw [loopBody_received s w ts data rest hts hlen hw]
    unfold handleFrame
    rw [if_neg (by decide), if_neg (by decide), if_pos h0]
    simp [comms_send]
  exact ⟨h, fun fuel => mainLoop_ret fuel s _ w _ h⟩

/-- Witness of C4: a buffer that starts with EOT and otherwise is the valid frame of the
expected block 3. -/
theorem end_of_transfer_priority_witness :
    (loopBody thirdSession ⟨[rxOk (EOT :: (frame 3 (fill 7)).tail)],
        [tfm_platform_err_t.TFM_PLATFORM_ERR_SUCCESS], []⟩
      = Step.ret XmCode.XM_OK
          ⟨[], [tfm_platform_err_t.TFM_PLATFORM_ERR_SUCCESS],
           [Event.comms_read 132 1000 (rxOk (EOT :: (frame 3 (fill 7)).tail)),
            Event.comms_send ACK 1]⟩) ∧
    ∀ fuel, mainLoop (fuel + 1) thirdSession ⟨[rxOk (EOT :: (frame 3 (fill 7)).tail)],
        [tfm_platform_err_t.TFM_PLATFORM_ERR_SUCCESS], []⟩
      = ⟨some XmCode.XM_OK,
          ⟨[], [tfm_platform_err_t.TFM_PLATFORM_ERR_SUCCESS],
           [Event.comms_read 132 1000 (rxOk (EOT :: (frame 3 (fill 7)).tail)),
            Event.comms_send ACK 1]⟩⟩ :=
  end_of_transfer_priority thirdSession _ [] (EOT :: (frame 3 (fill 7)).tail) []
    (by decide) (by decide) rfl (by decide)

/-- C5 (programming failure): in any session state, when a frame request ends with the
successful receive of a valid frame whose block number is the expected one and the flash
write reports a status other than success, then the iteration makes exactly one flash write,
sends NAK and then CAN and nothing else, and the routine returns `XM_PROG_FAIL`; the results
the transport still had to give are left untouched. -/
theorem programming_failure (s : Session) (w : World) (ts : List ReadResult) (data : List Nat)
    (rest : List ReadResult) (st : tfm_platform_err_t) (frest : List tfm_platform_err_t)
    (hts : ∀ t ∈ ts, t.err = fsp_err_t.FSP_ERR_TIMEOUT) (hlen : ts.length ≤ 9)
    (hw : w.rx = ts ++ ⟨fsp_err_t.FSP_SUCCESS, data⟩ :: rest)
    (h0 : RxByteBuffer data 0 = SOH)
    (h1 : RxByteBuffer data 1 = s.ExpectedBlkNum)
    (h2 : RxByteBuffer data 1 + RxByteBuffer data 2 = 255)
    (h3 : RxByteBuffer data 131 = (payload data).sum % 256)
    (hfl : w.flash = st :: frest)
    (hst : st ≠ tfm_platform_err_t.TFM_PLATFORM_ERR_SUCCESS) :
    loopBody s w = Step.ret XmCode.XM_PROG_FAIL
      { rx := rest, flash := frest,
        trace := w.trace ++
          requestEvents s.StartCondition (ts ++ [⟨fsp_err_t.FSP_SUCCESS, data⟩]) ++
          [Event.tfm_platform_flash_write (payload data) (s.Address % 2 ^ 32) 128 st,
           Event.comms_send NAK 1, Event.comms_send CAN 1] } ∧
    ∀ fuel, mainLoop (fuel + 1) s w = ⟨some XmCode.XM_PROG_FAIL,
      { rx := rest, flash := frest,
        trace := w.trace ++
          requestEvents s.StartCondition (ts ++ [⟨fsp_err_t.FSP_SUCCESS, data⟩]) ++
          [Event.tfm_platform_flash_write (payload data) (s.Address % 2 ^ 32) 128 st,
           Event.comms_send NAK 1, Event.comms_send CAN 1] }⟩ := by
  have h : loopBody s w = Step.ret XmCode.XM_PROG_FAIL
      { rx := rest, flash := frest,
        trace := w.trace ++
          requestEvents s.StartCondition (ts ++ [⟨fsp_err_t.FSP_SUCCESS, data⟩]) ++
          [Event.tfm_platform_flash_write (payload data) (s.Address % 2 ^ 32) 128 st,
           Event.comms_send NAK 1, Event.comms_send CAN 1] } := by
    rw [loopBody_received s w ts data rest hts hlen hw]
    have hne : RxByteBuffer data 0 ≠ EOT := by rw [h0]; exact SOH_ne_EOT
    have hacc : frameAccepted s.ExpectedBlkNum data :=
      ⟨h0, Or.inl h1, by omega, by rw [checksum_eq]; exact h3⟩
    unfold handleFrame
    dsimp only
    rw [if_neg (by decide), if_neg (by decide), if_neg hne, if_neg (not_not.mpr hacc),
      if_pos h1]
    simp [tfm_platform_flash_write, hfl, comms_send, hst]
  exact ⟨h, fun fuel => mainLoop_ret fuel s _ w _ h⟩

/-- Witness of C5: the expected block 3 arrives, the flash write fails, and two more results
of the transport are left unread. -/
theorem programming_failure_witness :
    (loopBody thirdSession ⟨[rxOk (frame 3 (fill 7)), rxOk (frame 4 (fill 7)), rxOk [EOT]],
        [tfm_platform_err_t.TFM_PLATFORM_ERR_OTHER 2,
         tfm_platform_err_t.TFM_PLATFORM_ERR_SUCCESS], []⟩
      = Step.ret XmCode.XM_PROG_FAIL
          ⟨[rxOk (frame 4 (fill 7)), rxOk [EOT]], [tfm_platform_err_t.TFM_PLATFORM_ERR_SUCCESS],
           [Event.comms_read 132 1000 (rxOk (frame 3 (fill 7))),
            Event.tfm_platform_flash_write (fill 7) 0x1100 128
              (tfm_platform_err_t.TFM_PLATFORM_ERR_OTHER 2),
            Event.comms_send NAK 1, Event.comms_send CAN 1]⟩) ∧
    ∀ fuel, mainLoop (fuel + 1) thirdSession
        ⟨[rxOk (frame 3 (fill 7)), rxOk (frame 4 (fill 7)), rxOk [EOT]],
         [tfm_platform_err_t.TFM_PLATFORM_ERR_OTHER 2,
          tfm_platform_err_t.TFM_PLATFORM_ERR_SUCCESS], []⟩
      = ⟨some XmCode.XM_PROG_FAIL,
          ⟨[rxOk (frame 4 (fill 7)), rxOk [EOT]], [tfm_platform_err_t.TFM_PLATFORM_ERR_SUCCESS],
           [Event.comms_read 132 1000 (rxOk (frame 3 (fill 7))),
            Event.tfm_platform_flash_write (fill 7) 0x1100 128
              (tfm_platform_err_t.TFM_PLATFORM_ERR_OTHER 2),
            Event.comms_send NAK 1, Event.comms_send CAN 1]⟩⟩ :=
  programming_failure thirdSession _ [] (frame 3 (fill 7)) [rxOk (frame 4 (fill 7)), rxOk [EOT]]
    (tfm_platform_err_t.TFM_PLATFORM_ERR_OTHER 2) [tfm_platform_err_t.TFM_PLATFORM_ERR_SUCCESS]
    (by decide) (by decide) rfl (by decide) (by decide) (by decide) (by decide) rfl
    (by decide)

/-- C6 (transport failure): in any session state, initial or steady, when in a frame request
at most nine attempts time out and the next attempt gets a result `r` that is neither success
nor timeout, the routine returns `XM_ERROR` at once: the calls of the request end with the
failed receive, nothing is sent after it, no further result of the transport is consumed,
and no flash write is made. -/
theorem transport_failure (s : Session) (w : World) (ts : List ReadResult) (r : ReadResult)
    (rest : List ReadResult)
    (hts : ∀ t ∈ ts, t.err = fsp_err_t.FSP_ERR_TIMEOUT) (hlen : ts.length ≤ 9)
    (hw : w.rx = ts ++ r :: rest)
    (hr1 : r.err ≠ fsp_err_t.FSP_SUCCESS) (hr2 : r.err ≠ fsp_err_t.FSP_ERR_TIMEOUT) :
    (∀ fuel, mainLoop (fuel + 1) s w = ⟨some XmCode.XM_ERROR,
      { rx := rest, flash := w.flash,
        trace := w.trace ++ requestEvents s.StartCondition (ts ++ [r]) }⟩) ∧
    (requestEvents s.StartCondition (ts ++ [r])).getLast?
      = some (Event.comms_read 132 (if s.StartCondition = 0 then 10000 else 1000) r) ∧
    flashWrites (requestEvents s.StartCondition (ts ++ [r])) = [] ∧
    readResults (requestEvents s.StartCondition (ts ++ [r])) = ts ++ [r] := by
  refine ⟨fun fuel => mainLoop_ret fuel s _ w _ ?_, ?_, ?_, ?_⟩
  · unfold loopBody
    rw [receiveLoop_answer s.StartCondition ts r rest w hts hlen hr2 hw]
    simp [handleFrame, hr1]
  · rw [requestEvents_append]
    by_cases hsc : s.StartCondition = 0 <;> simp [requestEvents, hsc]
  · exact flashWrites_requestEvents _ _
  · exact readResults_requestEvents _ _

/-- Witness of C6: the third attempt of the first frame request fails. -/
theorem transport_failure_witness :
    (∀ fuel, mainLoop (fuel + 1) firstSession
        ⟨[rxTimeout, rxTimeout, rxError, rxOk [EOT]],
         [tfm_platform_err_t.TFM_PLATFORM_ERR_SUCCESS], []⟩
      = ⟨some XmCode.XM_ERROR,
          ⟨[rxOk [EOT]], [tfm_platform_err_t.TFM_PLATFORM_ERR_SUCCESS],
           [Event.comms_send NAK 1, Event.comms_read 132 10000 rxTimeout,
            Event.comms_send NAK 1, Event.comms_read 132 10000 rxTimeout,
            Event.comms_send NAK 1, Event.comms_read 132 10000 rxError]⟩⟩) ∧
    (requestEvents 0 ([rxTimeout, rxTimeout] ++ [rxError])).getLast?
      = some (Event.comms_read 132 10000 rxError) ∧
    flashWrites (requestEvents 0 ([rxTimeout, rxTimeout] ++ [rxError])) = [] ∧
    readResults (requestEvents 0 ([rxTimeout, rxTimeout] ++ [rxError]))
      = [rxTimeout, rxTimeout] ++ [rxError] :=
  transport_failure firstSession _ [rxTimeout, rxTimeout] rxError [rxOk [EOT]]
    (by decide) (by decide) rfl (by decide) (by decide)

/-! ## Whole runs: the claims C7 to C10 -/


/-- C7 (retry exhaustion on the first request): when the transport answers the first ten
receive attempts of a call with a timeout, the routine returns `XM_TIMEOUT`; the calls it
made are those of the ten attempts of the first frame request, so exactly ten receive
attempts and no flash write, and it consumed exactly these ten results. -/
theorem retry_exhaustion_first_request (FlashAddress : Nat) (w : World)
    (ts rest : List ReadResult)
    (hts : ∀ t ∈ ts, t.err = fsp_err_t.FSP_ERR_TIMEOUT) (hlen : ts.length = 10)
    (hw : w.rx = ts ++ rest) :
    XmodemDownloadAndProgramFlash FlashAddress w
      = ⟨some XmCode.XM_TIMEOUT,
          { rx := rest, flash := w.flash, trace := w.trace ++ requestEvents 0 ts }⟩ ∧
    readResults (requestEvents 0 ts) = ts ∧
    (readResults (requestEvents 0 ts)).length = 10 ∧
    flashWrites (requestEvents 0 ts) = [] := by
  refine ⟨?_, readResults_requestEvents 0 ts, ?_, flashWrites_requestEvents 0 ts⟩
  · unfold XmodemDownloadAndProgramFlash
    apply mainLoop_ret
    unfold loopBody
    obtain ⟨d1, h1⟩ := receiveLoop_exhausted 0 ts rest w hts hlen hw
    show (match receiveLoop 0 10 XmCode.XM_TOUT [] w with
      | Rx.blocked w1 => Step.blocked w1
      | Rx.done xm_ret data w1 => handleFrame _ xm_ret data w1) = _
    rw [h1]
    simp [handleFrame]
  · rw [readResults_requestEvents, hlen]

/-- Witness of C7: ten timeouts, then a result that is never read. -/
theorem retry_exhaustion_first_request_witness :
    XmodemDownloadAndProgramFlash 0x1000
        ⟨List.replicate 10 rxTimeout ++ [rxOk [EOT]],
         [tfm_platform_err_t.TFM_PLATFORM_ERR_SUCCESS], []⟩
      = ⟨some XmCode.XM_TIMEOUT,
          ⟨[rxOk [EOT]], [tfm_platform_err_t.TFM_PLATFORM_ERR_SUCCESS],
           [] ++ requestEvents 0 (List.replicate 10 rxTimeout)⟩⟩ ∧
    readResults (requestEvents 0 (List.replicate 10 rxTimeout)) = List.replicate 10 rxTimeout ∧
    (readResults (requestEvents 0 (List.replicate 10 rxTimeout))).length = 10 ∧
    flashWrites (requestEvents 0 (List.replicate 10 rxTimeout)) = [] :=
  retry_exhaustion_first_request 0x1000 _ (List.replicate 10 rxTimeout) [rxOk [EOT]]
    (by decide) (by decide) rfl

/-- C8 (clean transfer): for every number n of payloads, every base address and every list
`ps` of n payloads of 128 bytes, when the transport delivers, without timeout or error, the
frames (SOH, i mod 256, 255 - i mod 256, payload i, sum of payload i mod 256) for i = 1..n and
then a buffer that starts with EOT, and the n flash writes succeed, the routine returns
`XM_OK`; the flash writes it made are exactly n, the i-th of payload i with length 128 at
(base + 128 (i - 1)) mod 2^32; the bytes it sent are one NAK, then n ACK, then one ACK; and it
consumed exactly these results of the transport and of the programming service. -/
theorem clean_transfer (FlashAddress : Nat) (ps : List (List Nat)) (eot : List Nat)
    (rest : List ReadResult) (frest : List tfm_platform_err_t)
    (hps : ∀ p ∈ ps, p.length = 128 ∧ ∀ b ∈ p, b < 256)
    (heot : RxByteBuffer eot 0 = EOT) :
    (XmodemDownloadAndProgramFlash FlashAddress (cleanTransfer ps eot rest frest)).status
      = some XmCode.XM_OK ∧
    flashWrites
        (XmodemDownloadAndProgramFlash FlashAddress (cleanTransfer ps eot rest frest)).world.trace
      = (ps.enumFrom 1).map (fun ip => (ip.2, (FlashAddress + 128 * (ip.1 - 1)) % 2 ^ 32, 128)) ∧
    sentBytes
        (XmodemDownloadAndProgramFlash FlashAddress (cleanTransfer ps eot rest frest)).world.trace
      = NAK :: List.replicate ps.length ACK ++ [ACK] ∧
    (XmodemDownloadAndProgramFlash FlashAddress (cleanTransfer ps eot rest frest)).world.rx
      = rest ∧
    (XmodemDownloadAndProgramFlash FlashAddress (cleanTransfer ps eot rest frest)).world.flash
      = frest := by
  obtain ⟨r1, r2, r3, r4, r5⟩ := clean_run eot rest frest heot FlashAddress ps 1
    (initialSession FlashAddress) (cleanTransfer ps eot rest frest)
    ((cleanTransfer ps eot rest frest).rx.length + 1) hps (le_refl 1) rfl
    (by simp [initialSession]) rfl rfl (by simp [cleanTransfer]; omega)
  refine ⟨r1, ?_, ?_, r2, r3⟩
  · rw [XmodemDownloadAndProgramFlash, r4]
    simp [cleanTransfer, flashWrites]
  · rw [XmodemDownloadAndProgramFlash, r5]
    simp [cleanTransfer, sentBytes, initialSession, List.replicate_succ']

/-- Witness of C8: three blocks to the base address 0x1000. -/
theorem clean_transfer_witness :
    (XmodemDownloadAndProgramFlash 0x1000
        (cleanTransfer [fill 1, fill 2, fill 3] [EOT] [] [])).status = some XmCode.XM_OK ∧
    flashWrites (XmodemDownloadAndProgramFlash 0x1000
        (cleanTransfer [fill 1, fill 2, fill 3] [EOT] [] [])).world.trace
      = [(fill 1, 0x1000, 128), (fill 2, 0x1080, 128), (fill 3, 0x1100, 128)] ∧
    sentBytes (XmodemDownloadAndProgramFlash 0x1000
        (cleanTransfer [fill 1, fill 2, fill 3] [EOT] [] [])).world.trace
      = [NAK, ACK, ACK, ACK, ACK] ∧
    (XmodemDownloadAndProgramFlash 0x1000
        (cleanTransfer [fill 1, fill 2, fill 3] [EOT] [] [])).world.rx = [] ∧
    (XmodemDownloadAndProgramFlash 0x1000
        (cleanTransfer [fill 1, fill 2, fill 3] [EOT] [] [])).world.flash = [] :=
  clean_transfer 0x1000 [fill 1, fill 2, fill 3] [EOT] [] [] (by decide) (by decide)

/-- C9 (only validated, non-duplicate blocks are programmed): in every run, returned or not,
every flash write is made directly after a successful receive of a buffer `data` (so not one
that timed out) that starts with SOH (so not with EOT), whose block number is the expected one
at that moment, that is 1 plus the number of flash writes that had succeeded before, as an
`unsigned char` (so it is not the expected one minus 1), whose byte 1 + byte 2 is 255 and
whose byte 131 is the sum of bytes 3..130 modulo 256; and what is written are the bytes 3..130
of that buffer. -/
theorem only_validated_blocks_programmed (FlashAddress : Nat) (rx : List ReadResult)
    (fl : List tfm_platform_err_t) (pre post : List Event) (src : List Nat) (dst len : Nat)
    (st : tfm_platform_err_t)
    (h : (XmodemDownloadAndProgramFlash FlashAddress ⟨rx, fl, []⟩).world.trace
      = pre ++ Event.tfm_platform_flash_write src dst len st :: post) :
    ∃ pre1 timeout data,
      pre = pre1 ++ [Event.comms_read 132 timeout ⟨fsp_err_t.FSP_SUCCESS, data⟩] ∧
      src = payload data ∧
      RxByteBuffer data 0 = SOH ∧
      RxByteBuffer data 0 ≠ EOT ∧
      RxByteBuffer data 1 = (1 + committed pre) % 256 ∧
      (RxByteBuffer data 1 : Int) ≠ (((1 + committed pre) % 256 : Nat) : Int) - 1 ∧
      RxByteBuffer data 1 + RxByteBuffer data 2 = 255 ∧
      RxByteBuffer data 131 = (payload data).sum % 256 := by
  have hJ := mainLoop_justified (rx.length + 1) (initialSession FlashAddress) ⟨rx, fl, []⟩ rfl
    writesJustified_nil
  obtain ⟨pre1, timeout, data, a1, a2, a3, a4, a5, a6⟩ := hJ pre post src dst len st h
  exact ⟨pre1, timeout, data, a1, a2, a3, by rw [a3]; exact SOH_ne_EOT, a4, by omega, a5, a6⟩

/-- Witness of C9: the one flash write of a run that receives block 1, block 1 again, an
out-of-sequence block, a timeout and EOT. -/
theorem only_validated_blocks_programmed_witness :
    ∃ pre1 timeout data,
      [Event.comms_send NAK 1, Event.comms_read 132 10000 (rxOk (frame 1 (fill 7)))]
        = pre1 ++ [Event.comms_read 132 timeout ⟨fsp_err_t.FSP_SUCCESS, data⟩] ∧
      fill 7 = payload data ∧
      RxByteBuffer data 0 = SOH ∧
      RxByteBuffer data 0 ≠ EOT ∧
      RxByteBuffer data 1
        = (1 + committed [Event.comms_send NAK 1,
            Event.comms_read 132 10000 (rxOk (frame 1 (fill 7)))]) % 256 ∧
      (RxByteBuffer data 1 : Int)
        ≠ (((1 + committed [Event.comms_send NAK 1,
            Event.comms_read 132 10000 (rxOk (frame 1 (fill 7)))]) % 256 : Nat) : Int) - 1 ∧
      RxByteBuffer data 1 + RxByteBuffer data 2 = 255 ∧
      RxByteBuffer data 131 = (payload data).sum % 256 :=
  only_validated_blocks_programmed 0x1000
    [rxOk (frame 1 (fill 7)), rxOk (frame 1 (fill 7)), rxOk (frame 3 (fill 9)), rxTimeout,
     rxOk [EOT]]
    [tfm_platform_err_t.TFM_PLATFORM_ERR_SUCCESS]
    [Event.comms_send NAK 1, Event.comms_read 132 10000 (rxOk (frame 1 (fill 7)))]
    [Event.comms_send ACK 1,
     Event.comms_read 132 1000 (rxOk (frame 1 (fill 7))), Event.comms_send ACK 1,
     Event.comms_read 132 1000 (rxOk (frame 3 (fill 9))), Event.comms_send NAK 1,
     Event.comms_read 132 1000 rxTimeout,
     Event.comms_read 132 1000 (rxOk [EOT]), Event.comms_send ACK 1]
    (fill 7) 0x1000 128 tfm_platform_err_t.TFM_PLATFORM_ERR_SUCCESS (by decide)

/-- C10 (terminal status): when the routine returns, the status is `XM_OK`, `XM_ERROR`,
`XM_TIMEOUT` or `XM_PROG_FAIL`, never the address status, and the calls made end as follows:
for `XM_OK` with the successful receive of a buffer that starts with EOT and the ACK that
answers it; for `XM_ERROR` with a receive whose result is neither success nor timeout; for
`XM_TIMEOUT` with the calls of the ten attempts of one frame request, all timed out; for
`XM_PROG_FAIL` with a flash write that did not report success and the NAK and CAN that
follow it. -/
theorem terminal_status (FlashAddress : Nat) (w : World) (c : XmCode)
    (h : (XmodemDownloadAndProgramFlash FlashAddress w).status = some c) :
    c ≠ XmCode.XM_ADDRESS_ERROR ∧
    ((c = XmCode.XM_OK ∧ ∃ pre timeout data,
        (XmodemDownloadAndProgramFlash FlashAddress w).world.trace
          = pre ++ [Event.comms_read 132 timeout ⟨fsp_err_t.FSP_SUCCESS, data⟩,
                    Event.comms_send ACK 1] ∧
        RxByteBuffer data 0 = EOT) ∨
     (c = XmCode.XM_ERROR ∧ ∃ pre timeout r,
        (XmodemDownloadAndProgramFlash FlashAddress w).world.trace
          = pre ++ [Event.comms_read 132 timeout r] ∧
        r.err ≠ fsp_err_t.FSP_SUCCESS ∧ r.err ≠ fsp_err_t.FSP_ERR_TIMEOUT) ∨
     (c = XmCode.XM_TIMEOUT ∧ ∃ pre sc ts,
        (XmodemDownloadAndProgramFlash FlashAddress w).world.trace
          = pre ++ requestEvents sc ts ∧
        ts.length = 10 ∧ ∀ t ∈ ts, t.err = fsp_err_t.FSP_ERR_TIMEOUT) ∨
     (c = XmCode.XM_PROG_FAIL ∧ ∃ pre src dst st,
        (XmodemDownloadAndProgramFlash FlashAddress w).world.trace
          = pre ++ [Event.tfm_platform_flash_write src dst 128 st,
                    Event.comms_send NAK 1, Event.comms_send CAN 1] ∧
        st ≠ tfm_platform_err_t.TFM_PLATFORM_ERR_SUCCESS)) := by
  unfold XmodemDownloadAndProgramFlash at h ⊢
  obtain ⟨s1, w1, hb⟩ := mainLoop_last _ _ _ c h
  have hit := loopBody_iteration s1 w1
  rw [hb] at hit
  generalize (mainLoop (w.rx.length + 1) (initialSession FlashAddress) w).world = wf at hit
  cases hit with
  | exhausted ts rest hts hlen hw =>
    exact ⟨by decide, Or.inr (Or.inr (Or.inl ⟨rfl, _, _, ts, rfl, hlen, hts⟩))⟩
  | commsError ts r rest hts hlen hw hr1 hr2 =>
    obtain ⟨evs, timeout, he, _⟩ := requestEvents_snoc s1.StartCondition ts r
    exact ⟨by decide, Or.inr (Or.inl ⟨rfl, w1.trace ++ evs, timeout, r,
      by simp only [he, List.append_assoc], hr1, hr2⟩)⟩
  | endOfTransfer ts data rest hts hlen hw h0 =>
    obtain ⟨evs, timeout, he, _⟩ :=
      requestEvents_snoc s1.StartCondition ts ⟨fsp_err_t.FSP_SUCCESS, data⟩
    exact ⟨by decide, Or.inl ⟨rfl, w1.trace ++ evs, timeout, data,
      by simp only [he, List.append_assoc, List.cons_append, List.nil_append], h0⟩⟩
  | progFail ts data rest st frest hts hlen hw h0 hacc h1 hfl hst =>
    exact ⟨by decide, Or.inr (Or.inr (Or.inr ⟨rfl, _, _, _, st, rfl, hst⟩))⟩

/-- Witness of C10: a run that commits block 1 and then meets ten timeouts. -/
theorem terminal_status_witness :
    XmCode.XM_TIMEOUT ≠ XmCode.XM_ADDRESS_ERROR ∧
    ((XmCode.XM_TIMEOUT = XmCode.XM_OK ∧ ∃ pre timeout data,
        (XmodemDownloadAndProgramFlash 0x1000
          ⟨rxOk (frame 1 (fill 7)) :: List.replicate 10 rxTimeout,
           [tfm_platform_err_t.TFM_PLATFORM_ERR_SUCCESS], []⟩).world.trace
          = pre ++ [Event.comms_read 132 timeout ⟨fsp_err_t.FSP_SUCCESS, data⟩,
                    Event.comms_send ACK 1] ∧
        RxByteBuffer data 0 = EOT) ∨
     (XmCode.XM_TIMEOUT = XmCode.XM_ERROR ∧ ∃ pre timeout r,
        (XmodemDownloadAndProgramFlash 0x1000
          ⟨rxOk (frame 1 (fill 7)) :: List.replicate 10 rxTimeout,
           [tfm_platform_err_t.TFM_PLATFORM_ERR_SUCCESS], []⟩).world.trace
          = pre ++ [Event.comms_read 132 timeout r] ∧
        r.err ≠ fsp_err_t.FSP_SUCCESS ∧ r.err ≠ fsp_err_t.FSP_ERR_TIMEOUT) ∨
     (XmCode.XM_TIMEOUT = XmCode.XM_TIMEOUT ∧ ∃ pre sc ts,
        (XmodemDownloadAndProgramFlash 0x1000
          ⟨rxOk (frame 1 (fill 7)) :: List.replicate 10 rxTimeout,
           [tfm_platform_err_t.TFM_PLATFORM_ERR_SUCCESS], []⟩).world.trace
          = pre ++ requestEvents sc ts ∧
        ts.length = 10 ∧ ∀ t ∈ ts, t.err = fsp_err_t.FSP_ERR_TIMEOUT) ∨
     (XmCode.XM_TIMEOUT = XmCode.XM_PROG_FAIL ∧ ∃ pre src dst st,
        (XmodemDownloadAndProgramFlash 0x1000
          ⟨rxOk (frame 1 (fill 7)) :: List.replicate 10 rxTimeout,
           [tfm_platform_err_t.TFM_PLATFORM_ERR_SUCCESS], []⟩).world.trace
          = pre ++ [Event.tfm_platform_flash_write src dst 128 st,
                    Event.comms_send NAK 1, Event.comms_send CAN 1] ∧
        st ≠ tfm_platform_err_t.TFM_PLATFORM_ERR_SUCCESS)) :=
  terminal_status 0x1000
    ⟨rxOk (frame 1 (fill 7)) :: List.replicate 10 rxTimeout,
     [tfm_platform_err_t.TFM_PLATFORM_ERR_SUCCESS], []⟩ XmCode.XM_TIMEOUT (by decide)

/-! ## The handshake, the retry budget and the session: the claims C11 to C20 -/

/-- Counterexample to C11 as stated: when the first receive attempt of a call times out and
the second succeeds, two NAK have been sent when the receive loop ends, not one; and when all
ten attempts time out, ten NAK have been sent when `XM_TIMEOUT` is returned. -/
theorem single_kickoff_nak_counterexample :
    receiveLoop 0 10 XmCode.XM_TOUT [] ⟨[rxTimeout, rxOk [EOT]], [], []⟩
      = Rx.done XmCode.OK [EOT]
          ⟨[], [], [Event.comms_send NAK 1, Event.comms_read 132 10000 rxTimeout,
                    Event.comms_send NAK 1, Event.comms_read 132 10000 (rxOk [EOT])]⟩ ∧
    sentBytes [Event.comms_send NAK 1, Event.comms_read 132 10000 rxTimeout,
               Event.comms_send NAK 1, Event.comms_read 132 10000 (rxOk [EOT])] = [NAK, NAK] ∧
    sentBytes [Event.comms_send NAK 1, Event.comms_read 132 10000 rxTimeout,
               Event.comms_send NAK 1, Event.comms_read 132 10000 (rxOk [EOT])] ≠ [NAK] ∧
    sentBytes (XmodemDownloadAndProgramFlash 0x1000
        ⟨List.replicate 10 rxTimeout, [], []⟩).world.trace = List.replicate 10 NAK ∧
    (XmodemDownloadAndProgramFlash 0x1000
        ⟨List.replicate 10 rxTimeout, [], []⟩).status = some XmCode.XM_TIMEOUT := by
  decide

/-- C11, amended (a kick-off NAK before every attempt of the first frame request): in the
first frame request of a call the routine sends a NAK before each receive attempt.  When k
attempts (k at most 9) time out and the next one succeeds, the frame is processed in a world
where the calls of the request are k + 1 times NAK and receive, so exactly k + 1 NAK have been
sent; when ten attempts time out, the routine returns `XM_TIMEOUT` having sent exactly ten
NAK. -/
theorem kickoff_nak_per_attempt (FlashAddress : Nat) (w : World) (ts : List ReadResult)
    (data : List Nat) (rest : List ReadResult) (w10 : World) (ts10 rest10 : List ReadResult)
    (hts : ∀ t ∈ ts, t.err = fsp_err_t.FSP_ERR_TIMEOUT) (hlen : ts.length ≤ 9)
    (hw : w.rx = ts ++ ⟨fsp_err_t.FSP_SUCCESS, data⟩ :: rest)
    (hts10 : ∀ t ∈ ts10, t.err = fsp_err_t.FSP_ERR_TIMEOUT) (hlen10 : ts10.length = 10)
    (hw10 : w10.rx = ts10 ++ rest10) :
    loopBody (initialSession FlashAddress) w
      = handleFrame ⟨1, 1, FlashAddress % 2 ^ 32⟩ XmCode.OK data
          ⟨rest, w.flash, w.trace ++ requestEvents 0 (ts ++ [⟨fsp_err_t.FSP_SUCCESS, data⟩])⟩ ∧
    sentBytes (requestEvents 0 (ts ++ [⟨fsp_err_t.FSP_SUCCESS, data⟩]))
      = List.replicate (ts.length + 1) NAK ∧
    XmodemDownloadAndProgramFlash FlashAddress w10
      = ⟨some XmCode.XM_TIMEOUT,
          ⟨rest10, w10.flash, w10.trace ++ requestEvents 0 ts10⟩⟩ ∧
    sentBytes (requestEvents 0 ts10) = List.replicate 10 NAK := by
  refine ⟨loopBody_received (initialSession FlashAddress) w ts data rest hts hlen hw, ?_, ?_, ?_⟩
  · rw [sentBytes_requestEvents]
    simp
  · unfold XmodemDownloadAndProgramFlash
    apply mainLoop_ret
    obtain ⟨d1, h1⟩ := receiveLoop_exhausted 0 ts10 rest10 w10 hts10 hlen10 hw10
    show (match receiveLoop 0 10 XmCode.XM_TOUT [] w10 with
      | Rx.blocked w1 => Step.blocked w1
      | Rx.done xm_ret data w1 => handleFrame _ xm_ret data w1) = _
    rw [h1]
    simp [handleFrame]
  · rw [sentBytes_requestEvents, hlen10]
    simp

/-- Witness of C11, amended: two timeouts and then block 1; and ten timeouts. -/
theorem kickoff_nak_per_attempt_witness :
    loopBody (initialSession 0x1000) ⟨[rxTimeout, rxTimeout, rxOk (frame 1 (fill 7))], [], []⟩
      = handleFrame ⟨1, 1, 0x1000 % 2 ^ 32⟩ XmCode.OK (frame 1 (fill 7))
          ⟨[], [], [] ++ requestEvents 0 ([rxTimeout, rxTimeout] ++ [rxOk (frame 1 (fill 7))])⟩ ∧
    sentBytes (requestEvents 0 ([rxTimeout, rxTimeout] ++ [rxOk (frame 1 (fill 7))]))
      = List.replicate (2 + 1) NAK ∧
    XmodemDownloadAndProgramFlash 0x1000 ⟨List.replicate 10 rxTimeout ++ [rxOk [EOT]], [], []⟩
      = ⟨some XmCode.XM_TIMEOUT,
          ⟨[rxOk [EOT]], [], [] ++ requestEvents 0 (List.replicate 10 rxTimeout)⟩⟩ ∧
    sentBytes (requestEvents 0 (List.replicate 10 rxTimeout)) = List.replicate 10 NAK :=
  kickoff_nak_per_attempt 0x1000 _ [rxTimeout, rxTimeout] (frame 1 (fill 7)) []
    ⟨List.replicate 10 rxTimeout ++ [rxOk [EOT]], [], []⟩ (List.replicate 10 rxTimeout)
    [rxOk [EOT]] (by decide) (by decide) rfl (by decide) (by decide) rfl

/-- C12 (start-condition flag and timeouts): in every run, the calls of the first iteration
are those of the attempts of its frame request, each a NAK followed by a receive of 132 bytes
with a 10 000 ms timeout, and then calls among which there is no receive; at the start of
every later iteration the start condition is cleared (`StartCondition` is 1), whatever the
earlier frames were; and the calls of every later iteration are those of the attempts of its
frame request, each a receive of 132 bytes with a 1 000 ms timeout and nothing else, so no NAK
before any attempt, and then calls among which there is no receive. -/
theorem start_condition_and_timeouts (FlashAddress : Nat) (w : World) (fuel : Nat) :
    (∃ rs resp, (loopBody (initialSession FlashAddress) w).world.trace
        = w.trace ++ requestEvents 0 rs ++ resp ∧
      rs.length ≤ 10 ∧ readResults resp = [] ∧
      ∀ e ∈ requestEvents 0 rs,
        e = Event.comms_send NAK 1 ∨ ∃ r, e = Event.comms_read 132 10000 r) ∧
    (loopHeads (fuel + 1) (initialSession FlashAddress) w).head?
      = some (initialSession FlashAddress, w) ∧
    (∀ sw ∈ (loopHeads (fuel + 1) (initialSession FlashAddress) w).tail,
      sw.1.StartCondition = 1) ∧
    (∀ sw ∈ (loopHeads (fuel + 1) (initialSession FlashAddress) w).tail,
      ∃ rs resp, (loopBody sw.1 sw.2).world.trace
          = sw.2.trace ++ requestEvents 1 rs ++ resp ∧
        rs.length ≤ 10 ∧ readResults resp = [] ∧
        ∀ e ∈ requestEvents 1 rs, ∃ r, e = Event.comms_read 132 1000 r) := by
  refine ⟨?_, rfl, loopHeads_tail_startCondition _ _ _, ?_⟩
  · obtain ⟨rs, resp, h1, h2, h3⟩ := loopBody_trace (initialSession FlashAddress) w
    refine ⟨rs, resp, h1, h2, h3, ?_⟩
    intro e he
    rcases mem_requestEvents 0 rs e he with ⟨_, h⟩ | ⟨h, _⟩
    · exact h
    · exact (h rfl).elim
  · intro sw hsw
    have hsc := loopHeads_tail_startCondition _ _ _ sw hsw
    obtain ⟨rs, resp, h1, h2, h3⟩ := loopBody_trace sw.1 sw.2
    rw [hsc] at h1
    refine ⟨rs, resp, h1, h2, h3, ?_⟩
    intro e he
    rcases mem_requestEvents 1 rs e he with ⟨h, _⟩ | ⟨_, h⟩
    · exact absurd h (by decide)
    · exact h

/-- Witness of C12: the second iteration of a run that receives two blocks and EOT. -/
theorem start_condition_and_timeouts_witness :
    (⟨2, 1, 0x1080⟩ : Session).StartCondition = 1 ∧
    ∃ rs resp, (loopBody ⟨2, 1, 0x1080⟩ twoBlocksSecond).world.trace
        = twoBlocksSecond.trace ++ requestEvents 1 rs ++ resp ∧
      rs.length ≤ 10 ∧ readResults resp = [] ∧
      ∀ e ∈ requestEvents 1 rs, ∃ r, e = Event.comms_read 132 1000 r :=
  ⟨(start_condition_and_timeouts 0x1000 twoBlocks 2).2.2.1 (⟨2, 1, 0x1080⟩, twoBlocksSecond)
      (by decide),
   (start_condition_and_timeouts 0x1000 twoBlocks 2).2.2.2 (⟨2, 1, 0x1080⟩, twoBlocksSecond)
      (by decide)⟩

/-- C13 (steady-state retry budget): in a frame request after the first (`StartCondition` is
1), whatever the transport does, the iteration makes at most ten receive attempts; and when
the transport answers ten attempts with a timeout, the routine returns `XM_TIMEOUT` after
exactly these ten attempts, having sent nothing and written nothing in that request. -/
theorem steady_state_retry_budget (s : Session) (w w2 : World) (ts rest : List ReadResult)
    (hsc : s.StartCondition = 1)
    (hts : ∀ t ∈ ts, t.err = fsp_err_t.FSP_ERR_TIMEOUT) (hlen : ts.length = 10)
    (hw : w.rx = ts ++ rest) :
    (∃ rs resp, (loopBody s w2).world.trace = w2.trace ++ requestEvents 1 rs ++ resp ∧
      rs.length ≤ 10 ∧ readResults resp = []) ∧
    (∀ fuel, mainLoop (fuel + 1) s w = ⟨some XmCode.XM_TIMEOUT,
      { rx := rest, flash := w.flash, trace := w.trace ++ requestEvents 1 ts }⟩) ∧
    readResults (requestEvents 1 ts) = ts ∧
    (readResults (requestEvents 1 ts)).length = 10 ∧
    sentBytes (requestEvents 1 ts) = [] ∧
    flashWrites (requestEvents 1 ts) = [] := by
  refine ⟨?_, ?_, readResults_requestEvents 1 ts, ?_, ?_, flashWrites_requestEvents 1 ts⟩
  · have h := loopBody_trace s w2
    rw [hsc] at h
    exact h
  · intro fuel
    apply mainLoop_ret
    obtain ⟨d1, h1⟩ := receiveLoop_exhausted s.StartCondition ts rest w hts hlen hw
    unfold loopBody
    rw [h1, hsc]
    simp [handleFrame]
  · rw [readResults_requestEvents, hlen]
  · rw [sentBytes_requestEvents]
    simp

/-- Witness of C13: ten timeouts while block 3 is awaited; and an iteration that receives
block 3 at once. -/
theorem steady_state_retry_budget_witness :
    (∃ rs resp, (loopBody thirdSession ⟨[rxOk (frame 3 (fill 7))],
        [tfm_platform_err_t.TFM_PLATFORM_ERR_SUCCESS], []⟩).world.trace
        = [] ++ requestEvents 1 rs ++ resp ∧
      rs.length ≤ 10 ∧ readResults resp = []) ∧
    (∀ fuel, mainLoop (fuel + 1) thirdSession
        ⟨List.replicate 10 rxTimeout ++ [rxOk [EOT]],
         [tfm_platform_err_t.TFM_PLATFORM_ERR_SUCCESS], []⟩
      = ⟨some XmCode.XM_TIMEOUT,
          ⟨[rxOk [EOT]], [tfm_platform_err_t.TFM_PLATFORM_ERR_SUCCESS],
           [] ++ requestEvents 1 (List.replicate 10 rxTimeout)⟩⟩) ∧
    readResults (requestEvents 1 (List.replicate 10 rxTimeout)) = List.replicate 10 rxTimeout ∧
    (readResults (requestEvents 1 (List.replicate 10 rxTimeout))).length = 10 ∧
    sentBytes (requestEvents 1 (List.replicate 10 rxTimeout)) = [] ∧
    flashWrites (requestEvents 1 (List.replicate 10 rxTimeout)) = [] :=
  steady_state_retry_budget thirdSession
    ⟨List.replicate 10 rxTimeout ++ [rxOk [EOT]],
     [tfm_platform_err_t.TFM_PLATFORM_ERR_SUCCESS], []⟩
    ⟨[rxOk (frame 3 (fill 7))], [tfm_platform_err_t.TFM_PLATFORM_ERR_SUCCESS], []⟩
    (List.replicate 10 rxTimeout) [rxOk [EOT]] rfl (by decide) (by decide) rfl

/-- C14, defect shown on the code: after the blocks 1 to 255 have been committed the expected
block number is 0, and the frame of block 255 sent once more, valid in every other respect,
is answered with NAK, not ACK: the bytes sent in the whole run are the kick-off NAK, 255 ACK,
the NAK for the resent block and the ACK for EOT.  No further flash write is made. -/
theorem resend_after_wrap_rejected :
    (XmodemDownloadAndProgramFlash 0x1000 wrapResend).status = some XmCode.XM_OK ∧
    sentBytes (XmodemDownloadAndProgramFlash 0x1000 wrapResend).world.trace
      = NAK :: List.replicate 255 ACK ++ [NAK, ACK] ∧
    (flashWrites (XmodemDownloadAndProgramFlash 0x1000 wrapResend).world.trace).length
      = 255 := by
  have hps : ∀ p ∈ List.replicate 255 (fill 7), p.length = 128 ∧ ∀ b ∈ p, b < 256 := by
    intro p hp
    rw [List.eq_of_mem_replicate hp]
    decide
  obtain ⟨s1, w1, r0, r1, _, r3, r4, r5, r6, r7⟩ := clean_prefix
    [rxOk (frame 255 (fill 7)), rxOk [EOT]] [] 0x1000 (List.replicate 255 (fill 7)) 1
    (initialSession 0x1000) wrapResend 3 hps (le_refl 1) rfl (by simp [initialSession]) rfl
    (List.append_nil _).symm
  have hfuel : wrapResend.rx.length + 1 = 3 + (List.replicate 255 (fill 7)).length := by
    simp [wrapResend]
  have hE : s1.ExpectedBlkNum = 0 := by
    rw [r1, List.length_replicate]
  obtain ⟨f0, f1, f2, f3⟩ := frame_accepted 255 (fill 7) (by decide) (by decide)
  have hne : RxByteBuffer (frame 255 (fill 7)) 0 ≠ EOT := by rw [f0]; exact SOH_ne_EOT
  have hacc : ¬ frameAccepted s1.ExpectedBlkNum (frame 255 (fill 7)) := by
    rintro ⟨_, hb | hb, _, _⟩
    · rw [f1, hE] at hb
      omega
    · rw [f1, hE] at hb
      omega
  have hw1 : w1.rx = [] ++ ⟨fsp_err_t.FSP_SUCCESS, frame 255 (fill 7)⟩ :: [rxOk [EOT]] := r4
  have hb1 := loopBody_rejected s1 w1 [] (frame 255 (fill 7)) [rxOk [EOT]] (by simp)
    (by simp) hw1 hne hacc
  have hb2 := loopBody_received
    { ExpectedBlkNum := s1.ExpectedBlkNum, StartCondition := 1, Address := s1.Address }
    { rx := [rxOk [EOT]], flash := w1.flash,
      trace := w1.trace ++
        requestEvents s1.StartCondition ([] ++ [⟨fsp_err_t.FSP_SUCCESS, frame 255 (fill 7)⟩]) ++
        [Event.comms_send NAK 1] }
    [] [EOT] [] (by simp) (by simp) rfl
  rw [handleFrame_eot _ _ _ (by decide)] at hb2
  obtain ⟨wf, hwf, htr⟩ : ∃ wf, loopBody
      { ExpectedBlkNum := s1.ExpectedBlkNum, StartCondition := 1, Address := s1.Address }
      { rx := [rxOk [EOT]], flash := w1.flash,
        trace := w1.trace ++
          requestEvents s1.StartCondition
            ([] ++ [⟨fsp_err_t.FSP_SUCCESS, frame 255 (fill 7)⟩]) ++
          [Event.comms_send NAK 1] } = Step.ret XmCode.XM_OK wf ∧
      wf.trace = w1.trace ++
          requestEvents s1.StartCondition
            ([] ++ [⟨fsp_err_t.FSP_SUCCESS, frame 255 (fill 7)⟩]) ++
          [Event.comms_send NAK 1] ++
          requestEvents 1 ([] ++ [⟨fsp_err_t.FSP_SUCCESS, [EOT]⟩]) ++
          [Event.comms_send ACK 1] :=
    ⟨_, hb2, rfl⟩
  have hrun : XmodemDownloadAndProgramFlash 0x1000 wrapResend = ⟨some XmCode.XM_OK, wf⟩ := by
    unfold XmodemDownloadAndProgramFlash
    rw [hfuel, r0, mainLoop_next 2 _ _ _ _ hb1, mainLoop_ret 1 _ _ _ _ hwf]
  have hsc : s1.StartCondition = 1 := by
    rw [r3]
    simp
  rw [hrun]
  refine ⟨rfl, ?_, ?_⟩
  · show sentBytes wf.trace = _
    rw [htr]
    simp only [sentBytes_append, r7, hsc, sentBytes_requestEvents, List.length_replicate]
    simp [sentBytes, wrapResend, initialSession]
  · show (flashWrites wf.trace).length = _
    rw [htr]
    simp only [flashWrites_append, r6, flashWrites_requestEvents]
    simp [flashWrites, wrapResend]

/-- C15 (checksum width): for every buffer, the checksum the routine compares with byte 131,
the `int` sum of bytes 3..130 converted to `unsigned char`, is the sum of these 128 bytes
modulo 256, and is the result of adding them one at a time in arithmetic modulo 256. -/
theorem checksum_width (data : List Nat) :
    checksum data = (payload data).sum % 256 ∧
    checksum data = wraparoundSum8 (payload data) ∧
    (payload data).length = 128 ∧
    payload data = (List.range 128).map (fun i => RxByteBuffer data (i + 3)) := by
  refine ⟨checksum_eq data, ?_, by simp [payload], rfl⟩
  rw [wraparoundSum8_eq, checksum_eq]

/-- C16 (invalid frames are not fatal and not counted): for every number n of buffers, in any
session state, when the transport delivers successfully n buffers that do not start with EOT
and each fail the validation against the expected block number, and then a buffer that starts
with EOT, the routine returns `XM_OK`; it makes no flash write, and the bytes it sends are
(the kick-off NAK when the first of them is the first frame request of the call, then) one
NAK for each of the n buffers and the ACK for EOT.  There is no bound on n. -/
theorem invalid_frames_not_fatal (s : Session) (w : World) (bads : List (List Nat))
    (eot : List Nat) (rest : List ReadResult) (fuel : Nat)
    (hbad : ∀ d ∈ bads, RxByteBuffer d 0 ≠ EOT ∧ failsValidation s.ExpectedBlkNum d)
    (heot : RxByteBuffer eot 0 = EOT)
    (hw : w.rx = bads.map rxOk ++ rxOk eot :: rest)
    (hfuel : bads.length < fuel) :
    (mainLoop fuel s w).status = some XmCode.XM_OK ∧
    flashWrites (mainLoop fuel s w).world.trace = flashWrites w.trace ∧
    sentBytes (mainLoop fuel s w).world.trace = sentBytes w.trace ++
      (if s.StartCondition = 0 then [NAK] else []) ++
      List.replicate bads.length NAK ++ [ACK] ∧
    (mainLoop fuel s w).world.rx = rest ∧
    (mainLoop fuel s w).world.flash = w.flash := by
  obtain ⟨r1, r2, r3, r4, r5⟩ := invalid_run eot rest heot bads s w fuel hbad hw hfuel
  exact ⟨r1, r4, r5, r2, r3⟩

/-- Witness of C16: a call that receives three invalid buffers (a bad marker, an
out-of-sequence block, a bad checksum) and then EOT. -/
theorem invalid_frames_not_fatal_witness :
    (XmodemDownloadAndProgramFlash 0x1000
      ⟨[rxOk (0 :: (frame 1 (fill 7)).tail), rxOk (frame 2 (fill 7)),
        rxOk ((frame 1 (fill 7)).set 131 0), rxOk [EOT]],
       [tfm_platform_err_t.TFM_PLATFORM_ERR_SUCCESS], []⟩).status = some XmCode.XM_OK ∧
    flashWrites (XmodemDownloadAndProgramFlash 0x1000
      ⟨[rxOk (0 :: (frame 1 (fill 7)).tail), rxOk (frame 2 (fill 7)),
        rxOk ((frame 1 (fill 7)).set 131 0), rxOk [EOT]],
       [tfm_platform_err_t.TFM_PLATFORM_ERR_SUCCESS], []⟩).world.trace = flashWrites [] ∧
    sentBytes (XmodemDownloadAndProgramFlash 0x1000
      ⟨[rxOk (0 :: (frame 1 (fill 7)).tail), rxOk (frame 2 (fill 7)),
        rxOk ((frame 1 (fill 7)).set 131 0), rxOk [EOT]],
       [tfm_platform_err_t.TFM_PLATFORM_ERR_SUCCESS], []⟩).world.trace
      = sentBytes [] ++ [NAK] ++ List.replicate 3 NAK ++ [ACK] ∧
    (XmodemDownloadAndProgramFlash 0x1000
      ⟨[rxOk (0 :: (frame 1 (fill 7)).tail), rxOk (frame 2 (fill 7)),
        rxOk ((frame 1 (fill 7)).set 131 0), rxOk [EOT]],
       [tfm_platform_err_t.TFM_PLATFORM_ERR_SUCCESS], []⟩).world.rx = [] ∧
    (XmodemDownloadAndProgramFlash 0x1000
      ⟨[rxOk (0 :: (frame 1 (fill 7)).tail), rxOk (frame 2 (fill 7)),
        rxOk ((frame 1 (fill 7)).set 131 0), rxOk [EOT]],
       [tfm_platform_err_t.TFM_PLATFORM_ERR_SUCCESS], []⟩).world.flash
      = [tfm_platform_err_t.TFM_PLATFORM_ERR_SUCCESS] :=
  invalid_frames_not_fatal (initialSession 0x1000)
    ⟨[rxOk (0 :: (frame 1 (fill 7)).tail), rxOk (frame 2 (fill 7)),
      rxOk ((frame 1 (fill 7)).set 131 0), rxOk [EOT]],
     [tfm_platform_err_t.TFM_PLATFORM_ERR_SUCCESS], []⟩
    [0 :: (frame 1 (fill 7)).tail, frame 2 (fill 7), (frame 1 (fill 7)).set 131 0] [EOT] [] 5
    (by decide) (by decide) rfl (by decide)

/-- C17 (session invariant): a call starts with the expected block number 1 and the address
equal to the base (an `unsigned long`), no flash write made; and at the start of every
iteration of the run, when k flash writes have succeeded so far, the expected block number is
(1 + k) mod 256 and the address is (base + 128 k) mod 2^32. -/
theorem session_invariant (FlashAddress : Nat) (rx : List ReadResult)
    (fl : List tfm_platform_err_t) (fuel : Nat) :
    (initialSession FlashAddress).ExpectedBlkNum = 1 ∧
    (initialSession FlashAddress).Address = FlashAddress % 2 ^ 32 ∧
    (loopHeads (fuel + 1) (initialSession FlashAddress) ⟨rx, fl, []⟩).head?
      = some (initialSession FlashAddress, ⟨rx, fl, []⟩) ∧
    ∀ sw ∈ loopHeads fuel (initialSession FlashAddress) ⟨rx, fl, []⟩,
      sw.1.ExpectedBlkNum = (1 + committed sw.2.trace) % 256 ∧
      sw.1.Address = (FlashAddress + 128 * committed sw.2.trace) % 2 ^ 32 := by
  refine ⟨rfl, rfl, rfl, ?_⟩
  exact loopHeads_session FlashAddress fuel (initialSession FlashAddress) ⟨rx, fl, []⟩ rfl
    (by simp [initialSession, committed]) rfl (by simp [writesInSequence, flashWrites])

/-- Witness of C17: the start of the second iteration of a run that receives two blocks and
EOT, when one flash write has succeeded. -/
theorem session_invariant_witness :
    (⟨2, 1, 0x1080⟩ : Session).ExpectedBlkNum = (1 + committed twoBlocksSecond.trace) % 256 ∧
    (⟨2, 1, 0x1080⟩ : Session).Address
      = (0x1000 + 128 * committed twoBlocksSecond.trace) % 2 ^ 32 :=
  (session_invariant 0x1000 twoBlocks.rx twoBlocks.flash 3).2.2.2
    (⟨2, 1, 0x1080⟩, twoBlocksSecond) (by decide)

/-- Counterexample to C18 as stated: in a clean transfer of 33 554 433 blocks to the base
address 0 the first flash write and the last one both go to address 0, because the address,
an `unsigned long`, wraps after 2^25 blocks: an address is written twice. -/
theorem write_sequence_counterexample :
    (flashWrites (XmodemDownloadAndProgramFlash 0
        (cleanTransfer (List.replicate 33554433 (fill 0)) [EOT] [] [])).world.trace)[0]?
      = some (fill 0, 0, 128) ∧
    (flashWrites (XmodemDownloadAndProgramFlash 0
        (cleanTransfer (List.replicate 33554433 (fill 0)) [EOT] [] [])).world.trace)[33554432]?
      = some (fill 0, 0, 128) := by
  have hps : ∀ p ∈ List.replicate 33554433 (fill 0), p.length = 128 ∧ ∀ b ∈ p, b < 256 := by
    intro p hp
    rw [List.eq_of_mem_replicate hp]
    decide
  have h0 : (List.replicate 33554433 (fill 0))[0]? = some (fill 0) := by
    rw [List.getElem?_replicate, if_pos (by norm_num)]
  have h1 : (List.replicate 33554433 (fill 0))[33554432]? = some (fill 0) := by
    rw [List.getElem?_replicate, if_pos (by norm_num)]
  exact ⟨clean_transfer_write_at 0 _ [EOT] [] [] hps (by decide) 0 (fill 0) h0,
    clean_transfer_write_at 0 _ [EOT] [] [] hps (by decide) 33554432 (fill 0) h1⟩

/-- C18, amended (write sequence shape): in every run, every flash write has length 128; the
writes go to the base address, the base + 128, the base + 256, ... in this order, computed
modulo 2^32, so each later write is at the previous address plus 128 as an `unsigned long`;
the addresses are strictly increasing when the last of them is reached without overflow; no
address is written twice when the run makes at most 2^25 writes; and when the base is a
multiple of 128, so is every write address. -/
theorem write_sequence_shape (FlashAddress : Nat) (rx : List ReadResult)
    (fl : List tfm_platform_err_t) :
    writeLengths (XmodemDownloadAndProgramFlash FlashAddress ⟨rx, fl, []⟩).world.trace
      = List.replicate
          (flashWrites (XmodemDownloadAndProgramFlash FlashAddress ⟨rx, fl, []⟩).world.trace).length
          128 ∧
    writeAddresses (XmodemDownloadAndProgramFlash FlashAddress ⟨rx, fl, []⟩).world.trace
      = (List.range
          (flashWrites (XmodemDownloadAndProgramFlash FlashAddress ⟨rx, fl, []⟩).world.trace).length).map
          (fun i => (FlashAddress + 128 * i) % 2 ^ 32) ∧
    (FlashAddress % 2 ^ 32 + 128 *
        ((flashWrites
          (XmodemDownloadAndProgramFlash FlashAddress ⟨rx, fl, []⟩).world.trace).length - 1)
        < 2 ^ 32 →
      List.Pairwise (fun a b => a < b)
        (writeAddresses (XmodemDownloadAndProgramFlash FlashAddress ⟨rx, fl, []⟩).world.trace)) ∧
    ((flashWrites (XmodemDownloadAndProgramFlash FlashAddress ⟨rx, fl, []⟩).world.trace).length
        ≤ 2 ^ 25 →
      (writeAddresses
        (XmodemDownloadAndProgramFlash FlashAddress ⟨rx, fl, []⟩).world.trace).Nodup) ∧
    (FlashAddress % 128 = 0 →
      ∀ a ∈ writeAddresses (XmodemDownloadAndProgramFlash FlashAddress ⟨rx, fl, []⟩).world.trace,
        a % 128 = 0) := by
  have hT := mainLoop_sequence FlashAddress (rx.length + 1) (initialSession FlashAddress)
    ⟨rx, fl, []⟩ rfl (by simp [initialSession, committed]) rfl
    (by simp [writesInSequence, flashWrites])
  have hA := writeAddresses_of_sequence _ _ hT
  have hL := writeLengths_of_sequence _ _ hT
  unfold XmodemDownloadAndProgramFlash
  generalize (mainLoop (rx.length + 1) (initialSession FlashAddress) ⟨rx, fl, []⟩).world.trace
    = tr at hA hL
  generalize (flashWrites tr).length = n at hA hL
  refine ⟨hL, hA, ?_, ?_, ?_⟩
  · intro hno
    rw [hA, List.pairwise_map]
    refine List.Pairwise.imp_of_mem ?_ (List.pairwise_lt_range n)
    intro i j hi hj hij
    rw [List.mem_range] at hi hj
    norm_num at hno ⊢
    omega
  · intro hn
    rw [hA]
    refine List.Nodup.map_on ?_ (List.nodup_range n)
    intro i hi j hj hij
    rw [List.mem_range] at hi hj
    norm_num at hn hij
    omega
  · intro hbase a ha
    rw [hA, List.mem_map] at ha
    obtain ⟨i, _, rfl⟩ := ha
    norm_num
    omega

/-- Witness of C18, amended: the two flash writes of a run that receives two blocks and
EOT. -/
theorem write_sequence_shape_witness :
    writeLengths (XmodemDownloadAndProgramFlash 0x1000
        ⟨twoBlocks.rx, twoBlocks.flash, []⟩).world.trace
      = List.replicate (flashWrites (XmodemDownloadAndProgramFlash 0x1000
          ⟨twoBlocks.rx, twoBlocks.flash, []⟩).world.trace).length 128 ∧
    writeAddresses (XmodemDownloadAndProgramFlash 0x1000
        ⟨twoBlocks.rx, twoBlocks.flash, []⟩).world.trace
      = (List.range (flashWrites (XmodemDownloadAndProgramFlash 0x1000
          ⟨twoBlocks.rx, twoBlocks.flash, []⟩).world.trace).length).map
          (fun i => (0x1000 + 128 * i) % 2 ^ 32) ∧
    List.Pairwise (fun a b => a < b)
      (writeAddresses (XmodemDownloadAndProgramFlash 0x1000
        ⟨twoBlocks.rx, twoBlocks.flash, []⟩).world.trace) ∧
    (writeAddresses (XmodemDownloadAndProgramFlash 0x1000
        ⟨twoBlocks.rx, twoBlocks.flash, []⟩).world.trace).Nodup ∧
    ∀ a ∈ writeAddresses (XmodemDownloadAndProgramFlash 0x1000
        ⟨twoBlocks.rx, twoBlocks.flash, []⟩).world.trace, a % 128 = 0 :=
  ⟨(write_sequence_shape 0x1000 twoBlocks.rx twoBlocks.flash).1,
   (write_sequence_shape 0x1000 twoBlocks.rx twoBlocks.flash).2.1,
   (write_sequence_shape 0x1000 twoBlocks.rx twoBlocks.flash).2.2.1 (by decide),
   (write_sequence_shape 0x1000 twoBlocks.rx twoBlocks.flash).2.2.2.1 (by decide),
   (write_sequence_shape 0x1000 twoBlocks.rx twoBlocks.flash).2.2.2.2 (by decide)⟩

/-- C19 (the retry budget is per frame request): in any session state and any world, so
whatever happened in earlier frame requests, when at most nine attempts of a frame request
time out and the next one gets a result `r` that is not a timeout, the iteration ends exactly
as the iteration that gets `r` at its first attempt, started after the calls of the timed-out
attempts: same step, same session, same calls after those of the request.  For example nine
timeouts before each of two valid frames do not give `XM_TIMEOUT`: both blocks are written
and the routine returns `XM_OK`. -/
theorem retry_budget_per_request (s : Session) (w : World) (ts : List ReadResult)
    (r : ReadResult) (rest : List ReadResult)
    (hts : ∀ t ∈ ts, t.err = fsp_err_t.FSP_ERR_TIMEOUT) (hlen : ts.length ≤ 9)
    (hr : r.err ≠ fsp_err_t.FSP_ERR_TIMEOUT) (hw : w.rx = ts ++ r :: rest) :
    loopBody s w
      = loopBody s ⟨r :: rest, w.flash, w.trace ++ requestEvents s.StartCondition ts⟩ ∧
    (XmodemDownloadAndProgramFlash 0x1000 nineBeforeEach).status = some XmCode.XM_OK ∧
    flashWrites (XmodemDownloadAndProgramFlash 0x1000 nineBeforeEach).world.trace
      = [(fill 7, 0x1000, 128), (fill 9, 0x1080, 128)] ∧
    (readResults (XmodemDownloadAndProgramFlash 0x1000 nineBeforeEach).world.trace).length
      = 21 := by
  refine ⟨?_, by decide, by decide, by decide⟩
  unfold loopBody
  rw [receiveLoop_answer s.StartCondition ts r rest w hts hlen hr hw,
    receiveLoop_answer s.StartCondition [] r rest
      ⟨r :: rest, w.flash, w.trace ++ requestEvents s.StartCondition ts⟩ (by simp) (by simp)
      hr rfl]
  simp [requestEvents_append, List.append_assoc]

/-- Witness of C19: five timeouts before the frame of the expected block 3. -/
theorem retry_budget_per_request_witness :
    loopBody thirdSession
        ⟨List.replicate 5 rxTimeout ++ rxOk (frame 3 (fill 7)) :: [rxOk [EOT]],
         [tfm_platform_err_t.TFM_PLATFORM_ERR_SUCCESS], []⟩
      = loopBody thirdSession
          ⟨rxOk (frame 3 (fill 7)) :: [rxOk [EOT]],
           [tfm_platform_err_t.TFM_PLATFORM_ERR_SUCCESS],
           [] ++ requestEvents thirdSession.StartCondition (List.replicate 5 rxTimeout)⟩ ∧
    (XmodemDownloadAndProgramFlash 0x1000 nineBeforeEach).status = some XmCode.XM_OK ∧
    flashWrites (XmodemDownloadAndProgramFlash 0x1000 nineBeforeEach).world.trace
      = [(fill 7, 0x1000, 128), (fill 9, 0x1080, 128)] ∧
    (readResults (XmodemDownloadAndProgramFlash 0x1000 nineBeforeEach).world.trace).length
      = 21 :=
  retry_budget_per_request thirdSession _ (List.replicate 5 rxTimeout) (rxOk (frame 3 (fill 7)))
    [rxOk [EOT]] (by decide) (by decide) (by decide) rfl

/-- C20 (single-byte corruption is always detected): when exactly one payload byte of a
buffer, the byte at index `i + 3` with `i` below 128, is changed to a different value `b`,
the checksum the routine computes changes; hence when the buffer started with SOH and carried
the right checksum, the altered buffer (checksum byte untouched), successfully received in any
session state, is answered with NAK and not written, and state is unchanged.  More generally
the checksum of another buffer equals that of `data` exactly when the differences of their
payload bytes sum to 0 modulo 256. -/
theorem single_byte_corruption_detected (s : Session) (w : World) (ts : List ReadResult)
    (data data2 : List Nat) (rest : List ReadResult) (i b : Nat)
    (hi : i < 128) (hlen : i + 3 < data.length)
    (hb : b % 256 ≠ RxByteBuffer data (i + 3))
    (h0 : RxByteBuffer data 0 = SOH)
    (h3 : RxByteBuffer data 131 = (payload data).sum % 256)
    (hts : ∀ t ∈ ts, t.err = fsp_err_t.FSP_ERR_TIMEOUT) (hlen9 : ts.length ≤ 9)
    (hw : w.rx = ts ++ ⟨fsp_err_t.FSP_SUCCESS, data.set (i + 3) b⟩ :: rest) :
    checksum (data.set (i + 3) b) ≠ checksum data ∧
    loopBody s w = Step.next
      { ExpectedBlkNum := s.ExpectedBlkNum, StartCondition := 1, Address := s.Address }
      { rx := rest, flash := w.flash,
        trace := w.trace ++
          requestEvents s.StartCondition
            (ts ++ [⟨fsp_err_t.FSP_SUCCESS, data.set (i + 3) b⟩]) ++
          [Event.comms_send NAK 1] } ∧
    (checksum data2 = checksum data ↔
      ((List.range 128).map
        (fun j => (RxByteBuffer data2 (j + 3) : Int) - (RxByteBuffer data (j + 3) : Int))).sum
        % 256 = 0) := by
  have hsum := sum_range_one_changed (fun j => RxByteBuffer data (j + 3))
    (fun j => RxByteBuffer (data.set (i + 3) b) (j + 3)) i
    (by
      intro j hj
      show RxByteBuffer (data.set (i + 3) b) (j + 3) = RxByteBuffer data (j + 3)
      rw [RxByteBuffer_set data (i + 3) b (j + 3) hlen, if_neg (by omega)]) 128
  rw [if_pos hi, if_pos hi] at hsum
  have hnew : RxByteBuffer (data.set (i + 3) b) (i + 3) = b % 256 := by
    rw [RxByteBuffer_set data (i + 3) b (i + 3) hlen, if_pos rfl]
  simp only [hnew] at hsum
  have hold := RxByteBuffer_lt data (i + 3)
  have hnewlt : b % 256 < 256 := Nat.mod_lt _ (by norm_num)
  have hcs : checksum (data.set (i + 3) b) ≠ checksum data := by
    rw [checksum_eq, checksum_eq]
    unfold payload
    omega
  refine ⟨hcs, ?_, ?_⟩
  · apply loopBody_rejected s w ts _ rest hts hlen9 hw
    · rw [RxByteBuffer_set data (i + 3) b 0 hlen, if_neg (by omega), h0]
      exact SOH_ne_EOT
    · rintro ⟨_, _, _, d⟩
      rw [RxByteBuffer_set data (i + 3) b 131 hlen, if_neg (by omega), h3, ← checksum_eq] at d
      exact hcs d.symm
  · rw [sum_range_differences (fun j => RxByteBuffer data (j + 3))
      (fun j => RxByteBuffer data2 (j + 3)) 128, checksum_eq, checksum_eq]
    unfold payload
    omega

/-- Witness of C20: payload byte 7 of the frame of block 3 changed from 7 to 8, received
while block 3 is expected; the other buffer of the general part is the same frame with two
payload bytes changed by +1 and -1. -/
theorem single_byte_corruption_detected_witness :
    checksum ((frame 3 (fill 7)).set (7 + 3) 8) ≠ checksum (frame 3 (fill 7)) ∧
    loopBody thirdSession
        ⟨[] ++ ⟨fsp_err_t.FSP_SUCCESS, (frame 3 (fill 7)).set (7 + 3) 8⟩ :: [],
         [tfm_platform_err_t.TFM_PLATFORM_ERR_SUCCESS], []⟩
      = Step.next
          { ExpectedBlkNum := 3, StartCondition := 1, Address := 0x1100 }
          { rx := [], flash := [tfm_platform_err_t.TFM_PLATFORM_ERR_SUCCESS],
            trace := [] ++
              requestEvents 1 ([] ++ [⟨fsp_err_t.FSP_SUCCESS, (frame 3 (fill 7)).set (7 + 3) 8⟩]) ++
              [Event.comms_send NAK 1] } ∧
    (checksum (((frame 3 (fill 7)).set 10 8).set 11 6) = checksum (frame 3 (fill 7)) ↔
      ((List.range 128).map
        (fun j => (RxByteBuffer (((frame 3 (fill 7)).set 10 8).set 11 6) (j + 3) : Int)
          - (RxByteBuffer (frame 3 (fill 7)) (j + 3) : Int))).sum % 256 = 0) :=
  single_byte_corruption_detected thirdSession _ [] (frame 3 (fill 7))
    (((frame 3 (fill 7)).set 10 8).set 11 6) [] 7 8 (by decide) (by decide) (by decide)
    (by decide) (by decide) (by decide) (by decide) rfl

/-! ## The checksum, the complement and the lockstep: the claims C21, C22, C25 to C27 -/

/-- C21 (checksum order-independence): when the 128 payload bytes of one buffer are a
permutation of the 128 payload bytes of another, the routine computes the same checksum for
both; and the checksum of a buffer is a function of its bytes: computing it again gives the
same value. -/
theorem checksum_order_independent (data1 data2 : List Nat)
    (h : (payload data1).Perm (payload data2)) :
    checksum data1 = checksum data2 ∧ checksum data1 = checksum data1 := by
  refine ⟨?_, rfl⟩
  rw [checksum_eq, checksum_eq, h.sum_eq]

/-- Witness of C21: two payload bytes exchanged. -/
theorem checksum_order_independent_witness :
    checksum [SOH, 1, 254, 5, 9, 200] = checksum [SOH, 1, 254, 200, 5, 9] ∧
    checksum [SOH, 1, 254, 5, 9, 200] = checksum [SOH, 1, 254, 5, 9, 200] :=
  checksum_order_independent [SOH, 1, 254, 5, 9, 200] [SOH, 1, 254, 200, 5, 9] (by decide)

/-- C22 (complement check): for the block-number byte 1 and the complement byte 2 of any
buffer, the test of line 154, byte 2 + byte 1 = 255 in `int` arithmetic, holds exactly when
byte 2 = 255 - byte 1, that is, when byte 2 is the bitwise complement of byte 1; the same sum
reduced modulo 256 is 255 only when the sum itself is 255, so no pair of bytes could pass
through wraparound; and a frame the routine accepts has byte 2 = 255 - byte 1. -/
theorem complement_check (data : List Nat) (ExpectedBlkNum : Nat) :
    (RxByteBuffer data 2 + RxByteBuffer data 1 = 255 ↔
      RxByteBuffer data 2 = 255 - RxByteBuffer data 1) ∧
    (RxByteBuffer data 2 + RxByteBuffer data 1 = 255 ↔
      RxByteBuffer data 2 = RxByteBuffer data 1 ^^^ 255) ∧
    ((RxByteBuffer data 2 + RxByteBuffer data 1) % 256 = 255 →
      RxByteBuffer data 2 + RxByteBuffer data 1 = 255) ∧
    (frameAccepted ExpectedBlkNum data → RxByteBuffer data 2 = 255 - RxByteBuffer data 1) ∧
    (∀ b1 b2 : Nat, b1 < 256 → b2 < 256 →
      RxByteBuffer [SOH, b1, b2] 1 = b1 ∧ RxByteBuffer [SOH, b1, b2] 2 = b2) := by
  have h1 := RxByteBuffer_lt data 1
  have h2 := RxByteBuffer_lt data 2
  have hx := byte_complement ⟨RxByteBuffer data 1, h1⟩
  simp only at hx
  refine ⟨by omega, by rw [← hx]; omega, by omega, ?_, ?_⟩
  · rintro ⟨_, _, h, _⟩
    omega
  · intro b1 b2 hb1 hb2
    simp [RxByteBuffer, Nat.mod_eq_of_lt hb1, Nat.mod_eq_of_lt hb2]

/-- C27 (checksum accumulator bound): for every buffer, the checksum loop runs exactly 128
iterations; the buffer indices it reads are 3, 4, ..., 130, all inside the 132-byte buffer
(the `unsigned char` index goes from 0 to 127 and never wraps); every value the `int`
accumulator `cs` takes lies between 0 and 128 * 255 = 32 640, which is below 2^15, so the sum
does not overflow even a 16-bit `int`; and the value the loop ends with is the last of
them. -/
theorem checksum_accumulator_bound (data : List Nat) :
    (checksumSteps data 256 0 0).length = 128 ∧
    (checksumSteps data 256 0 0).map Prod.fst = (List.range 128).map (fun i => i + 3) ∧
    (∀ p ∈ checksumSteps data 256 0 0,
      3 ≤ p.1 ∧ p.1 ≤ 130 ∧ p.1 < 132 ∧ 0 ≤ p.2 ∧ p.2 ≤ 32640) ∧
    (32640 : Int) = 128 * 255 ∧ (32640 : Int) < 2 ^ 15 ∧
    checksumLoop data 256 0 0
      = ((checksumSteps data 256 0 0).getLast?.map Prod.snd).getD 0 := by
  have hidx := checksumSteps_indices data 128 256 0 0 (by norm_num) (by norm_num)
  rw [← List.range_eq_range'] at hidx
  refine ⟨?_, hidx, ?_, by norm_num, by norm_num, checksumLoop_last data 256 0 0⟩
  · have := congrArg List.length hidx
    simpa using this
  · intro p hp
    obtain ⟨hb0, hb1⟩ := checksumSteps_bound data 256 0 0 (by norm_num) (le_refl _)
      (by norm_num) p hp
    have hm : p.1 ∈ (checksumSteps data 256 0 0).map Prod.fst := List.mem_map_of_mem _ hp
    rw [hidx, List.mem_map] at hm
    obtain ⟨i, hi, hi2⟩ := hm
    rw [List.mem_range] at hi
    exact ⟨by omega, by omega, by omega, hb0, hb1⟩

/-- C25 (block 0 at session start): in the first frame request of a call (expected block
number 1, address at the base, nothing written), a successfully received buffer with byte 0 =
SOH, block number 0, complement 255 and the right checksum is taken for a block already
received: the routine sends ACK (after the calls of the request), makes no flash write, and
goes on with the expected block number 1 and the address at the base; when EOT follows, the
call returns `XM_OK` without any flash write, so the payload is acknowledged and never
written. -/
theorem block_zero_at_start (FlashAddress : Nat) (w : World) (ts : List ReadResult)
    (data eot : List Nat) (rest : List ReadResult)
    (hts : ∀ t ∈ ts, t.err = fsp_err_t.FSP_ERR_TIMEOUT) (hlen : ts.length ≤ 9)
    (hw : w.rx = ts ++ ⟨fsp_err_t.FSP_SUCCESS, data⟩ :: ⟨fsp_err_t.FSP_SUCCESS, eot⟩ :: rest)
    (h0 : RxByteBuffer data 0 = SOH) (h1 : RxByteBuffer data 1 = 0)
    (h2 : RxByteBuffer data 2 = 255)
    (h3 : RxByteBuffer data 131 = (payload data).sum % 256)
    (heot : RxByteBuffer eot 0 = EOT) :
    loopBody (initialSession FlashAddress) w = Step.next
      { ExpectedBlkNum := 1, StartCondition := 1, Address := FlashAddress % 2 ^ 32 }
      { rx := ⟨fsp_err_t.FSP_SUCCESS, eot⟩ :: rest, flash := w.flash,
        trace := w.trace ++ requestEvents 0 (ts ++ [⟨fsp_err_t.FSP_SUCCESS, data⟩]) ++
          [Event.comms_send ACK 1] } ∧
    XmodemDownloadAndProgramFlash FlashAddress w = ⟨some XmCode.XM_OK,
      { rx := rest, flash := w.flash,
        trace := w.trace ++ requestEvents 0 (ts ++ [⟨fsp_err_t.FSP_SUCCESS, data⟩]) ++
          [Event.comms_send ACK 1] ++
          [Event.comms_read 132 1000 ⟨fsp_err_t.FSP_SUCCESS, eot⟩, Event.comms_send ACK 1] }⟩ ∧
    flashWrites (requestEvents 0 (ts ++ [⟨fsp_err_t.FSP_SUCCESS, data⟩]) ++
          [Event.comms_send ACK 1] ++
          [Event.comms_read 132 1000 ⟨fsp_err_t.FSP_SUCCESS, eot⟩, Event.comms_send ACK 1])
      = [] := by
  have hne : RxByteBuffer data 0 ≠ EOT := by rw [h0]; exact SOH_ne_EOT
  have hacc : frameAccepted (initialSession FlashAddress).ExpectedBlkNum data :=
    ⟨h0, Or.inr (by rw [h1]; rfl), by rw [h1, h2], by rw [checksum_eq]; exact h3⟩
  have hE : RxByteBuffer data 1 ≠ (initialSession FlashAddress).ExpectedBlkNum := by
    rw [h1]
    exact (by decide : (0 : Nat) ≠ 1)
  have hb1 : loopBody (initialSession FlashAddress) w = Step.next
      { ExpectedBlkNum := 1, StartCondition := 1, Address := FlashAddress % 2 ^ 32 }
      { rx := ⟨fsp_err_t.FSP_SUCCESS, eot⟩ :: rest, flash := w.flash,
        trace := w.trace ++ requestEvents 0 (ts ++ [⟨fsp_err_t.FSP_SUCCESS, data⟩]) ++
          [Event.comms_send ACK 1] } :=
    loopBody_duplicate (initialSession FlashAddress) w ts data _ hts hlen hw hne hacc hE
  have hb2 := loopBody_received
    { ExpectedBlkNum := 1, StartCondition := 1, Address := FlashAddress % 2 ^ 32 }
    { rx := ⟨fsp_err_t.FSP_SUCCESS, eot⟩ :: rest, flash := w.flash,
      trace := w.trace ++ requestEvents 0 (ts ++ [⟨fsp_err_t.FSP_SUCCESS, data⟩]) ++
        [Event.comms_send ACK 1] }
    [] eot rest (by simp) (by simp) rfl
  rw [handleFrame_eot _ _ _ heot] at hb2
  refine ⟨hb1, ?_, ?_⟩
  · unfold XmodemDownloadAndProgramFlash
    obtain ⟨f, hf⟩ : ∃ f, w.rx.length + 1 = f + 1 + 1 := ⟨w.rx.length - 1, by rw [hw]; simp; omega⟩
    rw [hf, mainLoop_next (f + 1) _ _ _ _ hb1, mainLoop_ret f _ _ _ _ hb2]
    simp [requestEvents]
  · simp [flashWrites_append, flashWrites_requestEvents, flashWrites]

/-- Witness of C25: block 0 with the payload `fill 7` and then EOT, at the base 0x1000. -/
theorem block_zero_at_start_witness :
    loopBody (initialSession 0x1000)
        ⟨[] ++ ⟨fsp_err_t.FSP_SUCCESS, frame 0 (fill 7)⟩ :: ⟨fsp_err_t.FSP_SUCCESS, [EOT]⟩ :: [],
         [tfm_platform_err_t.TFM_PLATFORM_ERR_SUCCESS], []⟩
      = Step.next
          { ExpectedBlkNum := 1, StartCondition := 1, Address := 0x1000 % 2 ^ 32 }
          { rx := ⟨fsp_err_t.FSP_SUCCESS, [EOT]⟩ :: [],
            flash := [tfm_platform_err_t.TFM_PLATFORM_ERR_SUCCESS],
            trace := [] ++ requestEvents 0 ([] ++ [⟨fsp_err_t.FSP_SUCCESS, frame 0 (fill 7)⟩]) ++
              [Event.comms_send ACK 1] } ∧
    XmodemDownloadAndProgramFlash 0x1000
        ⟨[] ++ ⟨fsp_err_t.FSP_SUCCESS, frame 0 (fill 7)⟩ :: ⟨fsp_err_t.FSP_SUCCESS, [EOT]⟩ :: [],
         [tfm_platform_err_t.TFM_PLATFORM_ERR_SUCCESS], []⟩
      = ⟨some XmCode.XM_OK,
          { rx := [], flash := [tfm_platform_err_t.TFM_PLATFORM_ERR_SUCCESS],
            trace := [] ++ requestEvents 0 ([] ++ [⟨fsp_err_t.FSP_SUCCESS, frame 0 (fill 7)⟩]) ++
              [Event.comms_send ACK 1] ++
              [Event.comms_read 132 1000 ⟨fsp_err_t.FSP_SUCCESS, [EOT]⟩,
               Event.comms_send ACK 1] }⟩ ∧
    flashWrites (requestEvents 0 ([] ++ [⟨fsp_err_t.FSP_SUCCESS, frame 0 (fill 7)⟩]) ++
          [Event.comms_send ACK 1] ++
          [Event.comms_read 132 1000 ⟨fsp_err_t.FSP_SUCCESS, [EOT]⟩, Event.comms_send ACK 1])
      = [] :=
  block_zero_at_start 0x1000 _ [] (frame 0 (fill 7)) [EOT] [] (by decide) (by decide) rfl
    (by decide) (by decide) (by decide) (by decide) (by decide)

/-- C26 (lockstep responses): for every base address and whatever the transport and the flash
service answer, the calls of the run, in the order they are made, follow the lockstep of
`lockstepStep` from the first frame request on: a successful receive is answered by exactly
one control byte, ACK or NAK (after the flash write when there is one that succeeds), before
the next receive; a failed flash write is followed by exactly NAK and CAN and by no further
call; in steady state a receive that times out is followed directly by the next receive and a
receive that fails by nothing. The answers are in fact given: every result the run takes from
the transport or the flash service is that of a call of its trace; a run that returns has
answered every receive; a run stops without returning only when it waits for a receive that
the transport does not complete, every earlier receive being answered, or when it waits for
the flash service to complete the write of the valid new block just received; and when the
flash service has a result for every block the transport can deliver, no receive stays
unanswered. -/
theorem lockstep_responses (FlashAddress : Nat) (w : World) (hw : w.trace = []) :
    ∃ p, lockstepRun Phase.kickoff (XmodemDownloadAndProgramFlash FlashAddress w).world.trace
        = some p ∧
      readResults (XmodemDownloadAndProgramFlash FlashAddress w).world.trace
          ++ (XmodemDownloadAndProgramFlash FlashAddress w).world.rx = w.rx ∧
      (flashWrites (XmodemDownloadAndProgramFlash FlashAddress w).world.trace).length
          + (XmodemDownloadAndProgramFlash FlashAddress w).world.flash.length
        = w.flash.length ∧
      ((XmodemDownloadAndProgramFlash FlashAddress w).status ≠ none →
        p = Phase.kickoff ∨ p = Phase.steady ∨ p = Phase.closed) ∧
      ((XmodemDownloadAndProgramFlash FlashAddress w).status = none →
        ((XmodemDownloadAndProgramFlash FlashAddress w).world.rx = [] ∧
          (p = Phase.kicked ∨ p = Phase.steady)) ∨
        ((XmodemDownloadAndProgramFlash FlashAddress w).world.flash = [] ∧
          p = Phase.received ∧
          ∃ src, writeJustified
            (XmodemDownloadAndProgramFlash FlashAddress w).world.trace src)) ∧
      (w.rx.length ≤ w.flash.length → p ≠ Phase.received) := by
  obtain ⟨p, h1, h2, h3, h4, h5⟩ := mainLoop_progress (w.rx.length + 1)
    (initialSession FlashAddress) w (by omega) (by rw [hw]; rfl) (by rw [hw]; rfl)
    (by rw [hw]; exact writesJustified_nil) (by rw [hw]; exact le_refl _)
  rw [hw] at h2 h3
  simp only [readResults, flashWrites, List.nil_append, List.length_nil, Nat.zero_add] at h2 h3
  unfold XmodemDownloadAndProgramFlash
  refine ⟨p, h1, h2, h3, h4, ?_, ?_⟩
  · intro hn
    rcases h5 hn with ⟨a, b⟩ | ⟨a, b, c, _⟩
    · exact Or.inl ⟨a, b⟩
    · exact Or.inr ⟨a, b, c⟩
  · intro hle hp
    cases hs : (mainLoop (w.rx.length + 1) (initialSession FlashAddress) w).status with
    | some c =>
      have := h4 (by rw [hs]; simp)
      rw [hp] at this
      simp at this
    | none =>
      rcases h5 hs with ⟨_, b⟩ | ⟨a, _, _, d⟩
      · rw [hp] at b
        simp at b
      · rw [a] at h3
        have h6 := congrArg List.length h2
        rw [List.length_append] at h6
        simp only [List.length_nil, Nat.add_zero] at h3
        omega

/-- Witness of C26: the run in which the second flash write fails. -/
theorem lockstep_responses_witness :
    secondWriteFails.trace = [] ∧
    ∃ p, lockstepRun Phase.kickoff
        (XmodemDownloadAndProgramFlash 0x1000 secondWriteFails).world.trace = some p ∧
      readResults (XmodemDownloadAndProgramFlash 0x1000 secondWriteFails).world.trace
          ++ (XmodemDownloadAndProgramFlash 0x1000 secondWriteFails).world.rx
        = secondWriteFails.rx ∧
      (flashWrites (XmodemDownloadAndProgramFlash 0x1000 secondWriteFails).world.trace).length
          + (XmodemDownloadAndProgramFlash 0x1000 secondWriteFails).world.flash.length
        = secondWriteFails.flash.length ∧
      ((XmodemDownloadAndProgramFlash 0x1000 secondWriteFails).status ≠ none →
        p = Phase.kickoff ∨ p = Phase.steady ∨ p = Phase.closed) ∧
      ((XmodemDownloadAndProgramFlash 0x1000 secondWriteFails).status = none →
        ((XmodemDownloadAndProgramFlash 0x1000 secondWriteFails).world.rx = [] ∧
          (p = Phase.kicked ∨ p = Phase.steady)) ∨
        ((XmodemDownloadAndProgramFlash 0x1000 secondWriteFails).world.flash = [] ∧
          p = Phase.received ∧
          ∃ src, writeJustified
            (XmodemDownloadAndProgramFlash 0x1000 secondWriteFails).world.trace src)) ∧
      (secondWriteFails.rx.length ≤ secondWriteFails.flash.length → p ≠ Phase.received) :=
  ⟨rfl, lockstep_responses 0x1000 secondWriteFails rfl⟩

end Xmodem

namespace MenuExt

/-! ## The block-size entry of the QSPI benchmark menu -/

theorem INVALID_CHARACTER_eq : INVALID_CHARACTER = -1 := by decide

theorem INVALID_BLOCK_SIZE_eq : INVALID_BLOCK_SIZE = -2 := by decide

theorem INVALID_BLOCK_BOUNDARY_eq : INVALID_BLOCK_BOUNDARY = -3 := by decide

/-- The result of `validate_user_input` is a number read from digits or INVALID_CHARACTER. -/
theorem validateLoop_range : ∀ (p_input : List Int) (value : Int), 0 ≤ value →
    validateLoop value p_input = -1 ∨ 0 ≤ validateLoop value p_input := by
  intro p_input
  induction p_input with
  | nil => intro value _; left; simp [validateLoop, INVALID_CHARACTER_eq]
  | cons c p ih =>
    intro value hv
    unfold validateLoop
    by_cases hd : 0x30 ≤ c ∧ c ≤ 0x39
    · rw [if_pos hd]
      apply ih
      unfold atoi
      omega
    · rw [if_neg hd]
      simp only [INVALID_CHARACTER_eq]
      by_cases h1 : MENU_EXIT_CRTL = c
      · simp [h1]
      · by_cases h2 : MENU_ENTER_RESPONSE_CRTL = c
        · rw [if_neg h1, if_pos h2]; right; exact hv
        · rw [if_neg h1, if_neg h2]; left; rfl

/-- Only the space bar sets `valid_block_size` inside the inner loop. -/
theorem readEntry_space : ∀ (inputs : List Int) (ndx : Nat) (str : List Int) (e : Entry),
    readEntry inputs ndx str = some e → e.valid_block_size = true → e.c = MENU_EXIT_CRTL := by
  intro inputs
  induction inputs with
  | nil => intro ndx str e h; simp [readEntry] at h
  | cons c rest ih =>
    intro ndx str e h hv
    unfold readEntry at h
    by_cases h0 : ndx < INPUT_BUFFER - 2
    · rw [if_pos h0] at h
      by_cases h1 : MENU_EXIT_CRTL = c
      · simp only [if_pos h1, Option.some.injEq] at h
        subst h
        exact h1.symm
      · by_cases h2 : MENU_ENTER_RESPONSE_CRTL = c
        · simp only [if_neg h1, if_pos h2, Option.some.injEq] at h
          subst h
          simp at hv
        · by_cases h3 : CONNECTION_ABORT_CRTL ≠ c
          · simp only [if_neg h1, if_neg h2, if_pos h3] at h
            exact ih _ _ e h hv
          · simp only [if_neg h1, if_neg h2, if_neg h3, Option.some.injEq] at h
            subst h
            simp at hv
    · simp only [if_neg h0, Option.some.injEq] at h
      subst h
      simp at hv

/-- Every pass of the inner loop reads at least one character. -/
theorem readEntry_consumes : ∀ (inputs : List Int) (ndx : Nat) (str : List Int) (e : Entry),
    readEntry inputs ndx str = some e → e.rest.length < inputs.length := by
  intro inputs
  induction inputs with
  | nil => intro ndx str e h; simp [readEntry] at h
  | cons c rest ih =>
    intro ndx str e h
    unfold readEntry at h
    by_cases h0 : ndx < INPUT_BUFFER - 2
    · rw [if_pos h0] at h
      by_cases h1 : MENU_EXIT_CRTL = c
      · simp only [if_pos h1, Option.some.injEq] at h
        subst h
        simp
      · by_cases h2 : MENU_ENTER_RESPONSE_CRTL = c
        · simp only [if_neg h1, if_pos h2, Option.some.injEq] at h
          subst h
          simp
        · by_cases h3 : CONNECTION_ABORT_CRTL ≠ c
          · simp only [if_neg h1, if_neg h2, if_pos h3] at h
            have := ih _ _ e h
            simp only [List.length_cons]
            omega
          · simp only [if_neg h1, if_neg h2, if_neg h3, Option.some.injEq] at h
            subst h
            simp
    · simp only [if_neg h0, Option.some.injEq] at h
      subst h
      simp

/-- The fuel of the block-size loop is immaterial once it exceeds the length of the input. -/
theorem blockSizeLoop_enough_fuel : ∀ (fuel1 fuel2 : Nat) (value : Int) (inputs : List Int),
    inputs.length < fuel1 → inputs.length < fuel2 →
    blockSizeLoop fuel1 value inputs = blockSizeLoop fuel2 value inputs := by
  intro fuel1
  induction fuel1 with
  | zero => intro fuel2 value inputs h; omega
  | succ f1 ih =>
    intro fuel2 value inputs h1 h2
    obtain ⟨f2, rfl⟩ : ∃ f2, fuel2 = f2 + 1 := ⟨fuel2 - 1, by omega⟩
    unfold blockSizeLoop
    cases he : readEntry inputs 0 (List.replicate INPUT_BUFFER 0) with
    | none => rfl
    | some e =>
      have hc := readEntry_consumes _ _ _ e he
      have hr : ∀ v, blockSizeLoop f1 v e.rest = blockSizeLoop f2 v e.rest :=
        fun v => ih f2 v e.rest (by omega) (by omega)
      simp only [hr]

/-- The values that pass the checks of lines 503-516 and the switch of line 518. -/
theorem checkValue_valid (v : Int) (hv : v = -1 ∨ 0 ≤ v)
    (h : ¬ (checkValue v = INVALID_CHARACTER ∨ checkValue v = INVALID_BLOCK_SIZE ∨
      checkValue v = INVALID_BLOCK_BOUNDARY)) :
    checkValue v = 0 ∨ (checkValue v % 2 = 0 ∧ 2 ≤ checkValue v ∧ checkValue v ≤ 64) := by
  simp only [checkValue, INVALID_CHARACTER_eq, INVALID_BLOCK_SIZE_eq, INVALID_BLOCK_BOUNDARY_eq,
    BLOCK_LIMIT] at h ⊢
  split_ifs at h ⊢ <;> omega

/-- When the block-size loop is left after a TAB, `value` is 0 or an even number from 2 to
64. -/
theorem blockSizeLoop_tab : ∀ (fuel : Nat) (value : Int) (inputs : List Int) (x : LoopExit),
    blockSizeLoop fuel value inputs = some x → x.c = MENU_ENTER_RESPONSE_CRTL →
    x.value = 0 ∨ (x.value % 2 = 0 ∧ 2 ≤ x.value ∧ x.value ≤ 64) := by
  intro fuel
  induction fuel with
  | zero => intro value inputs x h; simp [blockSizeLoop] at h
  | succ f ih =>
    intro value inputs x h hc
    unfold blockSizeLoop at h
    cases he : readEntry inputs 0 (List.replicate INPUT_BUFFER 0) with
    | none => rw [he] at h; simp at h
    | some e =>
      rw [he] at h
      dsimp only at h
      generalize hv : (if MENU_ENTER_RESPONSE_CRTL = e.c then
        validate_user_input e.s_block_sz_str else value) = v at h
      by_cases hvalid : (if checkValue v = INVALID_CHARACTER ∨
          checkValue v = INVALID_BLOCK_SIZE ∨ checkValue v = INVALID_BLOCK_BOUNDARY then
          e.valid_block_size else true) = true
      · rw [if_pos hvalid] at h
        simp only [Option.some.injEq] at h
        subst h
        dsimp only at hc ⊢
        rw [if_pos hc.symm] at hv
        subst hv
        by_cases hinv : checkValue (validate_user_input e.s_block_sz_str) = INVALID_CHARACTER ∨
            checkValue (validate_user_input e.s_block_sz_str) = INVALID_BLOCK_SIZE ∨
            checkValue (validate_user_input e.s_block_sz_str) = INVALID_BLOCK_BOUNDARY
        · rw [if_pos hinv] at hvalid
          have := readEntry_space _ _ _ e he hvalid
          rw [hc] at this
          exact absurd this (by decide)
        · exact checkValue_valid _ (validateLoop_range _ 0 (le_refl 0)) hinv
      · rw [if_neg hvalid] at h
        exact ih _ _ x h hc

/-- C23 (block size of the benchmark): for every sequence of console input characters, when
`ext_display_menu` calls `qspi_write_test` and `qspi_read_test`, the block size it passes is
even, at least 2 and at most 64. -/
theorem tests_block_size (inputs : List Int) (b : Nat)
    (h : (ext_display_menu inputs).tests = some b) : b % 2 = 0 ∧ 2 ≤ b ∧ b ≤ 64 := by
  unfold ext_display_menu at h
  cases hx : blockSizeLoop (inputs.length + 1) 0 inputs with
  | none => rw [hx] at h; simp at h
  | some x =>
    rw [hx] at h
    dsimp only at h
    by_cases hg : MENU_ENTER_RESPONSE_CRTL = x.c ∧ 0 ≠ x.value
    · rw [if_pos hg] at h
      simp only [Option.some.injEq] at h
      have := blockSizeLoop_tab _ _ _ x hx hg.1.symm
      have h0 := hg.2
      subst h
      unfold toUInt32
      omega
    · rw [if_neg hg] at h
      simp at h

/-- Witness of C23: the entry 24 followed by TAB, then the space bar. -/
theorem tests_block_size_witness :
    (ext_display_menu [0x32, 0x34, 0x09, 0x20]).tests = some 24 ∧
    (24 % 2 = 0 ∧ 2 ≤ 24 ∧ 24 ≤ 64) :=
  ⟨by decide, tests_block_size [0x32, 0x34, 0x09, 0x20] 24 (by decide)⟩

/-- C24 (the two ways out of the block-size loop): on a first entry that is the digit 0
followed by TAB the block-size loop is left, with the block size 0; on a first entry of four
digits without TAB it is left after the fourth digit, with the block size 0 that `value` holds
from its initialisation. Neither entry is a valid block size followed by TAB and in neither
is the space bar pressed. No test is run, and `ext_display_menu` returns without asking again
once the space bar is pressed. -/
theorem block_size_loop_left_without_valid_size :
    (∀ (fuel : Nat) (rest : List Int),
      blockSizeLoop (fuel + 1) 0 (0x30 :: 0x09 :: rest) = some ⟨0x09, 0, rest⟩) ∧
    (∀ (fuel : Nat) (rest : List Int),
      blockSizeLoop (fuel + 1) 0 (0x31 :: 0x32 :: 0x33 :: 0x34 :: rest) = some ⟨0x34, 0, rest⟩) ∧
    ext_display_menu [0x30, 0x09, 0x20] = ⟨some 0, none, true⟩ ∧
    ext_display_menu [0x31, 0x32, 0x33, 0x34, 0x20] = ⟨some 0, none, true⟩ := by
  refine ⟨?_, ?_, by decide, by decide⟩
  · intro fuel rest
    rfl
  · intro fuel rest
    rfl

end MenuExt

namespace FlashAccess

/-! ## The non-secure flash write -/

/-- When `flash_write_ns` returns true: the open, erase and blank-check guards succeed, and
the write guard succeeds if the blank check reports a blank area. -/
theorem flash_write_ns_status (d : AppDefinitions) (g : Guards) (Flash_address : Nat)
    (writeBuffer : List Nat) :
    (flash_write_ns d g Flash_address writeBuffer).status = true ↔
      g.open_guard = fsp_err_t.FSP_SUCCESS ∧ g.erase_guard = fsp_err_t.FSP_SUCCESS ∧
      g.blank_check_guard = fsp_err_t.FSP_SUCCESS ∧
      (g.blank_check_result = flash_result_t.FLASH_RESULT_BLANK →
        g.write_guard = fsp_err_t.FSP_SUCCESS) := by
  obtain ⟨o, e, b, r, wr, fl⟩ := g
  by_cases h1 : fsp_err_t.FSP_SUCCESS = o
  · by_cases h2 : fsp_err_t.FSP_SUCCESS = e
    · by_cases h3 : fsp_err_t.FSP_SUCCESS = b
      · by_cases h4 : flash_result_t.FLASH_RESULT_BLANK = r
        · by_cases h5 : fsp_err_t.FSP_SUCCESS = wr
          · subst h1 h2 h3 h4 h5
            simp only [flash_write_ns, guardedWrite, if_true]
            split <;> simp
          · simp [flash_write_ns, guardedWrite, ← h1, ← h2, ← h3, ← h4, h5, Ne.symm h5]
        · simp [flash_write_ns, guardedWrite, ← h1, ← h2, ← h3, h4, Ne.symm h4]
      · simp [flash_write_ns, guardedWrite, ← h1, ← h2, h3, Ne.symm h3]
    · simp [flash_write_ns, guardedWrite, ← h1, h2, Ne.symm h2]
  · simp [flash_write_ns, guardedWrite, h1, Ne.symm h1]

/-- C28 (a true return means the write was made): when the open, erase and blank-check guards
succeed and the blank check does not report FLASH_RESULT_BLANK, `flash_write_ns` makes no call
of the write guard and nevertheless returns true; the result the write guard would have given
does not matter. -/
theorem not_blank_returns_true (d : AppDefinitions) (write_guard : fsp_err_t)
    (flash : List Nat) (Flash_address : Nat) (writeBuffer : List Nat) :
    (flash_write_ns d ⟨fsp_err_t.FSP_SUCCESS, fsp_err_t.FSP_SUCCESS, fsp_err_t.FSP_SUCCESS,
        flash_result_t.FLASH_RESULT_NOT_BLANK, write_guard, flash⟩
        Flash_address writeBuffer).status = true ∧
    writeCalls (flash_write_ns d ⟨fsp_err_t.FSP_SUCCESS, fsp_err_t.FSP_SUCCESS,
        fsp_err_t.FSP_SUCCESS, flash_result_t.FLASH_RESULT_NOT_BLANK, write_guard, flash⟩
        Flash_address writeBuffer).calls = [] := by
  constructor <;> simp [flash_write_ns, guardedWrite, flash_operation_cleanup, writeCalls]

/-- C29 (read-back verification): when every guard succeeds and the area is blank,
`flash_write_ns` returns true whatever the bytes it reads back from the flash are; in the
sample run the 16 bytes read back are all 0xFF, they differ from the 16 bytes written, and the
value returned is true. -/
theorem read_back_mismatch_returns_true :
    (∀ (d : AppDefinitions) (flash : List Nat) (Flash_address : Nat) (writeBuffer : List Nat),
      (flash_write_ns d ⟨fsp_err_t.FSP_SUCCESS, fsp_err_t.FSP_SUCCESS, fsp_err_t.FSP_SUCCESS,
        flash_result_t.FLASH_RESULT_BLANK, fsp_err_t.FSP_SUCCESS, flash⟩
        Flash_address writeBuffer).status = true) ∧
    bytes sampleDefinitions.FLASH_WRITE_LENGTH (List.range 16)
      ≠ bytes sampleDefinitions.FLASH_WRITE_LENGTH (List.replicate 16 0xFF) ∧
    flash_write_ns sampleDefinitions ⟨fsp_err_t.FSP_SUCCESS, fsp_err_t.FSP_SUCCESS,
        fsp_err_t.FSP_SUCCESS, flash_result_t.FLASH_RESULT_BLANK, fsp_err_t.FSP_SUCCESS,
        List.replicate 16 0xFF⟩ 0x8000 (List.range 16)
      = ⟨true, [Call.g_flash0_open_guard, Call.disable_fault_irq,
          Call.g_flash0_erase_guard 0x8000 1, Call.g_flash0_blank_check_guard 0x8000 256,
          Call.g_flash0_write_guard (List.range 16) 0x8000 16, Call.memcpy 0x8000 16,
          Call.memcmp 16, Call.g_flash0_close_guard, Call.enable_fault_irq]⟩ := by
  refine ⟨?_, by decide, by decide⟩
  intro d flash Flash_address writeBuffer
  simp only [flash_write_ns, guardedWrite, if_true]
  split <;> simp

end FlashAccess
